import Mathlib

/-!
# HyPrism authentication engine: a verification development

A shallow embedding of `internal/auth/auth.go` (and of the login and logout
entry points of `app/app.go`), followed by theorems about it.

Conventions of the embedding

* Go `string` values are Lean `String`s (valid Unicode text); raw byte
  slices are lists of `Byte`.
* `time.Time` is the instant it denotes, in nanoseconds since the Unix
  epoch (`Time`).  Location and monotonic clock reading are not modelled:
  `After`, `Before` and `Equal` compare instants.
* A Go function returning `(T, error)` returns `Except String T`, the
  string being the text of the error.
* Functions with side effects pass a `World` explicitly; everything the
  process does not control (remote endpoints, the random source, the
  browser, the user) is read from an `Env`.
* Library functions of the Go standard distribution are modelled from
  their documented behaviour and carry the library's name.
-/

namespace HyPrism

/-! ## Bytes and text -/

/-- One octet. -/
abbrev Byte := Fin 256

/-- An array of exactly `n` octets, such as Go's `[32]byte`. -/
abbrev ByteArray (n : Nat) := { l : List Byte // l.length = n }

/-- An instant, in nanoseconds since 1970-01-01T00:00:00Z. -/
abbrev Time := Int

/-- The octet with value `n % 256`. -/
def byteOfNat (n : Nat) : Byte := ⟨n % 256, Nat.mod_lt n (by decide)⟩

/-- UTF-8 encoding of one character (Go's `[]byte(string)` conversion, per rune). -/
def utf8Char (c : Char) : List Byte :=
  let n := c.toNat
  if n < 128 then [byteOfNat n]
  else if n < 2048 then [byteOfNat (192 + n / 64), byteOfNat (128 + n % 64)]
  else if n < 65536 then
    [byteOfNat (224 + n / 4096), byteOfNat (128 + n / 64 % 64), byteOfNat (128 + n % 64)]
  else
    [byteOfNat (240 + n / 262144), byteOfNat (128 + n / 4096 % 64),
     byteOfNat (128 + n / 64 % 64), byteOfNat (128 + n % 64)]

/-- The bytes of a string: `[]byte(s)`. -/
def stringBytes (s : String) : List Byte := s.data.flatMap utf8Char

/-- Upper-case hexadecimal digit of a value below 16. -/
def hexDigitUpper (n : Nat) : Char := "0123456789ABCDEF".data.getD n '0'

/-- Lower-case hexadecimal digit of a value below 16. -/
def hexDigitLower (n : Nat) : Char := "0123456789abcdef".data.getD n '0'

/-- Decimal digits of a natural number, most significant first, with `fuel`
bounding the number of digits. -/
def natDigits : Nat → Nat → List Char
  | 0, _ => []
  | fuel + 1, n =>
    if n < 10 then [Char.ofNat (48 + n)]
    else natDigits fuel (n / 10) ++ [Char.ofNat (48 + n % 10)]

/-- Decimal rendering of a natural number (`%d`). -/
def natToString (n : Nat) : String := String.mk (natDigits (n + 1) n)

/-- Decimal rendering of an integer (`%d`). -/
def intToString : Int → String
  | Int.ofNat n => natToString n
  | Int.negSucc n => "-" ++ natToString (n + 1)

/-! ## encoding/base64 -/

/-- Alphabet of `base64.URLEncoding` and `base64.RawURLEncoding`. -/
def encodeURL : List Char :=
  "ABCDEFGHIJKLMNOPQRSTUVWXYZabcdefghijklmnopqrstuvwxyz0123456789-_".data

/-- Alphabet of `base64.StdEncoding`. -/
def encodeStd : List Char :=
  "ABCDEFGHIJKLMNOPQRSTUVWXYZabcdefghijklmnopqrstuvwxyz0123456789+/".data

/-- Character of a 6-bit value in an alphabet. -/
def b64Char (alphabet : List Char) (i : Nat) : Char := alphabet.getD i 'A'

/-- The encoder of `encoding/base64`: three bytes give four characters; a
remainder of one or two bytes gives two or three characters, followed by the padding
characters `pad` asks for (none for the raw encodings). -/
def b64Encode (alphabet : List Char) (pad : List Char) : List Byte → List Char
  | b0 :: b1 :: b2 :: rest =>
    b64Char alphabet (b0.val / 4) :: b64Char alphabet (b0.val % 4 * 16 + b1.val / 16) ::
    b64Char alphabet (b1.val % 16 * 4 + b2.val / 64) :: b64Char alphabet (b2.val % 64) ::
    b64Encode alphabet pad rest
  | [b0, b1] =>
    [b64Char alphabet (b0.val / 4), b64Char alphabet (b0.val % 4 * 16 + b1.val / 16),
     b64Char alphabet (b1.val % 16 * 4)] ++ pad
  | [b0] =>
    [b64Char alphabet (b0.val / 4), b64Char alphabet (b0.val % 4 * 16)] ++ pad ++ pad
  | [] => []

/-- Model of `base64.RawURLEncoding.EncodeToString`. -/
def rawURLEncodeToString (b : List Byte) : String := String.mk (b64Encode encodeURL [] b)

/-- Model of `base64.StdEncoding.EncodeToString`. -/
def stdEncodeToString (b : List Byte) : String := String.mk (b64Encode encodeStd ['='] b)

/-- Value of a character in an alphabet, when it has one. -/
def b64Value (alphabet : List Char) (c : Char) : Option Nat :=
  let i := alphabet.indexOf c
  if i < 64 then some i else none

/-- The values of a run of characters; fails on a character outside the alphabet. -/
def b64Values (alphabet : List Char) : List Char → Option (List Nat)
  | [] => some []
  | c :: cs =>
    match b64Value alphabet c, b64Values alphabet cs with
    | some v, some vs => some (v :: vs)
    | _, _ => none

/-- Regrouping of 6-bit values into bytes for an unpadded encoding: four values
give three bytes, a final group of two or three values gives one or two
bytes, and a final single value is corrupt input. -/
def b64Regroup : List Nat → Option (List Byte)
  | v0 :: v1 :: v2 :: v3 :: rest =>
    match b64Regroup rest with
    | some bs =>
      some (byteOfNat (v0 * 4 + v1 / 16) :: byteOfNat (v1 % 16 * 16 + v2 / 4) ::
            byteOfNat (v2 % 4 * 64 + v3) :: bs)
    | none => none
  | [v0, v1, v2] => some [byteOfNat (v0 * 4 + v1 / 16), byteOfNat (v1 % 16 * 16 + v2 / 4)]
  | [v0, v1] => some [byteOfNat (v0 * 4 + v1 / 16)]
  | [_] => none
  | [] => some []

/-- Model of `base64.RawURLEncoding.DecodeString`: carriage returns and line
feeds are skipped, every other character must belong to the alphabet. -/
def rawURLDecodeString (s : String) : Option (List Byte) :=
  match b64Values encodeURL (s.data.filter (fun c => c.toNat != 13 && c.toNat != 10)) with
  | some vs => b64Regroup vs
  | none => none

/-! ## crypto/sha256 -/

/-- Reduction to a 32-bit word. -/
def w32 (x : Nat) : Nat := x % 4294967296

/-- Rotation of a 32-bit word to the right. -/
def rotr (x n : Nat) : Nat := w32 ((x >>> n) ||| (x <<< (32 - n)))

/-- Round constants of SHA-256. -/
def sha256K : List Nat :=
  [0x428a2f98, 0x71374491, 0xb5c0fbcf, 0xe9b5dba5, 0x3956c25b, 0x59f111f1, 0x923f82a4, 0xab1c5ed5,
   0xd807aa98, 0x12835b01, 0x243185be, 0x550c7dc3, 0x72be5d74, 0x80deb1fe, 0x9bdc06a7, 0xc19bf174,
   0xe49b69c1, 0xefbe4786, 0x0fc19dc6, 0x240ca1cc, 0x2de92c6f, 0x4a7484aa, 0x5cb0a9dc, 0x76f988da,
   0x983e5152, 0xa831c66d, 0xb00327c8, 0xbf597fc7, 0xc6e00bf3, 0xd5a79147, 0x06ca6351, 0x14292967,
   0x27b70a85, 0x2e1b2138, 0x4d2c6dfc, 0x53380d13, 0x650a7354, 0x766a0abb, 0x81c2c92e, 0x92722c85,
   0xa2bfe8a1, 0xa81a664b, 0xc24b8b70, 0xc76c51a3, 0xd192e819, 0xd6990624, 0xf40e3585, 0x106aa070,
   0x19a4c116, 0x1e376c08, 0x2748774c, 0x34b0bcb5, 0x391c0cb3, 0x4ed8aa4a, 0x5b9cca4f, 0x682e6ff3,
   0x748f82ee, 0x78a5636f, 0x84c87814, 0x8cc70208, 0x90befffa, 0xa4506ceb, 0xbef9a3f7, 0xc67178f2]

/-- The eight working words of SHA-256. -/
structure Sha256State where
  a : Nat
  b : Nat
  c : Nat
  d : Nat
  e : Nat
  f : Nat
  g : Nat
  h : Nat

/-- Initial hash value of SHA-256. -/
def sha256Init : Sha256State :=
  ⟨0x6a09e667, 0xbb67ae85, 0x3c6ef372, 0xa54ff53a, 0x510e527f, 0x9b05688c, 0x1f83d9ab, 0x5be0cd19⟩

/-- Message padding: a one bit, zeros up to 56 modulo 64, and the bit length on 8 bytes. -/
def sha256Pad (msg : List Byte) : List Byte :=
  let l := msg.length
  let zeros := (119 - l % 64) % 64
  let bits := 8 * l
  msg ++ [byteOfNat 128] ++ List.replicate zeros (byteOfNat 0) ++
    (List.range 8).map (fun i => byteOfNat (bits / 256 ^ (7 - i)))

/-- Big-endian 32-bit words of a block. -/
def sha256Words : List Byte → List Nat
  | b0 :: b1 :: b2 :: b3 :: rest =>
    (b0.val * 16777216 + b1.val * 65536 + b2.val * 256 + b3.val) :: sha256Words rest
  | _ => []

/-- Extension of the message schedule by `n` words. -/
def sha256Schedule : Nat → List Nat → List Nat
  | 0, w => w
  | n + 1, w =>
    let i := w.length
    let w15 := w.getD (i - 15) 0
    let w2 := w.getD (i - 2) 0
    let s0 := (rotr w15 7) ^^^ (rotr w15 18) ^^^ (w15 >>> 3)
    let s1 := (rotr w2 17) ^^^ (rotr w2 19) ^^^ (w2 >>> 10)
    sha256Schedule n (w ++ [w32 (w.getD (i - 16) 0 + s0 + w.getD (i - 7) 0 + s1)])

/-- One round of the compression function. -/
def sha256Round (s : Sha256State) (kw : Nat × Nat) : Sha256State :=
  let s1 := (rotr s.e 6) ^^^ (rotr s.e 11) ^^^ (rotr s.e 25)
  let ch := (s.e &&& s.f) ^^^ ((4294967295 - s.e) &&& s.g)
  let t1 := w32 (s.h + s1 + ch + kw.1 + kw.2)
  let s0 := (rotr s.a 2) ^^^ (rotr s.a 13) ^^^ (rotr s.a 22)
  let maj := (s.a &&& s.b) ^^^ (s.a &&& s.c) ^^^ (s.b &&& s.c)
  let t2 := w32 (s0 + maj)
  ⟨w32 (t1 + t2), s.a, s.b, s.c, w32 (s.d + t1), s.e, s.f, s.g⟩

/-- Compression of one 64-byte block into the hash value. -/
def sha256Block (s : Sha256State) (block : List Byte) : Sha256State :=
  let w := sha256Schedule 48 (sha256Words block)
  let r := (sha256K.zip w).foldl sha256Round s
  ⟨w32 (s.a + r.a), w32 (s.b + r.b), w32 (s.c + r.c), w32 (s.d + r.d),
   w32 (s.e + r.e), w32 (s.f + r.f), w32 (s.g + r.g), w32 (s.h + r.h)⟩

/-- Processing of the padded message, block by block (`n` blocks). -/
def sha256Blocks : Nat → Sha256State → List Byte → Sha256State
  | 0, s, _ => s
  | n + 1, s, bs => sha256Blocks n (sha256Block s (bs.take 64)) (bs.drop 64)

/-- The four bytes of a word, most significant first. -/
def wordBytes (w : Nat) : List Byte :=
  [byteOfNat (w / 16777216), byteOfNat (w / 65536), byteOfNat (w / 256), byteOfNat w]

/-- The 32 bytes of a hash value. -/
def sha256Digest (s : Sha256State) : List Byte :=
  wordBytes s.a ++ wordBytes s.b ++ wordBytes s.c ++ wordBytes s.d ++
  wordBytes s.e ++ wordBytes s.f ++ wordBytes s.g ++ wordBytes s.h

/-- Model of `sha256.Sum256`: the digest is an array of 32 bytes. -/
def Sum256 (data : List Byte) : ByteArray 32 :=
  let p := sha256Pad data
  ⟨sha256Digest (sha256Blocks (p.length / 64) sha256Init p), rfl⟩

/-! ## net/url -/

/-- Bytes that `url.QueryEscape` leaves alone: letters, digits, `-`, `_`, `.` and `~`. -/
def urlUnreserved (b : Byte) : Bool :=
  (65 ≤ b.val && b.val ≤ 90) || (97 ≤ b.val && b.val ≤ 122) || (48 ≤ b.val && b.val ≤ 57) ||
  b.val == 45 || b.val == 95 || b.val == 46 || b.val == 126

/-- Escaping of one byte by `url.QueryEscape`: a space becomes `+`, any other
byte outside the unreserved set becomes `%XX`. -/
def queryEscapeByte (b : Byte) : List Char :=
  if urlUnreserved b then [Char.ofNat b.val]
  else if b.val = 32 then ['+']
  else ['%', hexDigitUpper (b.val / 16), hexDigitUpper (b.val % 16)]

/-- Model of `url.QueryEscape`. -/
def QueryEscape (s : String) : String := String.mk ((stringBytes s).flatMap queryEscapeByte)

/-- Model of `url.Values` restricted to one value per key, as `Set` maintains it. -/
abbrev Values := List (String × String)

/-- Model of `Values.Set`: the key gets this value, replacing an existing one. -/
def Values.Set (v : Values) (key value : String) : Values :=
  (v.filter (fun kv => kv.1 != key)) ++ [(key, value)]

/-- Model of `Values.Get`: the value of a key, or the empty string. -/
def Values.Get (v : Values) (key : String) : String :=
  match v.find? (fun kv => kv.1 == key) with
  | some kv => kv.2
  | none => ""

/-- Insertion of a pair into a list sorted by key. -/
def valuesInsert (kv : String × String) : Values → Values
  | [] => [kv]
  | x :: xs => if kv.1.data < x.1.data then kv :: x :: xs else x :: valuesInsert kv xs

/-- Model of `Values.Encode`: `key=value` pairs, both escaped, sorted by key and joined by `&`. -/
def Values.Encode (v : Values) : String :=
  String.intercalate "&"
    ((v.foldr valuesInsert []).map (fun kv => QueryEscape kv.1 ++ "=" ++ QueryEscape kv.2))

/-! ## encoding/json: values and the scanner -/

/-- A parsed JSON value.  A string keeps the source text between its quotes
next to its decoded value; a number keeps its literal. -/
inductive JValue where
  | null : JValue
  | bool (b : Bool) : JValue
  | num (lit : List Char) : JValue
  | str (raw : List Char) (val : String) : JValue
  | arr (items : List JValue) : JValue
  | obj (members : List (String × JValue)) : JValue

/-- JSON white space: space, tab, line feed, carriage return. -/
def jsonIsWs (c : Char) : Bool :=
  c.toNat == 32 || c.toNat == 9 || c.toNat == 10 || c.toNat == 13

/-- Removal of leading white space. -/
def jsonSkipWs : List Char → List Char
  | [] => []
  | c :: cs => if jsonIsWs c then jsonSkipWs cs else c :: cs

/-- Value of a hexadecimal digit. -/
def hexVal (c : Char) : Option Nat :=
  let n := c.toNat
  if 48 ≤ n ∧ n ≤ 57 then some (n - 48)
  else if 97 ≤ n ∧ n ≤ 102 then some (n - 87)
  else if 65 ≤ n ∧ n ≤ 70 then some (n - 55)
  else none

/-- Value of four hexadecimal digits. -/
def hex4 (a b c d : Char) : Option Nat :=
  match hexVal a, hexVal b, hexVal c, hexVal d with
  | some x, some y, some z, some w => some (x * 4096 + y * 256 + z * 16 + w)
  | _, _, _, _ => none

/-- Character denoted by a one-letter escape, the letter given by its code. -/
def jsonSimpleEscape (e : Char) : Option Char :=
  let n := e.toNat
  if n = 34 ∨ n = 92 ∨ n = 47 then some e
  else if n = 98 then some (Char.ofNat 8)
  else if n = 102 then some (Char.ofNat 12)
  else if n = 110 then some (Char.ofNat 10)
  else if n = 114 then some (Char.ofNat 13)
  else if n = 116 then some (Char.ofNat 9)
  else none

/-- The low half of a surrogate pair, when the text starts with its escape. -/
def jsonLowSurrogate : List Char → Option Nat
  | b :: u :: h1 :: h2 :: h3 :: h4 :: _ =>
    if b.toNat = 92 ∧ u.toNat = 117 then
      match hex4 h1 h2 h3 h4 with
      | some lo => if 56320 ≤ lo ∧ lo < 57344 then some lo else none
      | none => none
    else none
  | _ => none

/-- Scanner and unquoter of a JSON string, started after the opening quote.
Returns the source text up to the closing quote, the decoded characters, and
what follows the closing quote.  An escaped surrogate that is not the high
half of a valid pair decodes to U+FFFD. -/
def jsonStringBody : Nat → List Char → Option (List Char × List Char × List Char)
  | 0, _ => none
  | _ + 1, [] => none
  | fuel + 1, c :: cs =>
    if c.toNat = 34 then some ([], [], cs)
    else if c.toNat = 92 then
      match cs with
      | [] => none
      | e :: cs1 =>
        if e.toNat = 117 then
          match cs1 with
          | h1 :: h2 :: h3 :: h4 :: cs2 =>
            match hex4 h1 h2 h3 h4 with
            | none => none
            | some u =>
              if 55296 ≤ u ∧ u < 57344 then
                match (if u < 56320 then jsonLowSurrogate cs2 else none) with
                | some lo =>
                  match jsonStringBody fuel (cs2.drop 6) with
                  | some (raw, val, rest) =>
                    some (c :: e :: h1 :: h2 :: h3 :: h4 :: (cs2.take 6 ++ raw),
                          Char.ofNat (65536 + (u - 55296) * 1024 + (lo - 56320)) :: val, rest)
                  | none => none
                | none =>
                  match jsonStringBody fuel cs2 with
                  | some (raw, val, rest) =>
                    some (c :: e :: h1 :: h2 :: h3 :: h4 :: raw, Char.ofNat 65533 :: val, rest)
                  | none => none
              else
                match jsonStringBody fuel cs2 with
                | some (raw, val, rest) =>
                  some (c :: e :: h1 :: h2 :: h3 :: h4 :: raw, Char.ofNat u :: val, rest)
                | none => none
          | _ => none
        else
          match jsonSimpleEscape e with
          | none => none
          | some ch =>
            match jsonStringBody fuel cs1 with
            | some (raw, val, rest) => some (c :: e :: raw, ch :: val, rest)
            | none => none
    else if c.toNat < 32 then none
    else
      match jsonStringBody fuel cs with
      | some (raw, val, rest) => some (c :: raw, c :: val, rest)
      | none => none

/-- Whether a character is a decimal digit. -/
def isDigit (c : Char) : Bool := 48 ≤ c.toNat && c.toNat ≤ 57

/-- The leading run of decimal digits, and what follows it. -/
def takeDigits : List Char → List Char × List Char
  | [] => ([], [])
  | c :: cs => if isDigit c then ((takeDigits cs).1.cons c, (takeDigits cs).2) else ([], c :: cs)

/-- Optional exponent of a JSON number. -/
def jsonExponent (cs : List Char) : Option (List Char × List Char) :=
  match cs with
  | e :: cs1 =>
    if e.toNat = 101 ∨ e.toNat = 69 then
      match cs1 with
      | s :: cs2 =>
        if s.toNat = 43 ∨ s.toNat = 45 then
          match takeDigits cs2 with
          | ([], _) => none
          | (ds, rest) => some (e :: s :: ds, rest)
        else
          match takeDigits cs1 with
          | ([], _) => none
          | (ds, rest) => some (e :: ds, rest)
      | [] => none
    else some ([], cs)
  | [] => some ([], cs)

/-- Optional fraction of a JSON number, followed by its optional exponent. -/
def jsonFraction (cs : List Char) : Option (List Char × List Char) :=
  match cs with
  | p :: cs1 =>
    if p.toNat = 46 then
      match takeDigits cs1 with
      | ([], _) => none
      | (ds, rest) =>
        match jsonExponent rest with
        | some (ex, rest1) => some (p :: (ds ++ ex), rest1)
        | none => none
    else jsonExponent cs
  | [] => some ([], cs)

/-- Digits, fraction and exponent of a JSON number, after its optional sign. -/
def jsonUnsigned (cs : List Char) : Option (List Char × List Char) :=
  match cs with
  | d :: cs1 =>
    if d.toNat = 48 then
      match jsonFraction cs1 with
      | some (fr, rest) => some (d :: fr, rest)
      | none => none
    else if isDigit d then
      match jsonFraction (takeDigits cs1).2 with
      | some (fr, rest) => some (d :: ((takeDigits cs1).1 ++ fr), rest)
      | none => none
    else none
  | [] => none

/-- Scanner of a JSON number: its literal and what follows. -/
def jsonNumber (cs : List Char) : Option (List Char × List Char) :=
  match cs with
  | m :: cs1 =>
    if m.toNat = 45 then
      match jsonUnsigned cs1 with
      | some (lit, rest) => some (m :: lit, rest)
      | none => none
    else jsonUnsigned cs
  | [] => none

/-- Removal of a fixed word from the front of the text. -/
def dropWord : List Char → List Char → Option (List Char)
  | [], cs => some cs
  | _ :: _, [] => none
  | w :: ws, c :: cs => if w = c then dropWord ws cs else none

/-- Greatest nesting of arrays and objects the scanner accepts. -/
def maxNestingDepth : Nat := 10000

mutual
/-- Parser of one JSON value, with what follows it.  `depth` counts the
enclosing arrays and objects; `fuel` bounds the number of nested calls. -/
def jsonValue : Nat → Nat → List Char → Option (JValue × List Char)
  | 0, _, _ => none
  | fuel + 1, depth, cs =>
    match jsonSkipWs cs with
    | [] => none
    | c :: rest =>
      if c.toNat = 123 then
        if depth < maxNestingDepth then
          match jsonSkipWs rest with
          | [] => none
          | d :: rest1 =>
            if d.toNat = 125 then some (JValue.obj [], rest1)
            else
              match jsonMembers fuel (depth + 1) (d :: rest1) with
              | some (ms, rest2) => some (JValue.obj ms, rest2)
              | none => none
        else none
      else if c.toNat = 91 then
        if depth < maxNestingDepth then
          match jsonSkipWs rest with
          | [] => none
          | d :: rest1 =>
            if d.toNat = 93 then some (JValue.arr [], rest1)
            else
              match jsonElements fuel (depth + 1) (d :: rest1) with
              | some (xs, rest2) => some (JValue.arr xs, rest2)
              | none => none
        else none
      else if c.toNat = 34 then
        match jsonStringBody (rest.length + 1) rest with
        | some (raw, val, rest1) => some (JValue.str raw (String.mk val), rest1)
        | none => none
      else if c.toNat = 116 then
        match dropWord "rue".data rest with
        | some rest1 => some (JValue.bool true, rest1)
        | none => none
      else if c.toNat = 102 then
        match dropWord "alse".data rest with
        | some rest1 => some (JValue.bool false, rest1)
        | none => none
      else if c.toNat = 110 then
        match dropWord "ull".data rest with
        | some rest1 => some (JValue.null, rest1)
        | none => none
      else
        match jsonNumber (c :: rest) with
        | some (lit, rest1) => some (JValue.num lit, rest1)
        | none => none
/-- Parser of the elements of a non-empty array, up to and including `]`. -/
def jsonElements : Nat → Nat → List Char → Option (List JValue × List Char)
  | 0, _, _ => none
  | fuel + 1, depth, cs =>
    match jsonValue fuel depth cs with
    | none => none
    | some (v, rest) =>
      match jsonSkipWs rest with
      | [] => none
      | c :: rest1 =>
        if c.toNat = 93 then some ([v], rest1)
        else if c.toNat = 44 then
          match jsonElements fuel depth rest1 with
          | some (vs, rest2) => some (v :: vs, rest2)
          | none => none
        else none
/-- Parser of the members of a non-empty object, up to and including the closing brace. -/
def jsonMembers : Nat → Nat → List Char → Option (List (String × JValue) × List Char)
  | 0, _, _ => none
  | fuel + 1, depth, cs =>
    match jsonSkipWs cs with
    | [] => none
    | q :: rest =>
      if q.toNat = 34 then
        match jsonStringBody (rest.length + 1) rest with
        | none => none
        | some (_, key, rest1) =>
          match jsonSkipWs rest1 with
          | [] => none
          | c :: rest2 =>
            if c.toNat = 58 then
              match jsonValue fuel depth rest2 with
              | none => none
              | some (v, rest3) =>
                match jsonSkipWs rest3 with
                | [] => none
                | e :: rest4 =>
                  if e.toNat = 125 then some ([(String.mk key, v)], rest4)
                  else if e.toNat = 44 then
                    match jsonMembers fuel depth rest4 with
                    | some (ms, rest5) => some ((String.mk key, v) :: ms, rest5)
                    | none => none
                  else none
            else none
      else none
end

/-- Parser of a whole JSON text: one value surrounded by optional white
space; `none` is a syntax error. -/
def jsonParse (data : String) : Option JValue :=
  match jsonValue (data.data.length + 1) 0 data.data with
  | some (v, rest) => if jsonSkipWs rest = [] then some v else none
  | none => none

/-- Escaping of one character by the JSON encoder (HTML escaping on): quote,
backslash and control characters, then `<`, `>`, `&`, U+2028 and U+2029. -/
def jsonEscapeChar (c : Char) : List Char :=
  let n := c.toNat
  if n = 34 ∨ n = 92 then [Char.ofNat 92, c]
  else if n = 8 then [Char.ofNat 92, 'b']
  else if n = 12 then [Char.ofNat 92, 'f']
  else if n = 10 then [Char.ofNat 92, 'n']
  else if n = 13 then [Char.ofNat 92, 'r']
  else if n = 9 then [Char.ofNat 92, 't']
  else if n < 32 ∨ n = 60 ∨ n = 62 ∨ n = 38 ∨ n = 8232 ∨ n = 8233 then
    [Char.ofNat 92, 'u', hexDigitLower (n / 4096), hexDigitLower (n / 256 % 16),
     hexDigitLower (n / 16 % 16), hexDigitLower (n % 16)]
  else [c]

/-- A string as the JSON encoder writes it, quotes included. -/
def jsonQuote (s : String) : List Char :=
  Char.ofNat 34 :: (s.data.flatMap jsonEscapeChar ++ [Char.ofNat 34])

/-! ## time: RFC 3339 -/

/-- Days from 0000-01-01 to the first of January of year `y`. -/
def daysBeforeYear (y : Nat) : Nat := 365 * y + (y + 3) / 4 - (y + 99) / 100 + (y + 399) / 400

/-- Gregorian leap years. -/
def isLeap (y : Nat) : Bool := y % 4 == 0 && (y % 100 != 0 || y % 400 == 0)

/-- Days of a year before the first of month `m` (1 to 12; 13 gives the length of the year). -/
def daysBeforeMonth (leap : Bool) (m : Nat) : Nat :=
  let l := if leap then 1 else 0
  if m ≤ 1 then 0 else if m = 2 then 31 else if m = 3 then 59 + l else if m = 4 then 90 + l
  else if m = 5 then 120 + l else if m = 6 then 151 + l else if m = 7 then 181 + l
  else if m = 8 then 212 + l else if m = 9 then 243 + l else if m = 10 then 273 + l
  else if m = 11 then 304 + l else if m = 12 then 334 + l else 365 + l

/-- Model of `daysIn`: the number of days of a month. -/
def daysIn (m y : Nat) : Nat := daysBeforeMonth (isLeap y) (m + 1) - daysBeforeMonth (isLeap y) m

/-- Year containing day number `n` (counted from 0000-01-01). -/
def yearOfDay (n : Nat) : Nat :=
  let y0 := n * 400 / 146097
  if n < daysBeforeYear y0 then y0 - 1
  else if n < daysBeforeYear (y0 + 1) then y0
  else y0 + 1

/-- Month containing day `r` of a year (`r` counted from 0). -/
def monthOfYearDay (leap : Bool) (r : Nat) : Nat :=
  if r < daysBeforeMonth leap 2 then 1 else if r < daysBeforeMonth leap 3 then 2
  else if r < daysBeforeMonth leap 4 then 3 else if r < daysBeforeMonth leap 5 then 4
  else if r < daysBeforeMonth leap 6 then 5 else if r < daysBeforeMonth leap 7 then 6
  else if r < daysBeforeMonth leap 8 then 7 else if r < daysBeforeMonth leap 9 then 8
  else if r < daysBeforeMonth leap 10 then 9 else if r < daysBeforeMonth leap 11 then 10
  else if r < daysBeforeMonth leap 12 then 11 else 12

/-- The decimal digit character of `v % 10`. -/
def digitChar (v : Nat) : Char := Char.ofNat (48 + v % 10)

/-- A value on two decimal digits. -/
def twoDigits (v : Nat) : List Char := [digitChar (v / 10), digitChar v]

/-- A value on four decimal digits. -/
def fourDigits (v : Nat) : List Char :=
  [digitChar (v / 1000), digitChar (v / 100), digitChar (v / 10), digitChar v]

/-- Digits of a fraction of `width` digits with its trailing zeros removed. -/
def fracDigits : Nat → Nat → List Char
  | 0, _ => []
  | w + 1, v => if v = 0 then [] else digitChar (v / 10 ^ w) :: fracDigits w (v % 10 ^ w)

/-- Model of `appendFormatRFC3339` with nanoseconds for a time in UTC, from
its civil fields, the second of the day and the nanosecond. -/
def appendFormatRFC3339 (y m d sod nsec : Nat) : List Char :=
  fourDigits y ++ '-' :: twoDigits m ++ '-' :: twoDigits d ++
    'T' :: twoDigits (sod / 3600) ++ ':' :: twoDigits (sod / 60 % 60) ++
    ':' :: twoDigits (sod % 60) ++
    (if nsec = 0 then [] else '.' :: fracDigits 9 nsec) ++ ['Z']

/-- Model of `Time.MarshalJSON` for a time in UTC: the RFC 3339 text with
nanoseconds, trailing zeros of the fraction removed, in quotes; an error when
the year is outside 0000 to 9999. -/
def timeMarshalJSON (t : Time) : Except String (List Char) :=
  let secs := t / 1000000000
  let nsec := (t % 1000000000).toNat
  let n := secs / 86400 + 719528
  let sod := (secs % 86400).toNat
  if n < 0 ∨ 3652425 ≤ n then
    Except.error "Time.MarshalJSON: year outside of range [0,9999]"
  else
    let y := yearOfDay n.toNat
    let r := n.toNat - daysBeforeYear y
    let m := monthOfYearDay (isLeap y) r
    let d := r - daysBeforeMonth (isLeap y) m + 1
    Except.ok (Char.ofNat 34 :: (appendFormatRFC3339 y m d sod nsec ++ [Char.ofNat 34]))

/-- Model of the `parseUint` helper of `parseRFC3339`: an unsigned decimal
number within a range. -/
def parseUint (s : List Char) (min max : Nat) : Option Nat :=
  if s.all isDigit then
    let x := s.foldl (fun x c => x * 10 + (c.toNat - 48)) 0
    if x < min ∨ max < x then none else some x
  else none

/-- Model of `parseNanoseconds` on the digits of a fraction: the first nine
digits count, scaled to nanoseconds. -/
def parseNanoseconds (digits : List Char) : Nat :=
  let ds := digits.take 9
  ds.foldl (fun x c => x * 10 + (c.toNat - 48)) 0 * 10 ^ (9 - ds.length)

/-- Model of `time.Date` in UTC for fields already in range, as an instant. -/
def dateUTC (year month day hour min sec nsec : Nat) : Time :=
  ((((daysBeforeYear year + daysBeforeMonth (isLeap year) month + day : Nat) : Int) - 1 - 719528)
      * 86400 + ((hour * 3600 + min * 60 + sec : Nat) : Int)) * 1000000000 + (nsec : Int)

/-- Zone designator of an RFC 3339 time: `Z`, or a sign with hours and
minutes; the result is the offset in seconds east of UTC. -/
def parseZone (s : List Char) : Option Int :=
  match s with
  | [z] => if z = 'Z' then some 0 else none
  | [sg, h1, h2, c, m1, m2] =>
    match parseUint [h1, h2] 0 23, parseUint [m1, m2] 0 59 with
    | some hr, some mm =>
      if (sg = '-' ∨ sg = '+') ∧ c = ':' then
        some (if sg = '-' then - (((hr * 60 + mm) * 60 : Nat) : Int) else (((hr * 60 + mm) * 60 : Nat) : Int))
      else none
    | _, _ => none
  | _ => none

/-- Fraction of a second at the head of the text that follows the seconds: a
period and at least one digit.  Returns the digits and what follows them. -/
def parseFraction (s : List Char) : List Char × List Char :=
  match s with
  | p :: q :: rest =>
    if p = '.' ∧ isDigit q = true then (q :: (takeDigits rest).1, (takeDigits rest).2) else ([], s)
  | _ => ([], s)

/-- Model of `parseRFC3339`, the parser that `time.Parse` and
`Time.UnmarshalJSON` try first for the RFC 3339 layout: fixed-width date and
time fields at fixed positions, an optional fraction, and the zone. -/
def parseRFC3339 (s : List Char) : Option Time :=
  if s.length < 19 then none
  else
    match parseUint (s.take 4) 0 9999, parseUint ((s.drop 5).take 2) 1 12 with
    | some year, some month =>
      match parseUint ((s.drop 8).take 2) 1 (daysIn month year),
            parseUint ((s.drop 11).take 2) 0 23,
            parseUint ((s.drop 14).take 2) 0 59, parseUint ((s.drop 17).take 2) 0 59 with
      | some day, some hour, some min, some sec =>
        if s.getD 4 ' ' = '-' ∧ s.getD 7 ' ' = '-' ∧ s.getD 10 ' ' = 'T' ∧ s.getD 13 ' ' = ':' ∧
            s.getD 16 ' ' = ':' then
          match parseZone (parseFraction (s.drop 19)).2 with
          | some off =>
            some (dateUTC year month day hour min sec
                    (parseNanoseconds (parseFraction (s.drop 19)).1) - off * 1000000000)
          | none => none
        else none
      | _, _, _, _ => none
    | _, _ => none

/-- Model of `time.Parse(time.RFC3339, s)`, which is also how
`Time.UnmarshalJSON` reads the text between the quotes: the RFC 3339 parser
first, then the general layout parser `general` of package `time`. -/
def timeParse (general : String → Option Time) (s : String) : Option Time :=
  match parseRFC3339 s.data with
  | some t => some t
  | none => general s

/-! ## encoding/json: decoding into the structures of package auth -/

/-- Case folding of field names by the decoder: ASCII letters fold to upper
case, and the Kelvin sign and the long s fold with `K` and `S`. -/
def foldRune (c : Char) : Char :=
  let n := c.toNat
  if 97 ≤ n ∧ n ≤ 122 then Char.ofNat (n - 32)
  else if n = 8490 then 'K'
  else if n = 383 then 'S'
  else c

/-- Whether an object key selects the field with this JSON name: the decoder
accepts an exact match or a match up to case. -/
def fieldMatches (key name : String) : Bool := key.data.map foldRune == name.data.map foldRune

/-- Model of `strconv.ParseInt(lit, 10, 64)` on a JSON number literal: the
literal must be an optional minus sign and digits, within 64 signed bits. -/
def parseInt64 (lit : List Char) : Option Int :=
  let neg := lit.head? == some '-'
  let ds := if neg then lit.drop 1 else lit
  if ds ≠ [] ∧ ds.all isDigit then
    let n : Nat := ds.foldl (fun x c => x * 10 + (c.toNat - 48)) 0
    let v : Int := if neg then - (n : Int) else (n : Int)
    if -9223372036854775808 ≤ v ∧ v ≤ 9223372036854775807 then some v else none
  else none

/-- Decoding of a JSON value into a `string` field: the new content of the
field, and the type error if there is one.  `null` leaves the field alone. -/
def jsonSetString (v : JValue) (old : String) : String × Option String :=
  match v with
  | JValue.str _ val => (val, none)
  | JValue.null => (old, none)
  | _ => (old, some "json: cannot unmarshal value into Go value of type string")

/-- Decoding of a JSON value into an `int` field (64 bits). -/
def jsonSetInt (v : JValue) (old : Int) : Int × Option String :=
  match v with
  | JValue.num lit =>
    match parseInt64 lit with
    | some n => (n, none)
    | none => (old, some "json: cannot unmarshal number into Go value of type int")
  | JValue.null => (old, none)
  | _ => (old, some "json: cannot unmarshal value into Go value of type int")

/-- Decoding of a JSON value into a `time.Time` field through
`Time.UnmarshalJSON`, which reads the source text between the quotes. -/
def jsonSetTime (general : String → Option Time) (v : JValue) (old : Time) : Time × Option String :=
  match v with
  | JValue.str raw _ =>
    match timeParse general (String.mk raw) with
    | some t => (t, none)
    | none => (old, some "parsing time: cannot parse as RFC 3339")
  | JValue.null => (old, none)
  | _ => (old, some "Time.UnmarshalJSON: input is not a JSON string")

/-- Decoding of the members of an object, in order, into a structure.  The
first error is kept and decoding goes on, as the decoder does for type errors. -/
def decodeMembers {α : Type} (setField : α → String → JValue → α × Option String) :
    List (String × JValue) → α → Option String → α × Option String
  | [], a, e => (a, e)
  | (k, v) :: ms, a, e =>
    decodeMembers setField ms (setField a k v).1 (if e.isSome then e else (setField a k v).2)

/-- Decoding of a parsed value into a structure: an object fills the fields,
`null` changes nothing, anything else is a type error. -/
def decodeStruct {α : Type} (setField : α → String → JValue → α × Option String)
    (v : JValue) (init : α) : α × Option String :=
  match v with
  | JValue.obj ms => decodeMembers setField ms init none
  | JValue.null => (init, none)
  | _ => (init, some "json: cannot unmarshal value into Go value of struct type")

/-- Model of `json.Unmarshal(data, &x)` for a structure `x` holding `init`:
the content of `x` after the call and the error returned.  A syntax error
leaves `x` untouched. -/
def jsonUnmarshal {α : Type} (setField : α → String → JValue → α × Option String)
    (data : String) (init : α) : α × Option String :=
  match jsonParse data with
  | none => (init, some "invalid character in JSON input")
  | some v => decodeStruct setField v init

/-! ## Package auth: data -/

/-- Official OAuth endpoints and client id. -/
def AuthURL : String := "https://oauth.accounts.hytale.com/oauth2/auth"

/-- Token endpoint. -/
def TokenURL : String := "https://oauth.accounts.hytale.com/oauth2/token"

/-- Account-data endpoint. -/
def LauncherDataURL : String := "https://account-data.hytale.com/my-account/get-launcher-data"

/-- Game-session endpoint. -/
def SessionURL : String := "https://sessions.hytale.com/game-session/new"

/-- Client id of the launcher. -/
def ClientID : String := "hytale-launcher"

/-- The zero value of `time.Time`: 0001-01-01T00:00:00Z. -/
def zeroTime : Time := -62135596800000000000

/-- An authenticated user session (`AuthSession`). -/
structure AuthSession where
  AccessToken : String
  RefreshToken : String
  ExpiresAt : Time
  SessionToken : String
  IdentityToken : String
  Username : String
  UUID : String
  AccountOwnerID : String
  deriving DecidableEq, Repr

/-- The zero value of `AuthSession`. -/
def AuthSession.zero : AuthSession := ⟨"", "", zeroTime, "", "", "", "", ""⟩

/-- A game profile (`Profile`). -/
structure Profile where
  UUID : String
  Username : String
  deriving DecidableEq, Repr

/-- The answer of the account-data endpoint (`ProfilesResponse`). -/
structure ProfilesResponse where
  Owner : String
  Profiles : List Profile
  deriving DecidableEq, Repr

/-- The answer of the game-session endpoint (`GameSessionResponse`). -/
structure GameSessionResponse where
  SessionToken : String
  IdentityToken : String
  ExpiresAt : String
  deriving DecidableEq, Repr

/-- The anonymous structure `tokenResp` of `RefreshSession` and `exchangeCodeForToken`. -/
structure TokenResponse where
  AccessToken : String
  RefreshToken : String
  ExpiresIn : Int
  deriving DecidableEq, Repr

/-- The anonymous structure `errResp` of `exchangeCodeForToken`. -/
structure TokenErrorResponse where
  Error : String
  ErrorDescription : String
  deriving DecidableEq, Repr

/-- Field decoding for `AuthSession`, by JSON tag. -/
def AuthSession.setField (general : String → Option Time) (s : AuthSession) (key : String)
    (v : JValue) : AuthSession × Option String :=
  if fieldMatches key "access_token" then
    ({ s with AccessToken := (jsonSetString v s.AccessToken).1 }, (jsonSetString v s.AccessToken).2)
  else if fieldMatches key "refresh_token" then
    ({ s with RefreshToken := (jsonSetString v s.RefreshToken).1 }, (jsonSetString v s.RefreshToken).2)
  else if fieldMatches key "expires_at" then
    ({ s with ExpiresAt := (jsonSetTime general v s.ExpiresAt).1 }, (jsonSetTime general v s.ExpiresAt).2)
  else if fieldMatches key "session_token" then
    ({ s with SessionToken := (jsonSetString v s.SessionToken).1 }, (jsonSetString v s.SessionToken).2)
  else if fieldMatches key "identity_token" then
    ({ s with IdentityToken := (jsonSetString v s.IdentityToken).1 },
     (jsonSetString v s.IdentityToken).2)
  else if fieldMatches key "username" then
    ({ s with Username := (jsonSetString v s.Username).1 }, (jsonSetString v s.Username).2)
  else if fieldMatches key "uuid" then
    ({ s with UUID := (jsonSetString v s.UUID).1 }, (jsonSetString v s.UUID).2)
  else if fieldMatches key "account_owner_id" then
    ({ s with AccountOwnerID := (jsonSetString v s.AccountOwnerID).1 },
     (jsonSetString v s.AccountOwnerID).2)
  else (s, none)

/-- Field decoding for `Profile`. -/
def Profile.setField (p : Profile) (key : String) (v : JValue) : Profile × Option String :=
  if fieldMatches key "uuid" then
    ({ p with UUID := (jsonSetString v p.UUID).1 }, (jsonSetString v p.UUID).2)
  else if fieldMatches key "username" then
    ({ p with Username := (jsonSetString v p.Username).1 }, (jsonSetString v p.Username).2)
  else (p, none)

/-- Decoding of the elements of an array into a slice of profiles: element
`i` is decoded into the element the slice already has at `i`, or into a zero
profile. -/
def decodeProfiles : List JValue → List Profile → List Profile × Option String
  | [], _ => ([], none)
  | v :: vs, old =>
    let r := decodeStruct Profile.setField v (old.headD ⟨"", ""⟩)
    let rs := decodeProfiles vs old.tail
    (r.1 :: rs.1, if r.2.isSome then r.2 else rs.2)

/-- Field decoding for `ProfilesResponse`. -/
def ProfilesResponse.setField (r : ProfilesResponse) (key : String) (v : JValue) :
    ProfilesResponse × Option String :=
  if fieldMatches key "owner" then
    ({ r with Owner := (jsonSetString v r.Owner).1 }, (jsonSetString v r.Owner).2)
  else if fieldMatches key "profiles" then
    match v with
    | JValue.arr items =>
      ({ r with Profiles := (decodeProfiles items r.Profiles).1 }, (decodeProfiles items r.Profiles).2)
    | JValue.null => ({ r with Profiles := [] }, none)
    | _ => (r, some "json: cannot unmarshal value into Go value of type []auth.Profile")
  else (r, none)

/-- Field decoding for `GameSessionResponse`. -/
def GameSessionResponse.setField (r : GameSessionResponse) (key : String) (v : JValue) :
    GameSessionResponse × Option String :=
  if fieldMatches key "sessionToken" then
    ({ r with SessionToken := (jsonSetString v r.SessionToken).1 }, (jsonSetString v r.SessionToken).2)
  else if fieldMatches key "identityToken" then
    ({ r with IdentityToken := (jsonSetString v r.IdentityToken).1 },
     (jsonSetString v r.IdentityToken).2)
  else if fieldMatches key "expiresAt" then
    ({ r with ExpiresAt := (jsonSetString v r.ExpiresAt).1 }, (jsonSetString v r.ExpiresAt).2)
  else (r, none)

/-- Field decoding for `TokenResponse`. -/
def TokenResponse.setField (r : TokenResponse) (key : String) (v : JValue) :
    TokenResponse × Option String :=
  if fieldMatches key "access_token" then
    ({ r with AccessToken := (jsonSetString v r.AccessToken).1 }, (jsonSetString v r.AccessToken).2)
  else if fieldMatches key "refresh_token" then
    ({ r with RefreshToken := (jsonSetString v r.RefreshToken).1 }, (jsonSetString v r.RefreshToken).2)
  else if fieldMatches key "expires_in" then
    ({ r with ExpiresIn := (jsonSetInt v r.ExpiresIn).1 }, (jsonSetInt v r.ExpiresIn).2)
  else (r, none)

/-- Field decoding for `TokenErrorResponse`. -/
def TokenErrorResponse.setField (r : TokenErrorResponse) (key : String) (v : JValue) :
    TokenErrorResponse × Option String :=
  if fieldMatches key "error" then
    ({ r with Error := (jsonSetString v r.Error).1 }, (jsonSetString v r.Error).2)
  else if fieldMatches key "error_description" then
    ({ r with ErrorDescription := (jsonSetString v r.ErrorDescription).1 },
     (jsonSetString v r.ErrorDescription).2)
  else (r, none)

/-- One line of an indented object: the key, a colon, a space and the encoded value. -/
def jsonMemberLine (key : String) (value : List Char) : List Char :=
  jsonQuote key ++ ':' :: ' ' :: value

/-- Model of `json.MarshalIndent(session, "", "  ")`: the members in field
order, one per line, indented by two spaces.  It fails exactly when the
expiry cannot be written as RFC 3339.  The text fields are valid Unicode
text and the expiry is written in UTC: a Go string with invalid UTF-8, which
the encoder would write as U+FFFD, and an expiry in another location, which
the encoder would write with that location's offset, are not values of the
model. -/
def marshalSessionIndent (s : AuthSession) : Except String String :=
  match timeMarshalJSON s.ExpiresAt with
  | Except.error e => Except.error ("json: error calling MarshalJSON for type time.Time: " ++ e)
  | Except.ok t =>
    let sep : List Char := [',', Char.ofNat 10, ' ', ' ']
    Except.ok (String.mk (Char.ofNat 123 :: Char.ofNat 10 :: ' ' :: ' ' ::
      (jsonMemberLine "access_token" (jsonQuote s.AccessToken) ++ sep ++
       jsonMemberLine "refresh_token" (jsonQuote s.RefreshToken) ++ sep ++
       jsonMemberLine "expires_at" t ++ sep ++
       jsonMemberLine "session_token" (jsonQuote s.SessionToken) ++ sep ++
       jsonMemberLine "identity_token" (jsonQuote s.IdentityToken) ++ sep ++
       jsonMemberLine "username" (jsonQuote s.Username) ++ sep ++
       jsonMemberLine "uuid" (jsonQuote s.UUID) ++ sep ++
       jsonMemberLine "account_owner_id" (jsonQuote s.AccountOwnerID) ++
       [Char.ofNat 10, Char.ofNat 125])))

/-! ## The process and its environment -/

/-- An HTTP request as the engine builds it. -/
structure HttpRequest where
  Method : String
  URL : String
  Header : List (String × String)
  Body : String
  deriving DecidableEq, Repr

/-- An HTTP response: status, the body that `io.ReadAll` returns, and the
error `io.ReadAll` returns with it, if any. -/
structure HttpResponse where
  StatusCode : Int
  Body : String
  ReadErr : Option String
  deriving DecidableEq, Repr

/-- How the wait of the login flow ends: cancellation by the caller, a
request to the callback route with its `code` and `error` query parameters,
or the five-minute timer. -/
inductive WaitEvent where
  | cancelled : WaitEvent
  | callback (code : String) (error : String) : WaitEvent
  | timeout : WaitEvent
  deriving DecidableEq, Repr

/-- Everything outside the process, for the duration of one operation. -/
structure Env where
  /-- The answer of the network to a request (`client.Do`): a transport error or a response. -/
  roundTrip : HttpRequest → Except String HttpResponse
  /-- Nanoseconds that the exchange of a request takes. -/
  elapsed : HttpRequest → Nat
  /-- The general layout parser of package `time`, for texts that the RFC 3339 parser declines. -/
  timeParseLayout : String → Option Time
  /-- `rand.Read` on a buffer of `n` bytes: the content of the buffer after the call, and the error. -/
  randRead : (n : Nat) → ByteArray n × Option String
  /-- `net.Listen("tcp", "127.0.0.1:0")`: the port assigned, or an error. -/
  listen : Except String Nat
  /-- The browser opener: `none` on success, or the error. -/
  openBrowser : String → Option String
  /-- What ends the wait for the redirect. -/
  wait : WaitEvent
  /-- The process umask, applied to the mode of created files and directories. -/
  umask : Nat

/-- A file: permission bits and content. -/
structure FileInfo where
  mode : Nat
  data : String
  deriving DecidableEq, Repr

/-- The state the engine acts on: the clock, the application directory and
the session file in it, the requests sent so far, the loopback receiver, the
URLs handed to the browser and the progress messages reported.  The file
system is a reliable store: an operation fails only when the state says so
(a file that does not exist). -/
structure World where
  now : Time
  appDir : Option Nat
  sessionFile : Option FileInfo
  calls : List HttpRequest
  listener : Option Nat
  serving : Bool
  opened : List String
  progress : List String
  deriving DecidableEq, Repr

/-- Errors of package `os` on a path. -/
inductive PathError where
  | notExist : PathError
  | other (msg : String) : PathError
  deriving DecidableEq, Repr

/-- Model of `os.IsNotExist`. -/
def PathError.isNotExist : PathError → Bool
  | PathError.notExist => true
  | PathError.other _ => false

/-- Text of a path error. -/
def PathError.text : PathError → String
  | PathError.notExist => "no such file or directory"
  | PathError.other msg => msg

/-- Permission bits left by a umask. -/
def applyUmask (perm umask : Nat) : Nat := perm - (perm &&& umask)

/-- Model of `os.MkdirAll` on the directory of the session file: an existing
directory is left as it is, a missing one is created with the given mode. -/
def osMkdirAll (env : Env) (perm : Nat) (w : World) : Except PathError Unit × World :=
  match w.appDir with
  | some _ => (Except.ok (), w)
  | none => (Except.ok (), { w with appDir := some (applyUmask perm env.umask) })

/-- Model of `os.WriteFile` on the session file: an existing file keeps its
mode and gets the new content, a missing one is created with the given mode. -/
def osWriteFile (env : Env) (data : String) (perm : Nat) (w : World) : Except PathError Unit × World :=
  match w.appDir with
  | none => (Except.error PathError.notExist, w)
  | some _ =>
    match w.sessionFile with
    | some f => (Except.ok (), { w with sessionFile := some { f with data := data } })
    | none => (Except.ok (), { w with sessionFile := some ⟨applyUmask perm env.umask, data⟩ })

/-- Model of `os.ReadFile` on the session file. -/
def osReadFile (w : World) : Except PathError String :=
  match w.sessionFile with
  | some f => Except.ok f.data
  | none => Except.error PathError.notExist

/-- Model of `os.Remove` on the session file. -/
def osRemove (w : World) : Except PathError Unit × World :=
  match w.sessionFile with
  | some _ => (Except.ok (), { w with sessionFile := none })
  | none => (Except.error PathError.notExist, w)

/-- Model of `http.NewRequest`; it cannot fail on the constant methods and
URLs of this package. -/
def newRequest (method url body : String) : Except String HttpRequest :=
  Except.ok ⟨method, url, [], body⟩

/-- Model of `req.Header.Set`. -/
def HttpRequest.setHeader (req : HttpRequest) (key value : String) : HttpRequest :=
  { req with Header := req.Header.filter (fun kv => kv.1 != key) ++ [(key, value)] }

/-- Model of `client.Do`: the request is recorded, time passes, and the
environment answers. -/
def clientDo (env : Env) (req : HttpRequest) (w : World) : Except String HttpResponse × World :=
  (env.roundTrip req, { w with calls := w.calls ++ [req], now := w.now + (env.elapsed req : Int) })

/-- Reduction of an integer to 64 signed bits, as Go arithmetic on `int64` does. -/
def wrapInt64 (x : Int) : Int := (x + 9223372036854775808) % 18446744073709551616 - 9223372036854775808

/-- The expression `time.Duration(n) * time.Second`, in nanoseconds. -/
def secondsDuration (n : Int) : Int := wrapInt64 (n * 1000000000)

/-- A progress report through the callback, when the caller gave one. -/
def report (notify : Bool) (msg : String) (w : World) : World :=
  if notify then { w with progress := w.progress ++ [msg] } else w

/-! ## Package auth: the session store -/

/-- `IsExpired` checks if the session has expired: `time.Now().After(s.ExpiresAt)`. -/
def AuthSession.IsExpired (s : AuthSession) (w : World) : Bool := decide (s.ExpiresAt < w.now)

/-- `SaveSession` saves the authentication session to disk. -/
def SaveSession (env : Env) (session : AuthSession) (w : World) : Except String Unit × World :=
  match marshalSessionIndent session with
  | Except.error e => (Except.error ("failed to marshal session: " ++ e), w)
  | Except.ok data =>
    match osMkdirAll env 448 w with
    | (Except.error e, w1) => (Except.error ("failed to create session directory: " ++ e.text), w1)
    | (Except.ok _, w1) =>
      match osWriteFile env data 384 w1 with
      | (Except.error e, w2) => (Except.error ("failed to write session file: " ++ e.text), w2)
      | (Except.ok _, w2) => (Except.ok (), w2)

/-- `LoadSession` loads the authentication session from disk; `none` is the
nil session returned when there is no file. -/
def LoadSession (env : Env) (w : World) : Except String (Option AuthSession) :=
  match osReadFile w with
  | Except.error e =>
    if e.isNotExist then Except.ok none
    else Except.error ("failed to read session file: " ++ e.text)
  | Except.ok data =>
    match jsonUnmarshal (AuthSession.setField env.timeParseLayout) data AuthSession.zero with
    | (_, some e) => Except.error ("failed to parse session: " ++ e)
    | (session, none) => Except.ok (some session)

/-- `ClearSession` removes the saved session. -/
def ClearSession (w : World) : Except String Unit × World :=
  match osRemove w with
  | (Except.error e, w1) =>
    if !e.isNotExist then (Except.error ("failed to remove session file: " ++ e.text), w1)
    else (Except.ok (), w1)
  | (Except.ok _, w1) => (Except.ok (), w1)

/-! ## Package auth: the endpoints -/

/-- `createGameSession` creates a new game session with session and identity
tokens; the result is the session as the call leaves it. -/
def createGameSession (env : Env) (session : AuthSession) (w : World) :
    Except String AuthSession × World :=
  let jsonData : String :=
    String.mk (Char.ofNat 123 :: (jsonQuote "uuid" ++ ':' :: jsonQuote session.UUID ++ [Char.ofNat 125]))
  match newRequest "POST" SessionURL jsonData with
  | Except.error e => (Except.error e, w)
  | Except.ok req0 =>
    let req := ((req0.setHeader "Authorization" ("Bearer " ++ session.AccessToken)).setHeader
      "Content-Type" "application/json").setHeader "User-Agent" "HyPrism/1.0"
    match clientDo env req w with
    | (Except.error e, w1) => (Except.error e, w1)
    | (Except.ok resp, w1) =>
      if resp.StatusCode ≠ 200 then
        (Except.error ("game session creation failed with status " ++ intToString resp.StatusCode ++
          ": " ++ resp.Body), w1)
      else
        match resp.ReadErr with
        | some e => (Except.error e, w1)
        | none =>
          match jsonUnmarshal GameSessionResponse.setField resp.Body ⟨"", "", ""⟩ with
          | (_, some e) => (Except.error e, w1)
          | (gameSession, none) =>
            let session1 :=
              { session with SessionToken := gameSession.SessionToken,
                             IdentityToken := gameSession.IdentityToken }
            match timeParse env.timeParseLayout gameSession.ExpiresAt with
            | none => (Except.ok session1, w1)
            | some expiresAt =>
              if expiresAt < session1.ExpiresAt then
                (Except.ok { session1 with ExpiresAt := expiresAt }, w1)
              else (Except.ok session1, w1)

/-- `RefreshSession` refreshes an expired session using the refresh token. -/
def RefreshSession (env : Env) (session : AuthSession) (w : World) :
    Except String AuthSession × World :=
  let data : Values :=
    Values.Set (Values.Set (Values.Set [] "grant_type" "refresh_token")
      "refresh_token" session.RefreshToken) "client_id" ClientID
  match newRequest "POST" TokenURL (Values.Encode data) with
  | Except.error e => (Except.error ("failed to create refresh request: " ++ e), w)
  | Except.ok req0 =>
    let req := (req0.setHeader "Content-Type" "application/x-www-form-urlencoded").setHeader
      "User-Agent" "HyPrism/1.0"
    match clientDo env req w with
    | (Except.error e, w1) => (Except.error ("failed to refresh session: " ++ e), w1)
    | (Except.ok resp, w1) =>
      if resp.StatusCode ≠ 200 then
        (Except.error ("refresh failed with status " ++ intToString resp.StatusCode ++ ": " ++
          resp.Body), w1)
      else
        match resp.ReadErr with
        | some e => (Except.error ("failed to read refresh response: " ++ e), w1)
        | none =>
          match jsonUnmarshal TokenResponse.setField resp.Body ⟨"", "", 0⟩ with
          | (_, some e) => (Except.error ("failed to parse refresh response: " ++ e), w1)
          | (tokenResp, none) =>
            let newSession : AuthSession :=
              { AccessToken := tokenResp.AccessToken
                RefreshToken := tokenResp.RefreshToken
                ExpiresAt := w1.now + secondsDuration tokenResp.ExpiresIn
                SessionToken := ""
                IdentityToken := ""
                Username := session.Username
                UUID := session.UUID
                AccountOwnerID := session.AccountOwnerID }
            match createGameSession env newSession w1 with
            | (Except.error e, w2) => (Except.error ("failed to create game session: " ++ e), w2)
            | (Except.ok newSession1, w2) => (Except.ok newSession1, w2)

/-- `GetValidSession` returns a valid session, refreshing if necessary. -/
def GetValidSession (env : Env) (w : World) : Except String AuthSession × World :=
  match LoadSession env w with
  | Except.error e => (Except.error e, w)
  | Except.ok none => (Except.error "no session found - please login", w)
  | Except.ok (some session) =>
    if session.IsExpired w then
      match RefreshSession env session w with
      | (Except.error _, w1) =>
        (Except.error "session expired and refresh failed - please login again", (ClearSession w1).2)
      | (Except.ok newSession, w1) =>
        match SaveSession env newSession w1 with
        | (Except.error e, w2) => (Except.error e, w2)
        | (Except.ok _, w2) => (Except.ok newSession, w2)
    else (Except.ok session, w)

/-- `IsLoggedIn` checks if there is a valid session. -/
def IsLoggedIn (env : Env) (w : World) : Bool × World :=
  match GetValidSession env w with
  | (Except.ok _, w1) => (true, w1)
  | (Except.error _, w1) => (false, w1)

/-- `fetchProfiles` fetches the launcher data of the user. -/
def fetchProfiles (env : Env) (accessToken : String) (w : World) :
    Except String ProfilesResponse × World :=
  match newRequest "GET" LauncherDataURL "" with
  | Except.error e => (Except.error e, w)
  | Except.ok req0 =>
    let req := (req0.setHeader "Authorization" ("Bearer " ++ accessToken)).setHeader
      "User-Agent" "HyPrism/1.0"
    match clientDo env req w with
    | (Except.error e, w1) => (Except.error e, w1)
    | (Except.ok resp, w1) =>
      if resp.StatusCode ≠ 200 then
        (Except.error ("launcher data request failed with status " ++ intToString resp.StatusCode ++
          ": " ++ resp.Body), w1)
      else
        match resp.ReadErr with
        | some e => (Except.error e, w1)
        | none =>
          match jsonUnmarshal ProfilesResponse.setField resp.Body ⟨"", []⟩ with
          | (_, some e) => (Except.error e, w1)
          | (profiles, none) => (Except.ok profiles, w1)

/-! ## Package auth: PKCE and the login flow -/

/-- `generateRandomState` generates a random state string for OAuth: 26
random bytes, each masked with `0x1F` and used as an index into the alphabet.
The error of `rand.Read` is not looked at. -/
def generateRandomState (env : Env) : String :=
  String.mk ((env.randRead 26).1.val.map
    (fun b => "ABCDEFGHIJKLMNOPQRSTUVWXYZ234567".data.getD (b.val &&& 31) 'A'))

/-- `generateCodeVerifier` generates a random PKCE code verifier. -/
def generateCodeVerifier (env : Env) : Except String String :=
  match env.randRead 32 with
  | (_, some err) => Except.error err
  | (b, none) => Except.ok (rawURLEncodeToString b.val)

/-- `generateCodeChallenge` generates the PKCE code challenge from the verifier. -/
def generateCodeChallenge (verifier : String) : String :=
  rawURLEncodeToString (Sum256 (stringBytes verifier)).val

/-- What the callback handler does with one request: what it sends to the
orchestrator (an error on the error channel, or the code on the code
channel), the status it writes and the page it serves. -/
structure CallbackResult where
  send : Except String String
  status : Nat
  page : String

/-- The handler of `/authorization-callback`, on the `code` and `error` query parameters. -/
def callbackHandler (code error : String) : CallbackResult :=
  if error ≠ "" then
    { send := Except.error ("OAuth error: " ++ error)
      status := 400
      page := "<html><body><h1>Authentication failed</h1><p>Error: " ++ error ++
        "</p><p>You can close this window.</p></body></html>" }
  else if code = "" then
    { send := Except.error "no authorization code received"
      status := 400
      page := "<html><body><h1>Authentication failed</h1><p>No code received.</p><p>You can close this window.</p></body></html>" }
  else
    { send := Except.ok code
      status := 200
      page := "<html><body><h1>Authentication successful!</h1><p>You can close this window and return to HyPrism.</p></body></html>" }

/-- The state parameter: base64 of the JSON object holding the random state and the port. -/
def stateParam (state : String) (port : Nat) : String :=
  stdEncodeToString (stringBytes (String.mk
    (Char.ofNat 123 :: (jsonQuote "port" ++ ':' :: jsonQuote (natToString port) ++
      ',' :: jsonQuote "state" ++ ':' :: jsonQuote state ++ [Char.ofNat 125]))))

/-- The authorization URL, its parameters in the order of the official launcher. -/
def authorizationURL (codeChallenge state : String) : String :=
  AuthURL ++ "?" ++
    ("access_type=offline&client_id=" ++ QueryEscape ClientID ++
     "&code_challenge=" ++ QueryEscape codeChallenge ++
     "&code_challenge_method=S256&redirect_uri=" ++
       QueryEscape "https://accounts.hytale.com/consent/client" ++
     "&response_type=code&scope=" ++ QueryEscape "openid offline auth:launcher" ++
     "&state=" ++ QueryEscape state)

/-- `exchangeCodeForToken` exchanges the authorization code for an access token using PKCE. -/
def exchangeCodeForToken (env : Env) (code verifier redirectURL : String) (w : World) :
    Except String AuthSession × World :=
  let data : Values :=
    Values.Set (Values.Set (Values.Set (Values.Set (Values.Set [] "grant_type" "authorization_code")
      "code" code) "redirect_uri" redirectURL) "client_id" ClientID) "code_verifier" verifier
  match newRequest "POST" TokenURL (Values.Encode data) with
  | Except.error e => (Except.error e, w)
  | Except.ok req0 =>
    let req := (req0.setHeader "Content-Type" "application/x-www-form-urlencoded").setHeader
      "User-Agent" "HyPrism/1.0"
    match clientDo env req w with
    | (Except.error e, w1) => (Except.error e, w1)
    | (Except.ok resp, w1) =>
      match resp.ReadErr with
      | some e => (Except.error e, w1)
      | none =>
        if resp.StatusCode ≠ 200 then
          let errResp := (jsonUnmarshal TokenErrorResponse.setField resp.Body ⟨"", ""⟩).1
          if errResp.Error = "authorization_pending" then
            (Except.error "authorization_pending", w1)
          else
            (Except.error ("token request failed: " ++ errResp.Error ++ " - " ++
              errResp.ErrorDescription), w1)
        else
          match jsonUnmarshal TokenResponse.setField resp.Body ⟨"", "", 0⟩ with
          | (_, some e) => (Except.error e, w1)
          | (tokenResp, none) =>
            (Except.ok { AccessToken := tokenResp.AccessToken
                         RefreshToken := tokenResp.RefreshToken
                         ExpiresAt := w1.now + secondsDuration tokenResp.ExpiresIn
                         SessionToken := ""
                         IdentityToken := ""
                         Username := ""
                         UUID := ""
                         AccountOwnerID := "" }, w1)

/-- The part of `LoginWithAuthCodeFlow` that runs once the code has arrived:
token exchange, profile fetch, choice of the first profile, game session. -/
def loginWithCode (env : Env) (notify : Bool) (authCode codeVerifier : String) (w : World) :
    Except String AuthSession × World :=
  let w1 := report notify "Exchanging authorization code for token..." w
  match exchangeCodeForToken env authCode codeVerifier "https://accounts.hytale.com/consent/client" w1 with
  | (Except.error e, w2) => (Except.error ("failed to exchange code for token: " ++ e), w2)
  | (Except.ok session, w2) =>
    let w3 := report notify "Fetching profile information..." w2
    match fetchProfiles env session.AccessToken w3 with
    | (Except.error e, w4) => (Except.error ("failed to fetch profiles: " ++ e), w4)
    | (Except.ok profiles, w4) =>
      match profiles.Profiles with
      | [] => (Except.error "no profiles found for this account", w4)
      | profile :: _ =>
        let session1 :=
          { session with Username := profile.Username, UUID := profile.UUID,
                         AccountOwnerID := profiles.Owner }
        let w5 := report notify ("Logged in as: " ++ session1.Username) w4
        match createGameSession env session1 w5 with
        | (Except.error e, w6) => (Except.error ("failed to create game session: " ++ e), w6)
        | (Except.ok session2, w6) => (Except.ok session2, w6)

/-- The part of `LoginWithAuthCodeFlow` that runs while the callback server
is up: the authorization URL, the browser, the wait, and what follows the wait. -/
def loginWhileServing (env : Env) (notify : Bool) (codeVerifier codeChallenge : String)
    (port : Nat) (w : World) : Except String AuthSession × World :=
  let authURL := authorizationURL codeChallenge (stateParam (generateRandomState env) port)
  let w1 := report notify "Opening browser for authentication..." w
  let w2 := { w1 with opened := w1.opened ++ [authURL] }
  match env.openBrowser authURL with
  | some e => (Except.error ("failed to open browser: " ++ e), w2)
  | none =>
    let w3 := report notify "Waiting for authorization..." w2
    match env.wait with
    | WaitEvent.cancelled => (Except.error "login cancelled", w3)
    | WaitEvent.timeout =>
      (Except.error "authentication timed out", { w3 with now := w3.now + 300000000000 })
    | WaitEvent.callback code error =>
      match (callbackHandler code error).send with
      | Except.error err => (Except.error err, w3)
      | Except.ok authCode => loginWithCode env notify authCode codeVerifier w3

/-- `LoginWithAuthCodeFlow` initiates the OAuth authorization code flow with
PKCE.  `notify` says whether the caller passed a progress callback.  The
deferred `server.Shutdown` and `listener.Close` run on every return that
follows a successful `net.Listen`. -/
def LoginWithAuthCodeFlow (env : Env) (notify : Bool) (w : World) :
    Except String AuthSession × World :=
  match generateCodeVerifier env with
  | Except.error e => (Except.error ("failed to generate code verifier: " ++ e), w)
  | Except.ok codeVerifier =>
    let codeChallenge := generateCodeChallenge codeVerifier
    match env.listen with
    | Except.error e => (Except.error ("failed to start callback server: " ++ e), w)
    | Except.ok port =>
      let w1 := { w with listener := some port, serving := true }
      let r := loginWhileServing env notify codeVerifier codeChallenge port w1
      (r.1, { r.2 with serving := false, listener := none })

/-! ## Package app: login and logout -/

/-- `App.LoginWithHytaleAccount` initiates the login flow and saves the session it returns. -/
def App.LoginWithHytaleAccount (env : Env) (w : World) : Except String Unit × World :=
  match LoginWithAuthCodeFlow env true w with
  | (Except.error e, w1) => (Except.error ("login failed: " ++ e), w1)
  | (Except.ok session, w1) =>
    match SaveSession env session w1 with
    | (Except.error e, w2) => (Except.error ("failed to save session: " ++ e), w2)
    | (Except.ok _, w2) => (Except.ok (), w2)

/-- `App.LogoutHytaleAccount` logs out the current account. -/
def App.LogoutHytaleAccount (w : World) : Except String Unit × World :=
  match ClearSession w with
  | (Except.error e, w1) => (Except.error e, w1)
  | (Except.ok _, w1) => (Except.ok (), w1)

/-! ## The requests the engine sends, written out -/

/-- The request of `createGameSession` for a session. -/
def gameSessionRequest (session : AuthSession) : HttpRequest :=
  { Method := "POST"
    URL := SessionURL
    Header := [("Authorization", "Bearer " ++ session.AccessToken),
               ("Content-Type", "application/json"), ("User-Agent", "HyPrism/1.0")]
    Body := String.mk (Char.ofNat 123 ::
      (jsonQuote "uuid" ++ ':' :: jsonQuote session.UUID ++ [Char.ofNat 125])) }

/-- The request of `RefreshSession` for a refresh token. -/
def refreshRequest (refreshToken : String) : HttpRequest :=
  { Method := "POST"
    URL := TokenURL
    Header := [("Content-Type", "application/x-www-form-urlencoded"), ("User-Agent", "HyPrism/1.0")]
    Body := "client_id=hytale-launcher&grant_type=refresh_token&refresh_token=" ++
      QueryEscape refreshToken }

/-- The request of `exchangeCodeForToken`. -/
def tokenRequest (code verifier redirectURL : String) : HttpRequest :=
  { Method := "POST"
    URL := TokenURL
    Header := [("Content-Type", "application/x-www-form-urlencoded"), ("User-Agent", "HyPrism/1.0")]
    Body := "client_id=hytale-launcher&code=" ++ QueryEscape code ++ "&code_verifier=" ++
      QueryEscape verifier ++ "&grant_type=authorization_code&redirect_uri=" ++
      QueryEscape redirectURL }

/-- The request of `fetchProfiles`. -/
def profilesRequest (accessToken : String) : HttpRequest :=
  { Method := "GET"
    URL := LauncherDataURL
    Header := [("Authorization", "Bearer " ++ accessToken), ("User-Agent", "HyPrism/1.0")]
    Body := "" }

/-- The world after one exchange: the request recorded and the clock advanced. -/
def afterCall (env : Env) (req : HttpRequest) (w : World) : World :=
  { w with calls := w.calls ++ [req], now := w.now + (env.elapsed req : Int) }

/-- The characters of the unpadded URL-safe base64 alphabet: letters, digits, `-` and `_`. -/
def isURLSafeChar (c : Char) : Bool :=
  (65 ≤ c.toNat && c.toNat ≤ 90) || (97 ≤ c.toNat && c.toNat ≤ 122) ||
  (48 ≤ c.toNat && c.toNat ≤ 57) || c.toNat == 45 || c.toNat == 95

/-- The 32 random bytes of the sample environment. -/
def sampleRandom : ByteArray 32 := ⟨List.replicate 32 7, List.length_replicate 32 7⟩

/-! ## Sample values

Concrete sessions, worlds and environments at which the theorems below are
instantiated. -/

/-- A world with an empty store at 2025-11-04T13:47:00Z. -/
def sampleWorld : World :=
  { now := 1762264020000000000, appDir := none, sessionFile := none, calls := [],
    listener := none, serving := false, opened := [], progress := [] }

/-- A complete session that expires at 2025-11-04T14:00:00Z. -/
def sampleSession : AuthSession :=
  { AccessToken := "AT", RefreshToken := "RT", ExpiresAt := 1762264800000000000,
    SessionToken := "ST", IdentityToken := "IT", Username := "bob", UUID := "u-1",
    AccountOwnerID := "own" }

/-- A token response granting one hour. -/
def sampleTokenBody : String :=
  "\x7b\"access_token\":\"AT2\",\"refresh_token\":\"RT2\",\"expires_in\":3600\x7d"

/-- A profile list with one profile. -/
def sampleProfilesBody : String :=
  "\x7b\"owner\":\"own\",\"profiles\":[\x7b\"uuid\":\"u-1\",\"username\":\"bob\"\x7d]\x7d"

/-- A game-session response that expires at 2025-11-04T14:00:00Z. -/
def sampleGameBody : String :=
  "\x7b\"sessionToken\":\"ST2\",\"identityToken\":\"IT2\",\"expiresAt\":\"2025-11-04T14:00:00Z\"\x7d"

/-- An environment in which the three endpoints answer 200 with the bodies
`token`, `profiles` and `game`, the random source returns bytes of value 7,
and the redirect delivers the code `abc123`. -/
def envWith (token profiles game : String) : Env :=
  { roundTrip := fun r =>
      if r.URL = TokenURL then Except.ok ⟨200, token, none⟩
      else if r.URL = LauncherDataURL then Except.ok ⟨200, profiles, none⟩
      else Except.ok ⟨200, game, none⟩
    elapsed := fun _ => 1000
    timeParseLayout := fun _ => none
    randRead := fun n => (⟨List.replicate n 7, List.length_replicate n 7⟩, none)
    listen := Except.ok 43210
    openBrowser := fun _ => none
    wait := WaitEvent.callback "abc123" ""
    umask := 18 }

/-- The environment with the sample bodies. -/
def sampleEnv : Env := envWith sampleTokenBody sampleProfilesBody sampleGameBody

/-- An environment whose token endpoint answers 401. -/
def env401 : Env :=
  { sampleEnv with roundTrip := fun _ => Except.ok ⟨401, "unauthorized", none⟩ }

/-- The sample world with a session file holding `data`. -/
def worldWithFile (data : String) : World :=
  { sampleWorld with appDir := some 448, sessionFile := some ⟨384, data⟩ }

/-- The text of the session file for `sampleSession`. -/
def sampleFile : String :=
  "\x7b\n  \"access_token\": \"AT\",\n  \"refresh_token\": \"RT\",\n  \"expires_at\": \"2025-11-04T14:00:00Z\",\n  \"session_token\": \"ST\",\n  \"identity_token\": \"IT\",\n  \"username\": \"bob\",\n  \"uuid\": \"u-1\",\n  \"account_owner_id\": \"own\"\n\x7d"

/-- A session whose expiry is the current time of `sampleWorld`. -/
def boundarySession : AuthSession := { sampleSession with ExpiresAt := 1762264020000000000 }

/-- The stored sample session an hour after it expired, at 2025-11-04T15:00:00Z. -/
def expiredWorld : World := { worldWithFile sampleFile with now := 1762268400000000000 }

/-- A session whose expiry is 10000-01-01T00:00:00Z. -/
def farSession : AuthSession := { sampleSession with ExpiresAt := 253402300800000000000 }

/-- The session that `RefreshSession` assembles from the stored session and a
token response that arrived at `arrival`, before the game session is derived. -/
def refreshedSession (session : AuthSession) (tok : TokenResponse) (arrival : Time) : AuthSession :=
  { AccessToken := tok.AccessToken, RefreshToken := tok.RefreshToken,
    ExpiresAt := arrival + secondsDuration tok.ExpiresIn,
    SessionToken := "", IdentityToken := "", Username := session.Username, UUID := session.UUID,
    AccountOwnerID := session.AccountOwnerID }

/-- A token response whose lifetime is zero seconds. -/
def zeroLifetimeTokenBody : String :=
  "\x7b\"access_token\":\"AT2\",\"refresh_token\":\"RT2\",\"expires_in\":0\x7d"

/-- A game-session response that expires at 2030-01-01T00:00:00Z. -/
def lateGameBody : String :=
  "\x7b\"sessionToken\":\"ST2\",\"identityToken\":\"IT2\",\"expiresAt\":\"2030-01-01T00:00:00Z\"\x7d"

/-- An environment whose token endpoint grants a lifetime of zero seconds. -/
def zeroLifetimeEnv : Env := envWith zeroLifetimeTokenBody sampleProfilesBody lateGameBody

/-- The session rebuilt in `zeroLifetimeEnv` from the expired sample: it expires
when the token response arrives, a microsecond after 15:00:00. -/
def zeroLifetimeSession : AuthSession :=
  { AccessToken := "AT2", RefreshToken := "RT2", ExpiresAt := 1762268400000001000,
    SessionToken := "ST2", IdentityToken := "IT2", Username := "bob", UUID := "u-1",
    AccountOwnerID := "own" }

/-- The session rebuilt in `sampleEnv` from the expired sample. -/
def refreshedSample : AuthSession :=
  { AccessToken := "AT2", RefreshToken := "RT2", ExpiresAt := 1762264800000000000,
    SessionToken := "ST2", IdentityToken := "IT2", Username := "bob", UUID := "u-1",
    AccountOwnerID := "own" }

/-- A session is populated when its seven text fields are non-empty. -/
def AuthSession.populated (s : AuthSession) : Prop :=
  s.AccessToken ≠ "" ∧ s.RefreshToken ≠ "" ∧ s.SessionToken ≠ "" ∧ s.IdentityToken ≠ "" ∧
  s.Username ≠ "" ∧ s.UUID ≠ "" ∧ s.AccountOwnerID ≠ ""

/-- An environment populates sessions when every answer 200 of the token
endpoint that parses carries non-empty tokens, every answer 200 of the
account-data endpoint that parses carries a non-empty owner and, for its first
profile, a non-empty uuid and username, and every answer 200 of the
game-session endpoint that parses carries non-empty session and identity tokens. -/
def Env.populates (env : Env) : Prop :=
  ∀ req resp, env.roundTrip req = Except.ok resp → resp.StatusCode = 200 →
    (req.URL = TokenURL → ∀ tok,
      jsonUnmarshal TokenResponse.setField resp.Body ⟨"", "", 0⟩ = (tok, none) →
      tok.AccessToken ≠ "" ∧ tok.RefreshToken ≠ "") ∧
    (req.URL = LauncherDataURL → ∀ pr p tl,
      jsonUnmarshal ProfilesResponse.setField resp.Body ⟨"", []⟩ = (pr, none) →
      pr.Profiles = p :: tl → pr.Owner ≠ "" ∧ p.UUID ≠ "" ∧ p.Username ≠ "") ∧
    (req.URL = SessionURL → ∀ gs,
      jsonUnmarshal GameSessionResponse.setField resp.Body ⟨"", "", ""⟩ = (gs, none) →
      gs.SessionToken ≠ "" ∧ gs.IdentityToken ≠ "")

/-- The states of the session store that can be reached from an absent file by
interactive login followed by save, `GetValidSession` and its refresh, and
clearing, in environments that satisfy `P`. -/
inductive Reachable (P : Env → Prop) : World → Prop where
  | start (w : World) : w.sessionFile = none → Reachable P w
  | login (env : Env) (w : World) :
      P env → Reachable P w → Reachable P (App.LoginWithHytaleAccount env w).2
  | getValid (env : Env) (w : World) : P env → Reachable P w → Reachable P (GetValidSession env w).2
  | clear (w : World) : Reachable P w → Reachable P (ClearSession w).2
  | logout (w : World) : Reachable P w → Reachable P (App.LogoutHytaleAccount w).2

/-- An environment whose endpoints answer 200 with empty JSON objects, the
account-data endpoint with one profile that has no fields. -/
def emptyAnswersEnv : Env :=
  envWith "\x7b\x7d" "\x7b\"profiles\":[\x7b\x7d]\x7d" "\x7b\x7d"

/-- The session that a login in `emptyAnswersEnv` saves: every text field is empty. -/
def emptySession : AuthSession :=
  { AccessToken := "", RefreshToken := "", ExpiresAt := 1762264020000001000,
    SessionToken := "", IdentityToken := "", Username := "", UUID := "", AccountOwnerID := "" }

/-! ## Readers of what the engine writes

The decoders that the other side of the exchange applies to the state
parameter and to the authorization URL. -/

/-- The decoder of a padded base64 encoding, on text without line breaks: four
characters give three bytes; the last group may end in one or two padding
characters and then gives two bytes or one.  Text may not follow the padding. -/
def b64DecodePadded (alphabet : List Char) : List Char → Option (List Byte)
  | [] => some []
  | c0 :: c1 :: c2 :: c3 :: rest =>
    if rest.isEmpty ∧ c3 = '=' then
      if c2 = '=' then
        match b64Value alphabet c0, b64Value alphabet c1 with
        | some v0, some v1 => some [byteOfNat (v0 * 4 + v1 / 16)]
        | _, _ => none
      else
        match b64Value alphabet c0, b64Value alphabet c1, b64Value alphabet c2 with
        | some v0, some v1, some v2 =>
          some [byteOfNat (v0 * 4 + v1 / 16), byteOfNat (v1 % 16 * 16 + v2 / 4)]
        | _, _, _ => none
    else
      match b64Value alphabet c0, b64Value alphabet c1, b64Value alphabet c2,
          b64Value alphabet c3, b64DecodePadded alphabet rest with
      | some v0, some v1, some v2, some v3, some bs =>
        some (byteOfNat (v0 * 4 + v1 / 16) :: byteOfNat (v1 % 16 * 16 + v2 / 4) ::
              byteOfNat (v2 % 4 * 64 + v3) :: bs)
      | _, _, _, _, _ => none
  | _ => none

/-- Model of `base64.StdEncoding.DecodeString`: carriage returns and line
feeds are skipped, the rest is decoded with padding. -/
def stdDecodeString (s : String) : Option (List Byte) :=
  b64DecodePadded encodeStd (s.data.filter (fun c => c.toNat != 13 && c.toNat != 10))

/-- Value of a run of decimal digits. -/
def decimalValue (cs : List Char) : Nat :=
  cs.foldl (fun acc c => acc * 10 + (c.toNat - 48)) 0

/-- Model of `url.QueryUnescape`, giving the bytes of the result: `+` is a
space, `%XX` is the byte with that hexadecimal value, and a `%` that is not
followed by two hexadecimal digits is an error. -/
def queryUnescapeBytes : List Char → Option (List Byte)
  | [] => some []
  | c :: rest =>
    if c = '%' then
      match rest with
      | a :: b :: rest1 =>
        match hexVal a, hexVal b, queryUnescapeBytes rest1 with
        | some x, some y, some bs => some (byteOfNat (x * 16 + y) :: bs)
        | _, _, _ => none
      | _ => none
    else if c = '+' then
      match queryUnescapeBytes rest with
      | some bs => some (byteOfNat 32 :: bs)
      | none => none
    else
      match queryUnescapeBytes rest with
      | some bs => some (utf8Char c ++ bs)
      | none => none

/-- The pieces of a text between the occurrences of a separator. -/
def splitOnChar (sep : Char) : List Char → List (List Char)
  | [] => [[]]
  | c :: cs =>
    if c = sep then [] :: splitOnChar sep cs
    else
      match splitOnChar sep cs with
      | piece :: pieces => (c :: piece) :: pieces
      | [] => [[c]]

/-- Model of `strings.Cut` on one character: the text before the first
separator and the text after it; without a separator, the whole text and nothing. -/
def cutChar (sep : Char) : List Char → List Char × List Char
  | [] => ([], [])
  | c :: cs => if c = sep then ([], cs) else ((cutChar sep cs).1.cons c, (cutChar sep cs).2)

/-- One `key=value` piece of a query, both sides unescaped. -/
def queryPair (piece : List Char) : Option (List Byte × List Byte) :=
  match queryUnescapeBytes (cutChar '=' piece).1, queryUnescapeBytes (cutChar '=' piece).2 with
  | some k, some v => some (k, v)
  | _, _ => none

/-- All pieces of a list, when each of them decodes. -/
def queryPairsOf : List (List Char) → Option (List (List Byte × List Byte))
  | [] => some []
  | piece :: pieces =>
    match queryPair piece, queryPairsOf pieces with
    | some kv, some kvs => some (kv :: kvs)
    | _, _ => none

/-- The parameters of a query string in their order of appearance, decoded the
way `url.ParseQuery` decodes them: pieces separated by `&`, empty pieces
skipped, key and value separated by the first `=`. -/
def queryPairs (query : String) : Option (List (List Byte × List Byte)) :=
  queryPairsOf ((splitOnChar '&' query.data).filter (fun piece => !piece.isEmpty))

/-- Whether a parsed query has a parameter of this name (`Values.Has`). -/
def Values.Has (v : Values) (key : String) : Bool := v.any (fun kv => kv.1 == key)

/-- The handler of `/authorization-callback` on the parsed query of a request:
it reads `code` and `error` with `Get`, which gives the first value of a
parameter, and the empty string when there is none. -/
def callbackOnQuery (query : Values) : CallbackResult :=
  callbackHandler (Values.Get query "code") (Values.Get query "error")

/-- The character that `generateRandomState` writes for one random byte. -/
def stateChar (b : Byte) : Char := "ABCDEFGHIJKLMNOPQRSTUVWXYZ234567".data.getD (b.val &&& 31) 'A'

/-- The JSON text that `json.Marshal` writes for the state map: keys sorted. -/
def stateJSON (state : String) (port : Nat) : String :=
  String.mk (Char.ofNat 123 :: (jsonQuote "port" ++ ':' :: jsonQuote (natToString port) ++
    ',' :: jsonQuote "state" ++ ':' :: jsonQuote state ++ [Char.ofNat 125]))

/-! ## More sample values -/

/-- The sample environment with every request answered by one status and body. -/
def envStatus (status : Int) (body : String) : Env :=
  { sampleEnv with roundTrip := fun _ => Except.ok ⟨status, body, none⟩ }

/-- The body of a structured error that says the authorization is pending. -/
def pendingBody : String := "\x7b\"error\":\"authorization_pending\"\x7d"

/-- A token response whose lifetime, in nanoseconds, exceeds 63 bits. -/
def hugeLifetimeTokenBody : String :=
  "\x7b\"access_token\":\"AT2\",\"refresh_token\":\"RT2\",\"expires_in\":9223372037\x7d"

/-- A game-session response whose expiry is not a timestamp. -/
def badExpiryGameBody : String :=
  "\x7b\"sessionToken\":\"ST2\",\"identityToken\":\"IT2\",\"expiresAt\":\"soon\"\x7d"

/-- A profile list without profiles. -/
def noProfilesBody : String := "\x7b\"owner\":\"own\",\"profiles\":[]\x7d"

/-- The state that `sampleEnv` generates: every random byte is 7. -/
def sampleState : String := "HHHHHHHHHHHHHHHHHHHHHHHHHH"

/-! ## Package env, the start of the application, and what it can reach -/

/-- `CreateFolders` creates the required folder structure: `os.MkdirAll(appDir, 0755)`. -/
def CreateFolders (env : Env) (w : World) : Except PathError Unit × World := osMkdirAll env 493 w

/-- `App.Startup`, as far as the store is concerned: it creates the folders and
only prints a warning when that fails.  The update check that it starts in the
background does not touch the application directory. -/
def App.Startup (env : Env) (w : World) : World := (CreateFolders env w).2

/-- The part of `LoadSession` that follows `os.ReadFile`, on the result of the read. -/
def loadSessionOf (env : Env) (read : Except PathError String) :
    Except String (Option AuthSession) :=
  match read with
  | Except.error e =>
    if e.isNotExist then Except.ok none
    else Except.error ("failed to read session file: " ++ e.text)
  | Except.ok data =>
    match jsonUnmarshal (AuthSession.setField env.timeParseLayout) data AuthSession.zero with
    | (_, some e) => Except.error ("failed to parse session: " ++ e)
    | (session, none) => Except.ok (some session)

/-- The states that the application reaches on a machine on which it never
ran: it starts without its directory, and then starts up, logs in and saves,
asks for a valid session, saves a session, or clears the store, in any order
and under any environment. -/
inductive StoreReachable : World → Prop where
  | fresh (w : World) : w.appDir = none → w.sessionFile = none → StoreReachable w
  | startup (env : Env) (w : World) : StoreReachable w → StoreReachable (App.Startup env w)
  | save (env : Env) (s : AuthSession) (w : World) :
      StoreReachable w → StoreReachable (SaveSession env s w).2
  | login (env : Env) (w : World) :
      StoreReachable w → StoreReachable (App.LoginWithHytaleAccount env w).2
  | getValid (env : Env) (w : World) : StoreReachable w → StoreReachable (GetValidSession env w).2
  | clear (w : World) : StoreReachable w → StoreReachable (ClearSession w).2

/-- The modes that the application gives: a session file has mode `0600` less
some umask, the directory `0700` or `0755` less some umask. -/
def storeModes (w : World) : Prop :=
  (∀ f, w.sessionFile = some f → ∃ u, f.mode = applyUmask 384 u) ∧
  (∀ d, w.appDir = some d → ∃ u, d = applyUmask 448 u ∨ d = applyUmask 493 u)

/-! ## The markup of a page -/

/-- Scanner of the tags of an HTML text: outside a tag, `<` opens one; inside,
`>` closes it.  The state is the text of the open tag, reversed, if one is
open.  Returns the tags closed and the final state. -/
def htmlScan : Option (List Char) → List Char → List String × Option (List Char)
  | st, [] => ([], st)
  | none, c :: cs => if c = '<' then htmlScan (some []) cs else htmlScan none cs
  | some acc, c :: cs =>
    if c = '>' then (String.mk acc.reverse :: (htmlScan none cs).1, (htmlScan none cs).2)
    else htmlScan (some (c :: acc)) cs

/-- The tags of a page, in order. -/
def htmlTags (page : String) : List String := (htmlScan none page.data).1

/-- The tags of the failure page as the handler's format string has them. -/
def failureTemplateTags : List String :=
  ["html", "body", "h1", "/h1", "p", "/p", "p", "/p", "/body", "/html"]

/-- The sample world after `App.Startup` under the umask `022`. -/
def startedWorld : World := App.Startup sampleEnv sampleWorld

/-- A session file that is not JSON. -/
def corruptFile : String := "\x7b\"access_token\": "

/-! # Theorems -/

set_option maxRecDepth 100000

/-! ## Requests -/

/-- The form that `RefreshSession` encodes is the body of `refreshRequest`. -/
theorem refreshBody_eq (rt : String) :
    Values.Encode (Values.Set (Values.Set (Values.Set [] "grant_type" "refresh_token")
      "refresh_token" rt) "client_id" ClientID) =
    "client_id=hytale-launcher&grant_type=refresh_token&refresh_token=" ++ QueryEscape rt := by
  have e1 : QueryEscape "client_id" = "client_id" := by decide
  have e2 : QueryEscape "hytale-launcher" = "hytale-launcher" := by decide
  have e3 : QueryEscape "grant_type" = "grant_type" := by decide
  have e4 : QueryEscape "refresh_token" = "refresh_token" := by decide
  simp +decide [Values.Encode, Values.Set, valuesInsert, ClientID, e1, e2, e3, e4,
    String.intercalate, String.intercalate.go]
  apply String.ext
  simp only [String.data_append]
  rfl

/-- The form that `exchangeCodeForToken` encodes is the body of `tokenRequest`. -/
theorem tokenBody_eq (c v r : String) :
    Values.Encode (Values.Set (Values.Set (Values.Set (Values.Set (Values.Set []
      "grant_type" "authorization_code") "code" c) "redirect_uri" r) "client_id" ClientID)
      "code_verifier" v) =
    "client_id=hytale-launcher&code=" ++ QueryEscape c ++ "&code_verifier=" ++
      QueryEscape v ++ "&grant_type=authorization_code&redirect_uri=" ++ QueryEscape r := by
  have e1 : QueryEscape "client_id" = "client_id" := by decide
  have e2 : QueryEscape "hytale-launcher" = "hytale-launcher" := by decide
  have e3 : QueryEscape "grant_type" = "grant_type" := by decide
  have e4 : QueryEscape "authorization_code" = "authorization_code" := by decide
  have e5 : QueryEscape "code" = "code" := by decide
  have e6 : QueryEscape "code_verifier" = "code_verifier" := by decide
  have e7 : QueryEscape "redirect_uri" = "redirect_uri" := by decide
  simp +decide [Values.Encode, Values.Set, valuesInsert, ClientID, e1, e2, e3, e4, e5, e6, e7,
    String.intercalate, String.intercalate.go]
  apply String.ext
  simp only [String.data_append, List.append_assoc]
  rfl

/-- The request that `createGameSession` builds is `gameSessionRequest`. -/
theorem gameSessionRequest_built (session : AuthSession) :
    ((({ Method := "POST", URL := SessionURL, Header := [], Body := String.mk (Char.ofNat 123 ::
        (jsonQuote "uuid" ++ ':' :: jsonQuote session.UUID ++ [Char.ofNat 125])) } :
        HttpRequest).setHeader "Authorization" ("Bearer " ++ session.AccessToken)).setHeader
        "Content-Type" "application/json").setHeader "User-Agent" "HyPrism/1.0" =
      gameSessionRequest session := by
  simp +decide [HttpRequest.setHeader, gameSessionRequest]

/-- The request that `RefreshSession` builds is `refreshRequest`. -/
theorem refreshRequest_built (rt : String) :
    (({ Method := "POST", URL := TokenURL, Header := [],
        Body := Values.Encode (Values.Set (Values.Set (Values.Set [] "grant_type" "refresh_token")
          "refresh_token" rt) "client_id" ClientID) } : HttpRequest).setHeader
        "Content-Type" "application/x-www-form-urlencoded").setHeader "User-Agent" "HyPrism/1.0" =
      refreshRequest rt := by
  rw [refreshBody_eq]
  simp +decide [HttpRequest.setHeader, refreshRequest]

/-- The request that `exchangeCodeForToken` builds is `tokenRequest`. -/
theorem tokenRequest_built (c v r : String) :
    (({ Method := "POST", URL := TokenURL, Header := [],
        Body := Values.Encode (Values.Set (Values.Set (Values.Set (Values.Set (Values.Set []
          "grant_type" "authorization_code") "code" c) "redirect_uri" r) "client_id" ClientID)
          "code_verifier" v) } : HttpRequest).setHeader
        "Content-Type" "application/x-www-form-urlencoded").setHeader "User-Agent" "HyPrism/1.0" =
      tokenRequest c v r := by
  rw [tokenBody_eq]
  simp +decide [HttpRequest.setHeader, tokenRequest]

/-- The request that `fetchProfiles` builds is `profilesRequest`. -/
theorem profilesRequest_built (accessToken : String) :
    (({ Method := "GET", URL := LauncherDataURL, Header := [], Body := "" } :
        HttpRequest).setHeader "Authorization" ("Bearer " ++ accessToken)).setHeader
        "User-Agent" "HyPrism/1.0" = profilesRequest accessToken := by
  simp +decide [HttpRequest.setHeader, profilesRequest]

/-! ## createGameSession -/

/-- Whatever the answer, `createGameSession` sends exactly one request and touches nothing else. -/
theorem createGameSession_snd (env : Env) (s : AuthSession) (w : World) :
    (createGameSession env s w).2 = afterCall env (gameSessionRequest s) w := by
  unfold createGameSession afterCall
  simp only [newRequest, gameSessionRequest_built, clientDo]
  repeat' split
  all_goals simp_all

/-- What a successful `createGameSession` has seen and what it returns. -/
theorem createGameSession_ok_inv (env : Env) (s s1 : AuthSession) (w : World)
    (h : (createGameSession env s w).1 = Except.ok s1) :
    ∃ resp gs, env.roundTrip (gameSessionRequest s) = Except.ok resp ∧ resp.StatusCode = 200 ∧
      resp.ReadErr = none ∧
      jsonUnmarshal GameSessionResponse.setField resp.Body ⟨"", "", ""⟩ = (gs, none) ∧
      s1 = { s with SessionToken := gs.SessionToken, IdentityToken := gs.IdentityToken,
                    ExpiresAt := match timeParse env.timeParseLayout gs.ExpiresAt with
                      | some g => min s.ExpiresAt g
                      | none => s.ExpiresAt } := by
  unfold createGameSession at h
  simp only [newRequest, gameSessionRequest_built, clientDo] at h
  repeat' split at h
  all_goals simp_all
  subst h
  simp [min_eq_right (le_of_lt ‹_ < _›)]

/-- A 200 answer with a readable, parseable body makes `createGameSession` succeed. -/
theorem createGameSession_ok_of (env : Env) (s : AuthSession) (w : World) (resp : HttpResponse)
    (gs : GameSessionResponse)
    (hresp : env.roundTrip (gameSessionRequest s) = Except.ok resp)
    (hstatus : resp.StatusCode = 200) (hread : resp.ReadErr = none)
    (hbody : jsonUnmarshal GameSessionResponse.setField resp.Body ⟨"", "", ""⟩ = (gs, none)) :
    (createGameSession env s w).1 =
      Except.ok { s with SessionToken := gs.SessionToken, IdentityToken := gs.IdentityToken,
                         ExpiresAt := match timeParse env.timeParseLayout gs.ExpiresAt with
                           | some g => min s.ExpiresAt g
                           | none => s.ExpiresAt } := by
  unfold createGameSession
  simp only [newRequest, gameSessionRequest_built, clientDo, hresp, hstatus, hread, hbody]
  cases hG : timeParse env.timeParseLayout gs.ExpiresAt with
  | none => simp
  | some g =>
    by_cases hlt : g < s.ExpiresAt
    · simp [hlt, min_eq_right (le_of_lt hlt)]
    · simp [hlt, min_eq_left (not_lt.mp hlt)]

/-! ## C1: the expiry boundary -/

/-- C1 (as the code has it): `IsExpired` is true exactly when the current
time is strictly after the expiry; a session whose expiry equals the current
time is not yet expired. -/
theorem IsExpired_iff_strictly_after (s : AuthSession) (w : World) :
    s.IsExpired w = true ↔ s.ExpiresAt < w.now := by
  simp [AuthSession.IsExpired]

/-- C1, against the inclusive reading: at the boundary, where the expiry
equals the current time, `IsExpired` answers false. -/
theorem IsExpired_boundary_counterexample :
    boundarySession.ExpiresAt = sampleWorld.now ∧ boundarySession.IsExpired sampleWorld = false := by
  decide

/-! ## C2: the stored expiry is the earlier one -/

/-- C2: when the game-session endpoint answers 200 with a body that parses
and whose `expiresAt` parses to `G`, `createGameSession` succeeds and leaves
the session with expiry `min E G`, `E` being the OAuth expiry it had: never
later than `E`, never later than `G`. -/
theorem createGameSession_expiry_min (env : Env) (session : AuthSession) (w : World)
    (resp : HttpResponse) (gs : GameSessionResponse) (G : Time)
    (hresp : env.roundTrip (gameSessionRequest session) = Except.ok resp)
    (hstatus : resp.StatusCode = 200) (hread : resp.ReadErr = none)
    (hbody : jsonUnmarshal GameSessionResponse.setField resp.Body ⟨"", "", ""⟩ = (gs, none))
    (hG : timeParse env.timeParseLayout gs.ExpiresAt = some G) :
    ∃ s1, (createGameSession env session w).1 = Except.ok s1 ∧
      s1.ExpiresAt = min session.ExpiresAt G ∧
      s1.ExpiresAt ≤ session.ExpiresAt ∧ s1.ExpiresAt ≤ G := by
  refine ⟨_, createGameSession_ok_of env session w resp gs hresp hstatus hread hbody, ?_, ?_, ?_⟩
  · simp [hG]
  · simp [hG]
  · simp [hG]

/-- C2 at a sample: an OAuth expiry of 15:00 and a game-session expiry of 14:00 give 14:00. -/
theorem createGameSession_expiry_min_witness :
    ∃ s1, (createGameSession sampleEnv { sampleSession with ExpiresAt := 1762268400000000000 }
        sampleWorld).1 = Except.ok s1 ∧
      s1.ExpiresAt = min 1762268400000000000 1762264800000000000 ∧
      s1.ExpiresAt ≤ 1762268400000000000 ∧ s1.ExpiresAt ≤ 1762264800000000000 :=
  createGameSession_expiry_min sampleEnv { sampleSession with ExpiresAt := 1762268400000000000 }
    sampleWorld ⟨200, sampleGameBody, none⟩ ⟨"ST2", "IT2", "2025-11-04T14:00:00Z"⟩
    1762264800000000000 rfl (by decide) (by decide) (by decide) (by decide)

/-! ## C3: a failed refresh clears the store -/

/-- C3: when the stored session is expired and `RefreshSession` fails, for
whatever reason (the token endpoint refuses, or the game session cannot be
derived), `GetValidSession` returns the error asking to log in again and
leaves no session file, so that a later `LoadSession` returns no session and
no error. -/
theorem GetValidSession_refresh_failure (env env2 : Env) (w : World) (session : AuthSession)
    (e : String)
    (hload : LoadSession env w = Except.ok (some session))
    (hexp : session.IsExpired w = true)
    (hfail : (RefreshSession env session w).1 = Except.error e) :
    (GetValidSession env w).1 =
        Except.error "session expired and refresh failed - please login again" ∧
      (GetValidSession env w).2.sessionFile = none ∧
      LoadSession env2 (GetValidSession env w).2 = Except.ok none := by
  have hgv : GetValidSession env w =
      (Except.error "session expired and refresh failed - please login again",
       (ClearSession (RefreshSession env session w).2).2) := by
    unfold GetValidSession
    rw [hload]
    simp only [hexp, if_true]
    cases hr : RefreshSession env session w with
    | mk r w1 =>
      rw [hr] at hfail
      simp only at hfail
      subst hfail
      rfl
  have hfile : (ClearSession (RefreshSession env session w).2).2.sessionFile = none := by
    unfold ClearSession osRemove
    cases hsf : (RefreshSession env session w).2.sessionFile <;> simp [hsf, PathError.isNotExist]
  refine ⟨by rw [hgv], by rw [hgv]; exact hfile, ?_⟩
  rw [hgv]
  simp [LoadSession, osReadFile, hfile, PathError.isNotExist]

/-- C3 at a sample: the stored session expired an hour ago and the token endpoint answers 401. -/
theorem GetValidSession_refresh_failure_witness :
    (GetValidSession env401 expiredWorld).1 =
        Except.error "session expired and refresh failed - please login again" ∧
      (GetValidSession env401 expiredWorld).2.sessionFile = none ∧
      LoadSession sampleEnv (GetValidSession env401 expiredWorld).2 = Except.ok none :=
  GetValidSession_refresh_failure env401 sampleEnv expiredWorld sampleSession
    "refresh failed with status 401: unauthorized" rfl (by decide) rfl

/-! ## C5: nothing happens unless the session is expired -/

/-- C5: without a session file `GetValidSession` fails with the login-required
error; with a stored session that is not expired it returns that session as
loaded.  In both cases the world is returned as it was: no request is sent
and the file is not touched. -/
theorem GetValidSession_untouched (env : Env) (w : World) :
    (w.sessionFile = none →
        GetValidSession env w = (Except.error "no session found - please login", w)) ∧
      (∀ session, LoadSession env w = Except.ok (some session) → session.IsExpired w = false →
        GetValidSession env w = (Except.ok session, w)) := by
  constructor
  · intro h
    simp [GetValidSession, LoadSession, osReadFile, h, PathError.isNotExist]
  · intro session hload hexp
    simp [GetValidSession, hload, hexp]

/-- C5 at samples: the empty store, and the stored sample session thirteen minutes before it expires. -/
theorem GetValidSession_untouched_witness :
    GetValidSession sampleEnv sampleWorld =
        (Except.error "no session found - please login", sampleWorld) ∧
      GetValidSession sampleEnv (worldWithFile sampleFile) =
        (Except.ok sampleSession, worldWithFile sampleFile) :=
  ⟨(GetValidSession_untouched sampleEnv sampleWorld).1 rfl,
   (GetValidSession_untouched sampleEnv (worldWithFile sampleFile)).2 sampleSession rfl (by decide)⟩

/-! ## encoding/base64: length, alphabet and decoding -/

theorem threeStep {α : Type} {motive : List α → Prop}
    (step : ∀ a b c rest, motive rest → motive (a :: b :: c :: rest))
    (two : ∀ a b, motive [a, b]) (one : ∀ a, motive [a]) (nil : motive []) :
    ∀ l, motive l
  | [] => nil
  | [a] => one a
  | [a, b] => two a b
  | a :: b :: c :: rest => step a b c rest (threeStep step two one nil rest)

theorem b64Encode_raw_length (alphabet : List Char) (bs : List Byte) :
    (b64Encode alphabet [] bs).length = (bs.length * 4 + 2) / 3 := by
  induction bs using threeStep with
  | step b0 b1 b2 rest ih => simp only [b64Encode, List.length_cons, ih]; omega
  | two b0 b1 => simp [b64Encode]
  | one b0 => simp [b64Encode]
  | nil => simp [b64Encode]

theorem b64Char_mem (i : Nat) : b64Char encodeURL i ∈ encodeURL := by
  unfold b64Char
  by_cases h : i < encodeURL.length
  · rw [List.getD_eq_getElem _ _ h]; exact List.getElem_mem h
  · rw [List.getD_eq_default _ _ (not_lt.mp h)]; decide

theorem b64Encode_mem (bs : List Byte) : ∀ c ∈ b64Encode encodeURL [] bs, c ∈ encodeURL := by
  induction bs using threeStep with
  | step b0 b1 b2 rest ih =>
    intro c hc
    simp only [b64Encode, List.mem_cons] at hc
    rcases hc with h | h | h | h | h
    · subst h; exact b64Char_mem _
    · subst h; exact b64Char_mem _
    · subst h; exact b64Char_mem _
    · subst h; exact b64Char_mem _
    · exact ih c h
  | two b0 b1 => intro c hc; simp [b64Encode] at hc; rcases hc with h | h | h <;> (subst h; exact b64Char_mem _)
  | one b0 => intro c hc; simp [b64Encode] at hc; rcases hc with h | h <;> (subst h; exact b64Char_mem _)
  | nil => intro c hc; simp [b64Encode] at hc

theorem b64Value_char : ∀ i : Fin 64, b64Value encodeURL (b64Char encodeURL i.val) = some i.val := by
  decide

theorem b64Value_char_lt (i : Nat) (h : i < 64) : b64Value encodeURL (b64Char encodeURL i) = some i :=
  b64Value_char ⟨i, h⟩

theorem b64_roundtrip (bs : List Byte) :
    ∃ vs, b64Values encodeURL (b64Encode encodeURL [] bs) = some vs ∧ b64Regroup vs = some bs := by
  induction bs using threeStep with
  | step b0 b1 b2 rest ih =>
    obtain ⟨vs, h1, h2⟩ := ih
    have hb0 := b0.isLt
    have hb1 := b1.isLt
    have hb2 := b2.isLt
    refine ⟨b0.val / 4 :: (b0.val % 4 * 16 + b1.val / 16) :: (b1.val % 16 * 4 + b2.val / 64) :: (b2.val % 64) :: vs, ?_, ?_⟩
    · simp only [b64Encode, b64Values, h1]
      rw [b64Value_char_lt _ (by omega), b64Value_char_lt _ (by omega), b64Value_char_lt _ (by omega), b64Value_char_lt _ (by omega)]
    · simp only [b64Regroup, h2, byteOfNat]
      congr 2
      · apply Fin.ext; simp only; omega
      · congr 1
        · apply Fin.ext; simp only; omega
        · congr 1
          apply Fin.ext; simp only; omega
  | two b0 b1 =>
    have hb0 := b0.isLt
    have hb1 := b1.isLt
    refine ⟨[b0.val / 4, (b0.val % 4 * 16 + b1.val / 16), (b1.val % 16 * 4)], ?_, ?_⟩
    · simp only [b64Encode, b64Values, List.append_nil]
      rw [b64Value_char_lt _ (by omega), b64Value_char_lt _ (by omega), b64Value_char_lt _ (by omega)]
    · simp only [b64Regroup, byteOfNat]
      congr 2
      · apply Fin.ext; simp only; omega
      · congr 1
        apply Fin.ext; simp only; omega
  | one b0 =>
    have hb0 := b0.isLt
    refine ⟨[b0.val / 4, (b0.val % 4 * 16)], ?_, ?_⟩
    · simp only [b64Encode, b64Values, List.append_nil]
      rw [b64Value_char_lt _ (by omega), b64Value_char_lt _ (by omega)]
    · simp only [b64Regroup, byteOfNat]
      congr 2
      apply Fin.ext; simp only; omega
  | nil => exact ⟨[], rfl, rfl⟩

theorem filter_alphabet (cs : List Char) (h : ∀ c ∈ cs, c ∈ encodeURL) :
    cs.filter (fun c => c.toNat != 13 && c.toNat != 10) = cs := by
  rw [List.filter_eq_self]
  intro c hc
  have hall : ∀ c ∈ encodeURL, (c.toNat != 13 && c.toNat != 10) = true := by decide
  exact hall c (h c hc)

theorem rawURL_decode_encode (bs : List Byte) :
    rawURLDecodeString (rawURLEncodeToString bs) = some bs := by
  obtain ⟨vs, h1, h2⟩ := b64_roundtrip bs
  simp only [rawURLDecodeString, rawURLEncodeToString, filter_alphabet _ (b64Encode_mem bs), h1, h2]


/-- Every character of the URL alphabet is a letter, a digit, `-` or `_`. -/
theorem encodeURL_safe : ∀ c ∈ encodeURL, isURLSafeChar c = true := by decide

/-- Known answer for the challenge: the verifier and challenge of RFC 7636, appendix B. -/
theorem generateCodeChallenge_rfc7636 :
    generateCodeChallenge "dBjftJeZ4CVP-mB92K27uhbUJU1p1r_wW1gFWFOEjXk" =
      "E9Melhoa2OwvFrEMTJguCHaoeK1t8URWbuGJSstw-cM" := by
  decide

/-! ## C8: the code challenge -/

/-- C8: for every verifier, `generateCodeChallenge` is the unpadded URL-safe
base64 encoding of the SHA-256 digest of the bytes of the verifier (a function
of the verifier alone); it is 43 characters long, uses only letters, digits,
`-` and `_`, and decodes back to the 32 bytes of the digest. -/
theorem generateCodeChallenge_spec (verifier : String) :
    generateCodeChallenge verifier = rawURLEncodeToString (Sum256 (stringBytes verifier)).val ∧
      (generateCodeChallenge verifier).length = 43 ∧
      (∀ c ∈ (generateCodeChallenge verifier).data, isURLSafeChar c = true) ∧
      rawURLDecodeString (generateCodeChallenge verifier) =
        some (Sum256 (stringBytes verifier)).val := by
  refine ⟨rfl, ?_, ?_, ?_⟩
  · simp [generateCodeChallenge, rawURLEncodeToString, String.length, b64Encode_raw_length,
      (Sum256 (stringBytes verifier)).property]
  · intro c hc
    exact encodeURL_safe c (b64Encode_mem _ c hc)
  · exact rawURL_decode_encode _

/-! ## C10: the code verifier -/

/-- C10: `generateCodeVerifier` succeeds exactly when the read of 32 random
bytes succeeds.  It then returns their unpadded URL-safe base64 encoding: 43
characters, only letters, digits, `-` and `_`, decoding back to the same 32
bytes.  When the read fails it returns the error of the read. -/
theorem generateCodeVerifier_spec (env : Env) :
    (∀ b : ByteArray 32, env.randRead 32 = (b, none) →
        generateCodeVerifier env = Except.ok (rawURLEncodeToString b.val) ∧
        (rawURLEncodeToString b.val).length = 43 ∧
        (∀ c ∈ (rawURLEncodeToString b.val).data, isURLSafeChar c = true) ∧
        rawURLDecodeString (rawURLEncodeToString b.val) = some b.val) ∧
      (∀ (b : ByteArray 32) (e : String), env.randRead 32 = (b, some e) →
        generateCodeVerifier env = Except.error e) := by
  constructor
  · intro b h
    refine ⟨by simp [generateCodeVerifier, h], ?_, ?_, rawURL_decode_encode _⟩
    · simp [rawURLEncodeToString, String.length, b64Encode_raw_length, b.property]
    · intro c hc
      exact encodeURL_safe c (b64Encode_mem _ c hc)
  · intro b e h
    simp [generateCodeVerifier, h]

/-- C10 at a sample: 32 bytes of value 7. -/
theorem generateCodeVerifier_spec_witness :
    generateCodeVerifier sampleEnv = Except.ok (rawURLEncodeToString sampleRandom.val) ∧
      (rawURLEncodeToString sampleRandom.val).length = 43 ∧
      (∀ c ∈ (rawURLEncodeToString sampleRandom.val).data, isURLSafeChar c = true) ∧
      rawURLDecodeString (rawURLEncodeToString sampleRandom.val) = some sampleRandom.val :=
  (generateCodeVerifier_spec sampleEnv).1 sampleRandom rfl

/-! ## encoding/json: reading back an encoded string -/

theorem char_eq_ofNat (c : Char) : Char.ofNat c.toNat = c := by
  simp [Char.ofNat_toNat]

theorem hexVal_lower : ∀ d : Fin 16, hexVal (hexDigitLower d.val) = some d.val := by decide

theorem hexVal_lower_lt (d : Nat) (h : d < 16) : hexVal (hexDigitLower d) = some d :=
  hexVal_lower ⟨d, h⟩

theorem hex4_lower (n : Nat) (h : n < 65536) :
    hex4 (hexDigitLower (n / 4096)) (hexDigitLower (n / 256 % 16)) (hexDigitLower (n / 16 % 16))
      (hexDigitLower (n % 16)) = some n := by
  unfold hex4
  rw [hexVal_lower_lt _ (by omega), hexVal_lower_lt _ (by omega), hexVal_lower_lt _ (by omega),
    hexVal_lower_lt _ (by omega)]
  simp only [Option.some.injEq]
  omega

/-- The scanner over the escape of a character given by its code. -/
theorem jsonStringBody_concrete (fuel : Nat) (t : List Char) (n : Nat)
    (h : n = 34 ∨ n = 92 ∨ n = 8 ∨ n = 12 ∨ n = 10 ∨ n = 13 ∨ n = 9) :
    jsonStringBody (fuel + 1) (jsonEscapeChar (Char.ofNat n) ++ t) =
      match jsonStringBody fuel t with
      | some (raw, val, rest) => some (jsonEscapeChar (Char.ofNat n) ++ raw, Char.ofNat n :: val, rest)
      | none => none := by
  rcases h with h | h | h | h | h | h | h <;> subst h <;>
    simp +decide [jsonStringBody, jsonEscapeChar, jsonSimpleEscape]

/-- One step of the string scanner over the escape of one character. -/
theorem jsonStringBody_escapeChar (fuel : Nat) (c : Char) (t : List Char) :
    jsonStringBody (fuel + 1) (jsonEscapeChar c ++ t) =
      match jsonStringBody fuel t with
      | some (raw, val, rest) => some (jsonEscapeChar c ++ raw, c :: val, rest)
      | none => none := by
  have hc := char_eq_ofNat c
  by_cases h1 : c.toNat = 34 ∨ c.toNat = 92 ∨ c.toNat = 8 ∨ c.toNat = 12 ∨ c.toNat = 10 ∨
      c.toNat = 13 ∨ c.toNat = 9
  · rw [← hc]
    exact jsonStringBody_concrete fuel t c.toNat h1
  · have h34 : c.toNat ≠ 34 := by omega
    have h92 : c.toNat ≠ 92 := by omega
    by_cases h2 : c.toNat < 32 ∨ c.toNat = 60 ∨ c.toNat = 62 ∨ c.toNat = 38 ∨ c.toNat = 8232 ∨
        c.toNat = 8233
    · have e : jsonEscapeChar c = [Char.ofNat 92, 'u', hexDigitLower (c.toNat / 4096),
          hexDigitLower (c.toNat / 256 % 16), hexDigitLower (c.toNat / 16 % 16),
          hexDigitLower (c.toNat % 16)] := by
        unfold jsonEscapeChar
        simp only
        rw [if_neg (by omega), if_neg (by omega), if_neg (by omega), if_neg (by omega),
          if_neg (by omega), if_neg (by omega), if_pos h2]
      rw [e]
      have h4 := hex4_lower c.toNat (by omega)
      have hns : ¬ (55296 ≤ c.toNat ∧ c.toNat < 57344) := by omega
      simp +decide [jsonStringBody, h4, hns, hc]
    · have e : jsonEscapeChar c = [c] := by
        unfold jsonEscapeChar
        simp only
        rw [if_neg (by omega), if_neg (by omega), if_neg (by omega), if_neg (by omega),
          if_neg (by omega), if_neg (by omega), if_neg h2]
      rw [e]
      have h32 : ¬ c.toNat < 32 := by omega
      simp [jsonStringBody, h34, h92, h32]

/-- The scanner reads back an escaped string: the source text is the escaped
text, the value is the string, and the rest is what follows the closing quote. -/
theorem jsonStringBody_escaped (s : List Char) (rest : List Char) :
    ∀ fuel, s.length < fuel →
      jsonStringBody fuel (s.flatMap jsonEscapeChar ++ Char.ofNat 34 :: rest) =
        some (s.flatMap jsonEscapeChar, s, rest) := by
  induction s with
  | nil =>
    intro fuel h
    cases fuel with
    | zero => omega
    | succ f => simp +decide [jsonStringBody]
  | cons c cs ih =>
    intro fuel h
    cases fuel with
    | zero => omega
    | succ f =>
      simp only [List.flatMap_cons, List.append_assoc]
      rw [jsonStringBody_escapeChar, ih f (by simpa using h)]

/-! ## time: reading back a formatted time -/

theorem digitChar_toNat (v : Nat) : (digitChar v).toNat = 48 + v % 10 := by
  have h : ∀ d : Fin 10, (Char.ofNat (48 + d.val)).toNat = 48 + d.val := by decide
  exact h ⟨v % 10, Nat.mod_lt v (by decide)⟩

theorem digitChar_isDigit (v : Nat) : isDigit (digitChar v) = true := by
  simp only [isDigit, digitChar_toNat, Bool.and_eq_true, decide_eq_true_eq]
  omega

theorem parseUint_twoDigits (v lo hi : Nat) (h : v < 100) (h1 : lo ≤ v) (h2 : v ≤ hi) :
    parseUint [digitChar (v / 10), digitChar v] lo hi = some v := by
  have e : (0 * 10 + ((digitChar (v / 10)).toNat - 48)) * 10 + ((digitChar v).toNat - 48) = v := by
    rw [digitChar_toNat, digitChar_toNat]; omega
  simp only [parseUint, List.all_cons, List.all_nil, digitChar_isDigit, List.foldl_cons,
    List.foldl_nil, Bool.and_self, if_true, e]
  rw [if_neg (by omega)]

theorem parseUint_fourDigits (v lo hi : Nat) (h : v < 10000) (h1 : lo ≤ v) (h2 : v ≤ hi) :
    parseUint [digitChar (v / 1000), digitChar (v / 100), digitChar (v / 10), digitChar v] lo hi =
      some v := by
  have e : (((0 * 10 + ((digitChar (v / 1000)).toNat - 48)) * 10 +
      ((digitChar (v / 100)).toNat - 48)) * 10 + ((digitChar (v / 10)).toNat - 48)) * 10 +
      ((digitChar v).toNat - 48) = v := by
    rw [digitChar_toNat, digitChar_toNat, digitChar_toNat, digitChar_toNat]; omega
  simp only [parseUint, List.all_cons, List.all_nil, digitChar_isDigit, List.foldl_cons,
    List.foldl_nil, Bool.and_self, if_true, e]
  rw [if_neg (by omega)]

theorem isLeap_iff (y : Nat) : isLeap y = true ↔ y % 4 = 0 ∧ (y % 100 ≠ 0 ∨ y % 400 = 0) := by
  simp only [isLeap, Bool.and_eq_true, Bool.or_eq_true, beq_iff_eq, bne_iff_ne, ne_eq]

theorem daysBeforeYear_succ (y : Nat) :
    daysBeforeYear (y + 1) = daysBeforeYear y + 365 + (if isLeap y then 1 else 0) := by
  have hA : (y + 1 + 3) / 4 = (y + 3) / 4 + (if y % 4 = 0 then 1 else 0) := by
    split_ifs <;> omega
  have hB : (y + 1 + 99) / 100 = (y + 99) / 100 + (if y % 100 = 0 then 1 else 0) := by
    split_ifs <;> omega
  have hC : (y + 1 + 399) / 400 = (y + 399) / 400 + (if y % 400 = 0 then 1 else 0) := by
    split_ifs <;> omega
  have hBA : (y + 99) / 100 ≤ (y + 3) / 4 := by omega
  have h100 : y % 100 = 0 → y % 4 = 0 := by omega
  have h400 : y % 400 = 0 → y % 100 = 0 := by omega
  unfold daysBeforeYear
  rw [hA, hB, hC]
  generalize (y + 3) / 4 = a at *
  generalize (y + 99) / 100 = b at *
  generalize (y + 399) / 400 = c at *
  have hl : (if isLeap y then 1 else 0) =
      (if y % 4 = 0 ∧ (y % 100 ≠ 0 ∨ y % 400 = 0) then 1 else 0) := by
    by_cases h : isLeap y = true
    · rw [if_pos h, if_pos ((isLeap_iff y).mp h)]
    · rw [if_neg h, if_neg (mt (isLeap_iff y).mpr h)]
  rw [hl]
  by_cases h4 : y % 4 = 0 <;> by_cases h1 : y % 100 = 0 <;> by_cases h0 : y % 400 = 0 <;>
    simp only [h4, h1, h0, if_true, if_false, ne_eq, not_true_eq_false, not_false_eq_true,
      or_true, or_false, and_true, and_false, true_and, false_and, true_or, false_or] <;>
    omega

theorem daysBeforeYear_bounds (y : Nat) :
    146097 * y ≤ 400 * daysBeforeYear y + 396 ∧ 400 * daysBeforeYear y ≤ 146097 * y + 699 := by
  unfold daysBeforeYear
  omega

theorem yearOfDay_spec (n : Nat) (h : n < 3652425) :
    yearOfDay n ≤ 9999 ∧ daysBeforeYear (yearOfDay n) ≤ n ∧ n < daysBeforeYear (yearOfDay n + 1) := by
  have hy0 : 146097 * (n * 400 / 146097) ≤ n * 400 ∧ n * 400 < 146097 * (n * 400 / 146097 + 1) := by
    omega
  unfold yearOfDay
  simp only
  generalize n * 400 / 146097 = y0 at hy0 ⊢
  have b0 := daysBeforeYear_bounds y0
  have b1 := daysBeforeYear_bounds (y0 + 1)
  have b2 := daysBeforeYear_bounds (y0 + 2)
  split_ifs with h1 h2
  · cases y0 with
    | zero => simp [daysBeforeYear] at h1
    | succ k =>
      have bk := daysBeforeYear_bounds k
      simp only [Nat.add_sub_cancel]
      omega
  · omega
  · have e : y0 + 1 + 1 = y0 + 2 := rfl
    rw [e]
    omega

set_option maxRecDepth 100000 in
theorem monthOfYearDay_common : ∀ r, r < 365 →
    1 ≤ monthOfYearDay false r ∧ monthOfYearDay false r ≤ 12 ∧
      daysBeforeMonth false (monthOfYearDay false r) ≤ r ∧
      r < daysBeforeMonth false (monthOfYearDay false r + 1) := by
  decide

set_option maxRecDepth 100000 in
theorem monthOfYearDay_leap : ∀ r, r < 366 →
    1 ≤ monthOfYearDay true r ∧ monthOfYearDay true r ≤ 12 ∧
      daysBeforeMonth true (monthOfYearDay true r) ≤ r ∧
      r < daysBeforeMonth true (monthOfYearDay true r + 1) := by
  decide

theorem monthOfYearDay_spec (leap : Bool) (r : Nat) (h : r < 365 + (if leap then 1 else 0)) :
    1 ≤ monthOfYearDay leap r ∧ monthOfYearDay leap r ≤ 12 ∧
      daysBeforeMonth leap (monthOfYearDay leap r) ≤ r ∧
      r < daysBeforeMonth leap (monthOfYearDay leap r + 1) := by
  cases leap
  · exact monthOfYearDay_common r (by simpa using h)
  · exact monthOfYearDay_leap r (by simpa using h)

theorem fracDigits_isDigit : ∀ (w v : Nat) (c : Char), c ∈ fracDigits w v → isDigit c = true
  | 0, _, c, h => by simp [fracDigits] at h
  | w + 1, v, c, h => by
    unfold fracDigits at h
    split_ifs at h with hv
    · simp at h
    · rcases List.mem_cons.mp h with h | h
      · subst h; exact digitChar_isDigit _
      · exact fracDigits_isDigit w _ c h

theorem fracDigits_length : ∀ (w v : Nat), (fracDigits w v).length ≤ w
  | 0, _ => by simp [fracDigits]
  | w + 1, v => by
    unfold fracDigits
    split_ifs with hv
    · simp
    · have := fracDigits_length w (v % 10 ^ w)
      simp only [List.length_cons]
      omega

theorem fracDigits_value : ∀ (w v acc : Nat), v < 10 ^ w →
    (fracDigits w v).foldl (fun x c => x * 10 + (c.toNat - 48)) acc * 10 ^ (w - (fracDigits w v).length)
      = acc * 10 ^ w + v
  | 0, v, acc, h => by
    have : v = 0 := by simpa using h
    subst this
    simp [fracDigits]
  | w + 1, v, acc, h => by
    unfold fracDigits
    split_ifs with hv
    · subst hv; simp
    · have hlt : v % 10 ^ w < 10 ^ w := Nat.mod_lt _ (Nat.pos_pow_of_pos w (by decide))
      have hq : v / 10 ^ w < 10 := by
        rw [Nat.div_lt_iff_lt_mul (Nat.pos_pow_of_pos w (by decide))]
        rw [pow_succ] at h
        omega
      have ih := fracDigits_value w (v % 10 ^ w) (acc * 10 + v / 10 ^ w) hlt
      have hd : (digitChar (v / 10 ^ w)).toNat - 48 = v / 10 ^ w := by
        rw [digitChar_toNat, Nat.mod_eq_of_lt hq, Nat.add_sub_cancel_left]
      simp only [List.foldl_cons, List.length_cons, hd, Nat.add_sub_add_right]
      rw [ih, pow_succ]
      have := Nat.div_add_mod v (10 ^ w)
      nlinarith [this]

theorem takeDigits_append (ds rest : List Char) (h : ∀ c ∈ ds, isDigit c = true)
    (hr : ∀ c r, rest = c :: r → isDigit c = false) :
    takeDigits (ds ++ rest) = (ds, rest) := by
  induction ds with
  | nil =>
    cases rest with
    | nil => rfl
    | cons c r => simp [takeDigits, hr c r rfl]
  | cons d ds ih =>
    have hd := h d (List.mem_cons_self _ _)
    have ih2 := ih (fun c hc => h c (List.mem_cons_of_mem _ hc))
    simp [takeDigits, hd, ih2]
theorem parseNanoseconds_fracDigits (nsec : Nat) (hn : nsec < 1000000000) :
    parseNanoseconds (fracDigits 9 nsec) = nsec := by
  have hl := fracDigits_length 9 nsec
  have hv := fracDigits_value 9 nsec 0 (by simpa using hn)
  unfold parseNanoseconds
  simp only [List.take_of_length_le hl]
  rw [hv]
  simp

theorem daysBeforeMonth_step : ∀ (leap : Bool) (m : Nat), m < 13 →
    daysBeforeMonth leap (m + 1) - daysBeforeMonth leap m ≤ 31 := by
  decide

theorem daysIn_le (m y : Nat) (hm : m ≤ 12) : daysIn m y ≤ 31 :=
  daysBeforeMonth_step (isLeap y) m (by omega)



theorem parseZone_Z : parseZone [(Char.ofNat 90)] = some 0 := by decide

theorem parseFraction_format (nsec : Nat) (hn : nsec < 1000000000) :
    parseZone (parseFraction ((if nsec = 0 then [] else '.' :: fracDigits 9 nsec) ++ ['Z'])).2 = some 0 ∧
      parseNanoseconds (parseFraction ((if nsec = 0 then [] else '.' :: fracDigits 9 nsec) ++ ['Z'])).1
        = nsec := by
  by_cases h0 : nsec = 0
  · subst h0
    refine ⟨by decide, by decide⟩
  · rw [if_neg h0]
    have hfd : fracDigits 9 nsec =
        digitChar (nsec / 10 ^ 8) :: fracDigits 8 (nsec % 10 ^ 8) := by
      conv => lhs; unfold fracDigits
      rw [if_neg h0]
    have hdig : ∀ c ∈ fracDigits 8 (nsec % 10 ^ 8), isDigit c = true :=
      fun c hc => fracDigits_isDigit 8 _ c hc
    have htd := takeDigits_append (fracDigits 8 (nsec % 10 ^ 8)) ['Z'] hdig
      (by intro c r h; simp only [List.cons.injEq] at h; rw [← h.1]; decide)
    have hq : isDigit (digitChar (nsec / 10 ^ 8)) = true := digitChar_isDigit _
    have e : parseFraction (('.' :: fracDigits 9 nsec) ++ ['Z']) = (fracDigits 9 nsec, ['Z']) := by
      rw [hfd]
      simp only [List.cons_append, parseFraction, hq, htd, and_self, if_true]
    rw [e]
    exact ⟨parseZone_Z, parseNanoseconds_fracDigits nsec hn⟩

theorem parseRFC3339_fields (c0 c1 c2 c3 c5 c6 c8 c9 c11 c12 c14 c15 c17 c18 : Char)
    (tail : List Char) (year month day hour min sec : Nat)
    (p1 : parseUint [c0, c1, c2, c3] 0 9999 = some year)
    (p2 : parseUint [c5, c6] 1 12 = some month)
    (p3 : parseUint [c8, c9] 1 (daysIn month year) = some day)
    (p4 : parseUint [c11, c12] 0 23 = some hour)
    (p5 : parseUint [c14, c15] 0 59 = some min)
    (p6 : parseUint [c17, c18] 0 59 = some sec)
    (hz : parseZone (parseFraction tail).2 = some 0) :
    parseRFC3339 (c0 :: c1 :: c2 :: c3 :: '-' :: c5 :: c6 :: '-' :: c8 :: c9 :: 'T' :: c11 ::
        c12 :: ':' :: c14 :: c15 :: ':' :: c17 :: c18 :: tail) =
      some (dateUTC year month day hour min sec (parseNanoseconds (parseFraction tail).1)) := by
  unfold parseRFC3339
  have hlen : ¬ (c0 :: c1 :: c2 :: c3 :: '-' :: c5 :: c6 :: '-' :: c8 :: c9 :: 'T' :: c11 ::
        c12 :: ':' :: c14 :: c15 :: ':' :: c17 :: c18 :: tail).length < 19 := by
    simp only [List.length_cons]; omega
  rw [if_neg hlen]
  simp only [List.take, List.drop, List.getD_cons_succ, List.getD_cons_zero, p1, p2, p3, p4, p5,
    p6, hz, and_self, if_true]
  simp

theorem parseRFC3339_format (y m d sod nsec : Nat) (hy : y ≤ 9999) (hm1 : 1 ≤ m) (hm2 : m ≤ 12)
    (hd1 : 1 ≤ d) (hd2 : d ≤ daysIn m y) (hs : sod < 86400) (hn : nsec < 1000000000) :
    parseRFC3339 (appendFormatRFC3339 y m d sod nsec) =
      some (dateUTC y m d (sod / 3600) (sod / 60 % 60) (sod % 60) nsec) := by
  have hd3 := daysIn_le m y hm2
  have p1 := parseUint_fourDigits y 0 9999 (by omega) (by omega) hy
  have p2 := parseUint_twoDigits m 1 12 (by omega) hm1 hm2
  have p3 := parseUint_twoDigits d 1 (daysIn m y) (by omega) hd1 hd2
  have p4 := parseUint_twoDigits (sod / 3600) 0 23 (by omega) (by omega) (by omega)
  have p5 := parseUint_twoDigits (sod / 60 % 60) 0 59 (by omega) (by omega) (by omega)
  have p6 := parseUint_twoDigits (sod % 60) 0 59 (by omega) (by omega) (by omega)
  obtain ⟨hz, hns⟩ := parseFraction_format nsec hn
  have := parseRFC3339_fields _ _ _ _ _ _ _ _ _ _ _ _ _ _ _ y m d _ _ _ p1 p2 p3 p4 p5 p6 hz
  rw [hns] at this
  unfold appendFormatRFC3339 fourDigits twoDigits
  simp only [List.append_assoc, List.cons_append, List.nil_append]
  exact this
theorem jsonEscapeChar_plain (c : Char)
    (h : (45 ≤ c.toNat ∧ c.toNat ≤ 59) ∨ c.toNat = 84 ∨ c.toNat = 90) :
    jsonEscapeChar c = [c] := by
  unfold jsonEscapeChar
  simp only
  rw [if_neg (by omega), if_neg (by omega), if_neg (by omega), if_neg (by omega),
    if_neg (by omega), if_neg (by omega), if_neg (by omega)]

theorem jsonEscapeChar_digitChar (v : Nat) : jsonEscapeChar (digitChar v) = [digitChar v] := by
  apply jsonEscapeChar_plain
  rw [digitChar_toNat]
  omega

theorem flatMap_escape_plain (l : List Char) (h : ∀ c ∈ l, jsonEscapeChar c = [c]) :
    l.flatMap jsonEscapeChar = l := by
  induction l with
  | nil => rfl
  | cons a l ih =>
    rw [List.flatMap_cons, h a (List.mem_cons_self _ _),
      ih (fun c hc => h c (List.mem_cons_of_mem _ hc))]
    rfl

theorem appendFormatRFC3339_plain (y m d sod nsec : Nat) :
    ∀ c ∈ appendFormatRFC3339 y m d sod nsec, jsonEscapeChar c = [c] := by
  have hfrac : ∀ c ∈ (if nsec = 0 then [] else '.' :: fracDigits 9 nsec), jsonEscapeChar c = [c] := by
    intro c hc
    split_ifs at hc with h0
    · simp at hc
    · rcases List.mem_cons.mp hc with h | h
      · subst h; decide
      · have hd := fracDigits_isDigit 9 nsec c h
        apply jsonEscapeChar_plain
        simp only [isDigit, Bool.and_eq_true, decide_eq_true_eq] at hd
        omega
  unfold appendFormatRFC3339 fourDigits twoDigits
  simp only [List.append_assoc, List.cons_append, List.nil_append, List.forall_mem_cons,
    List.forall_mem_append, jsonEscapeChar_digitChar, true_and]
  refine ⟨by decide, by decide, by decide, by decide, by decide, hfrac, ?_⟩
  simp only [List.forall_mem_cons, List.not_mem_nil, false_imp_iff, implies_true, and_true]
  decide

/-- Times that `Time.MarshalJSON` can write: years 0000 to 9999. -/
theorem timeMarshalJSON_roundtrip (t : Int)
    (h1 : -62167219200000000000 ≤ t) (h2 : t < 253402300800000000000) :
    ∃ body, timeMarshalJSON t = Except.ok (Char.ofNat 34 :: (body ++ [Char.ofNat 34])) ∧
      parseRFC3339 body = some t ∧ body.flatMap jsonEscapeChar = body := by
  have hn1 : ¬ (t / 1000000000 / 86400 + 719528 < 0 ∨ 3652425 ≤ t / 1000000000 / 86400 + 719528) := by
    omega
  unfold timeMarshalJSON
  simp only [if_neg hn1]
  refine ⟨_, rfl, ?_, flatMap_escape_plain _ (appendFormatRFC3339_plain _ _ _ _ _)⟩
  generalize hn : (t / 1000000000 / 86400 + 719528).toNat = n
  have hnlt : n < 3652425 := by omega
  obtain ⟨hy, hlo, hhi⟩ := yearOfDay_spec n hnlt
  generalize hyv : yearOfDay n = y at *
  have hsucc := daysBeforeYear_succ y
  have hr : n - daysBeforeYear y < 365 + (if isLeap y then 1 else 0) := by omega
  obtain ⟨hm1, hm2, hmlo, hmhi⟩ := monthOfYearDay_spec (isLeap y) (n - daysBeforeYear y) hr
  generalize hmv : monthOfYearDay (isLeap y) (n - daysBeforeYear y) = m at *
  have hdin : n - daysBeforeYear y - daysBeforeMonth (isLeap y) m + 1 ≤ daysIn m y := by
    unfold daysIn; omega
  rw [parseRFC3339_format y m _ _ _ hy hm1 hm2 (by omega) hdin (by omega) (by omega)]
  unfold dateUTC
  generalize daysBeforeMonth (isLeap y) m = dm at *
  generalize daysBeforeYear y = dy at *
  have e1 : dy + dm + (n - dy - dm + 1) = n + 1 := by omega
  have hN : (n : Int) = t / 1000000000 / 86400 + 719528 := by omega
  generalize hsod : (t / 1000000000 % 86400).toNat = sod
  have hS : (sod : Int) = t / 1000000000 % 86400 := by omega
  have e2 : sod / 3600 * 3600 + sod / 60 % 60 * 60 + sod % 60 = sod := by omega
  generalize hnsec : (t % 1000000000).toNat = nsec
  have hNs : (nsec : Int) = t % 1000000000 := by omega
  rw [e1, e2]
  simp only [Option.some.injEq]
  show @Eq Int _ _
  push_cast
  omega

/-! ## encoding/json: reading back a saved session -/

theorem escape_length_le (s : List Char) : s.length ≤ (s.flatMap jsonEscapeChar).length := by
  induction s with
  | nil => simp
  | cons c cs ih =>
    have h : 1 ≤ (jsonEscapeChar c).length := by
      unfold jsonEscapeChar
      simp only
      split_ifs <;> simp
    simp only [List.flatMap_cons, List.length_append, List.length_cons]
    omega

/-- The scanner on a quoted string inside a longer text. -/
theorem jsonStringBody_quoted (v rest : List Char) :
    jsonStringBody ((v.flatMap jsonEscapeChar ++ Char.ofNat 34 :: rest).length + 1)
        (v.flatMap jsonEscapeChar ++ Char.ofNat 34 :: rest) =
      some (v.flatMap jsonEscapeChar, v, rest) := by
  apply jsonStringBody_escaped
  have := escape_length_le v
  simp only [List.length_append, List.length_cons]
  omega

theorem jsonValue_string (f depth : Nat) (v rest : List Char) :
    jsonValue (f + 1) depth (' ' :: Char.ofNat 34 :: (v.flatMap jsonEscapeChar ++ Char.ofNat 34 :: rest)) =
      some (JValue.str (v.flatMap jsonEscapeChar) (String.mk v), rest) := by
  rw [jsonValue]
  have h1 : jsonSkipWs (' ' :: Char.ofNat 34 :: (v.flatMap jsonEscapeChar ++ Char.ofNat 34 :: rest)) =
      Char.ofNat 34 :: (v.flatMap jsonEscapeChar ++ Char.ofNat 34 :: rest) := by
    simp +decide [jsonSkipWs, jsonIsWs]
  rw [h1]
  simp +decide only [jsonStringBody_quoted, if_false, if_true]

theorem jsonMembers_ws (fuel depth : Nat) (c : Char) (cs : List Char) (h : jsonIsWs c = true) :
    jsonMembers fuel depth (c :: cs) = jsonMembers fuel depth cs := by
  cases fuel with
  | zero => simp [jsonMembers]
  | succ f =>
    rw [jsonMembers, jsonMembers]
    simp only [jsonSkipWs, h, if_true]

/-- One member whose value is a string: the scanner reads the key and the
value, and goes on after a comma or stops at the closing brace. -/
theorem jsonMembers_string (fuel depth : Nat) (hf : 2 ≤ fuel) (k v rest : List Char) :
    jsonMembers fuel depth
        (Char.ofNat 34 :: (k.flatMap jsonEscapeChar ++ Char.ofNat 34 :: ':' :: ' ' ::
          Char.ofNat 34 :: (v.flatMap jsonEscapeChar ++ Char.ofNat 34 :: rest))) =
      match jsonSkipWs rest with
      | [] => none
      | e :: rest4 =>
        if e.toNat = 125 then
          some ([(String.mk k, JValue.str (v.flatMap jsonEscapeChar) (String.mk v))], rest4)
        else if e.toNat = 44 then
          match jsonMembers (fuel - 1) depth rest4 with
          | some (ms, rest5) =>
            some ((String.mk k, JValue.str (v.flatMap jsonEscapeChar) (String.mk v)) :: ms, rest5)
          | none => none
        else none := by
  obtain ⟨f, rfl⟩ : ∃ f, fuel = f + 2 := ⟨fuel - 2, by omega⟩
  rw [jsonMembers]
  have h1 : ∀ t, jsonSkipWs (Char.ofNat 34 :: t) = Char.ofNat 34 :: t := by
    intro t; simp +decide [jsonSkipWs, jsonIsWs]
  have h2 : ∀ t, jsonSkipWs (':' :: t) = ':' :: t := by
    intro t; simp +decide [jsonSkipWs, jsonIsWs]
  rw [h1]
  simp +decide only [jsonStringBody_quoted, h2, jsonValue_string, if_true]
  rfl
/-- The text of an indented object with eight string members. -/
theorem jsonValue_eight (F : Nat) (hF : 10 ≤ F) (k1 v1 k2 v2 k3 v3 k4 v4 k5 v5 k6 v6 k7 v7 k8 v8 : List Char) :
    jsonValue F 0 (Char.ofNat 123 :: Char.ofNat 10 :: ' ' :: ' ' ::
      Char.ofNat 34 :: (k1.flatMap jsonEscapeChar ++ Char.ofNat 34 :: ':' :: ' ' ::
        Char.ofNat 34 :: (v1.flatMap jsonEscapeChar ++ Char.ofNat 34 :: ',' :: Char.ofNat 10 :: ' ' :: ' ' ::
      Char.ofNat 34 :: (k2.flatMap jsonEscapeChar ++ Char.ofNat 34 :: ':' :: ' ' ::
        Char.ofNat 34 :: (v2.flatMap jsonEscapeChar ++ Char.ofNat 34 :: ',' :: Char.ofNat 10 :: ' ' :: ' ' ::
      Char.ofNat 34 :: (k3.flatMap jsonEscapeChar ++ Char.ofNat 34 :: ':' :: ' ' ::
        Char.ofNat 34 :: (v3.flatMap jsonEscapeChar ++ Char.ofNat 34 :: ',' :: Char.ofNat 10 :: ' ' :: ' ' ::
      Char.ofNat 34 :: (k4.flatMap jsonEscapeChar ++ Char.ofNat 34 :: ':' :: ' ' ::
        Char.ofNat 34 :: (v4.flatMap jsonEscapeChar ++ Char.ofNat 34 :: ',' :: Char.ofNat 10 :: ' ' :: ' ' ::
      Char.ofNat 34 :: (k5.flatMap jsonEscapeChar ++ Char.ofNat 34 :: ':' :: ' ' ::
        Char.ofNat 34 :: (v5.flatMap jsonEscapeChar ++ Char.ofNat 34 :: ',' :: Char.ofNat 10 :: ' ' :: ' ' ::
      Char.ofNat 34 :: (k6.flatMap jsonEscapeChar ++ Char.ofNat 34 :: ':' :: ' ' ::
        Char.ofNat 34 :: (v6.flatMap jsonEscapeChar ++ Char.ofNat 34 :: ',' :: Char.ofNat 10 :: ' ' :: ' ' ::
      Char.ofNat 34 :: (k7.flatMap jsonEscapeChar ++ Char.ofNat 34 :: ':' :: ' ' ::
        Char.ofNat 34 :: (v7.flatMap jsonEscapeChar ++ Char.ofNat 34 :: ',' :: Char.ofNat 10 :: ' ' :: ' ' ::
      Char.ofNat 34 :: (k8.flatMap jsonEscapeChar ++ Char.ofNat 34 :: ':' :: ' ' ::
        Char.ofNat 34 :: (v8.flatMap jsonEscapeChar ++ Char.ofNat 34 ::
          [Char.ofNat 10, Char.ofNat 125]))))))))))))))))) =
      some (JValue.obj
        [(String.mk k1, JValue.str (v1.flatMap jsonEscapeChar) (String.mk v1)),
         (String.mk k2, JValue.str (v2.flatMap jsonEscapeChar) (String.mk v2)),
         (String.mk k3, JValue.str (v3.flatMap jsonEscapeChar) (String.mk v3)),
         (String.mk k4, JValue.str (v4.flatMap jsonEscapeChar) (String.mk v4)),
         (String.mk k5, JValue.str (v5.flatMap jsonEscapeChar) (String.mk v5)),
         (String.mk k6, JValue.str (v6.flatMap jsonEscapeChar) (String.mk v6)),
         (String.mk k7, JValue.str (v7.flatMap jsonEscapeChar) (String.mk v7)),
         (String.mk k8, JValue.str (v8.flatMap jsonEscapeChar) (String.mk v8))], []) := by
  obtain ⟨f, rfl⟩ : ∃ f, F = f + 1 := ⟨F - 1, by omega⟩
  have hws : jsonIsWs (Char.ofNat 10) = true ∧ jsonIsWs ' ' = true := by decide
  have hq : ∀ t, jsonSkipWs (Char.ofNat 34 :: t) = Char.ofNat 34 :: t := by
    intro t; simp +decide [jsonSkipWs, jsonIsWs]
  have hc : ∀ t, jsonSkipWs (',' :: t) = ',' :: t := by
    intro t; simp +decide [jsonSkipWs, jsonIsWs]
  have hb : ∀ t, jsonSkipWs (Char.ofNat 123 :: t) = Char.ofNat 123 :: t := by
    intro t; simp +decide [jsonSkipWs, jsonIsWs]
  have hend : jsonSkipWs [Char.ofNat 10, Char.ofNat 125] = [Char.ofNat 125] := by decide
  have hnl : ∀ t, jsonSkipWs (Char.ofNat 10 :: ' ' :: ' ' :: t) = jsonSkipWs t := by
    intro t; simp +decide [jsonSkipWs, jsonIsWs]
  have hmw : ∀ fuel t, jsonMembers fuel 1 (Char.ofNat 10 :: ' ' :: ' ' :: t) = jsonMembers fuel 1 t := by
    intro fuel t
    rw [jsonMembers_ws _ _ _ _ hws.1, jsonMembers_ws _ _ _ _ hws.2, jsonMembers_ws _ _ _ _ hws.2]
  rw [jsonValue, hb]
  simp +decide only [hnl, hq, maxNestingDepth, if_true, if_false]
  rw [jsonMembers_string _ _ (by omega), hc]
  simp +decide only [if_true, if_false, hmw]
  rw [jsonMembers_string _ _ (by omega), hc]
  simp +decide only [if_true, if_false, hmw]
  rw [jsonMembers_string _ _ (by omega), hc]
  simp +decide only [if_true, if_false, hmw]
  rw [jsonMembers_string _ _ (by omega), hc]
  simp +decide only [if_true, if_false, hmw]
  rw [jsonMembers_string _ _ (by omega), hc]
  simp +decide only [if_true, if_false, hmw]
  rw [jsonMembers_string _ _ (by omega), hc]
  simp +decide only [if_true, if_false, hmw]
  rw [jsonMembers_string _ _ (by omega), hc]
  simp +decide only [if_true, if_false, hmw]
  rw [jsonMembers_string _ _ (by omega), hend]
  simp +decide only [if_true, if_false]
theorem decodeMembers_step {α : Type} (sf : α → String → JValue → α × Option String)
    (k : String) (v : JValue) (ms : List (String × JValue)) (a a1 : α) (e : Option String)
    (h : sf a k v = (a1, none)) :
    decodeMembers sf ((k, v) :: ms) a e = decodeMembers sf ms a1 e := by
  rw [decodeMembers, h]
  cases e <;> rfl

theorem setField_access_token (g : String → Option Time) (a : AuthSession) (raw : List Char)
    (val : String) :
    AuthSession.setField g a "access_token" (JValue.str raw val) =
      ({ a with AccessToken := val }, none) := by
  simp +decide [AuthSession.setField, jsonSetString]

theorem setField_refresh_token (g : String → Option Time) (a : AuthSession) (raw : List Char)
    (val : String) :
    AuthSession.setField g a "refresh_token" (JValue.str raw val) =
      ({ a with RefreshToken := val }, none) := by
  simp +decide [AuthSession.setField, jsonSetString]

theorem setField_expires_at (g : String → Option Time) (a : AuthSession) (raw : List Char)
    (val : String) (t : Time) (h : parseRFC3339 raw = some t) :
    AuthSession.setField g a "expires_at" (JValue.str raw val) =
      ({ a with ExpiresAt := t }, none) := by
  simp +decide [AuthSession.setField, jsonSetTime, timeParse, h]

theorem setField_session_token (g : String → Option Time) (a : AuthSession) (raw : List Char)
    (val : String) :
    AuthSession.setField g a "session_token" (JValue.str raw val) =
      ({ a with SessionToken := val }, none) := by
  simp +decide [AuthSession.setField, jsonSetString]

theorem setField_identity_token (g : String → Option Time) (a : AuthSession) (raw : List Char)
    (val : String) :
    AuthSession.setField g a "identity_token" (JValue.str raw val) =
      ({ a with IdentityToken := val }, none) := by
  simp +decide [AuthSession.setField, jsonSetString]

theorem setField_username (g : String → Option Time) (a : AuthSession) (raw : List Char)
    (val : String) :
    AuthSession.setField g a "username" (JValue.str raw val) =
      ({ a with Username := val }, none) := by
  simp +decide [AuthSession.setField, jsonSetString]

theorem setField_uuid (g : String → Option Time) (a : AuthSession) (raw : List Char)
    (val : String) :
    AuthSession.setField g a "uuid" (JValue.str raw val) = ({ a with UUID := val }, none) := by
  simp +decide [AuthSession.setField, jsonSetString]

theorem setField_account_owner_id (g : String → Option Time) (a : AuthSession) (raw : List Char)
    (val : String) :
    AuthSession.setField g a "account_owner_id" (JValue.str raw val) =
      ({ a with AccountOwnerID := val }, none) := by
  simp +decide [AuthSession.setField, jsonSetString]

/-- What `SaveSession` writes is read back by the decoder as the same session,
for every session whose expiry falls in the years 0000 to 9999. -/
theorem marshal_unmarshal_session (general : String → Option Time) (s : AuthSession)
    (h1 : -62167219200000000000 ≤ s.ExpiresAt) (h2 : s.ExpiresAt < 253402300800000000000) :
    ∃ data, marshalSessionIndent s = Except.ok data ∧
      jsonUnmarshal (AuthSession.setField general) data AuthSession.zero = (s, none) := by
  obtain ⟨body, hb, hparse, hplain⟩ := timeMarshalJSON_roundtrip s.ExpiresAt h1 h2
  unfold marshalSessionIndent
  rw [hb]
  refine ⟨_, rfl, ?_⟩
  unfold jsonUnmarshal jsonParse
  simp only [jsonMemberLine, jsonQuote, List.append_assoc, List.cons_append, List.nil_append]
  rw [← hplain]
  rw [jsonValue_eight _ (by simp only [List.length_cons, List.length_append]; omega)]
  simp only [jsonSkipWs, if_true, decodeStruct]
  rw [hplain]
  rw [decodeMembers_step _ _ _ _ _ _ _ (setField_access_token general _ _ _),
    decodeMembers_step _ _ _ _ _ _ _ (setField_refresh_token general _ _ _),
    decodeMembers_step _ _ _ _ _ _ _ (setField_expires_at general _ _ _ _ hparse),
    decodeMembers_step _ _ _ _ _ _ _ (setField_session_token general _ _ _),
    decodeMembers_step _ _ _ _ _ _ _ (setField_identity_token general _ _ _),
    decodeMembers_step _ _ _ _ _ _ _ (setField_username general _ _ _),
    decodeMembers_step _ _ _ _ _ _ _ (setField_uuid general _ _ _),
    decodeMembers_step _ _ _ _ _ _ _ (setField_account_owner_id general _ _ _)]
  cases s
  rfl

/-! ## C7: save, then load -/

theorem day_out_of_range (x : Int)
    (h : ¬ (-62167219200000000000 ≤ x ∧ x < 253402300800000000000)) :
    x / 1000000000 / 86400 + 719528 < 0 ∨ 3652425 ≤ x / 1000000000 / 86400 + 719528 := by
  omega

/-- The encoder refuses an expiry outside the years 0000 to 9999. -/
theorem marshal_out_of_range (s : AuthSession)
    (h : ¬ (-62167219200000000000 ≤ s.ExpiresAt ∧ s.ExpiresAt < 253402300800000000000)) :
    marshalSessionIndent s = Except.error
      "json: error calling MarshalJSON for type time.Time: Time.MarshalJSON: year outside of range [0,9999]" := by
  have hn := day_out_of_range s.ExpiresAt h
  unfold marshalSessionIndent timeMarshalJSON
  simp only [hn, if_true]
  rfl

/-- C7 (as the code has it): a session of the model has text fields that are
valid Unicode text (valid UTF-8 in Go) and an expiry that is an instant
written in UTC.  For every such session whose expiry falls in the years 0000
to 9999, the range that the JSON encoding of `time.Time` accepts,
`SaveSession` succeeds and a `LoadSession` that follows returns a session
equal to the original in all eight fields, the expiry as an instant.  For
every such session whose expiry falls outside that range, `SaveSession`
returns the marshalling error and leaves the store, and everything else, as
it was. -/
theorem SaveSession_LoadSession_roundtrip (env env2 : Env) (s : AuthSession) (w : World) :
    (-62167219200000000000 ≤ s.ExpiresAt ∧ s.ExpiresAt < 253402300800000000000 →
      (SaveSession env s w).1 = Except.ok () ∧
      LoadSession env2 (SaveSession env s w).2 = Except.ok (some s)) ∧
    (¬ (-62167219200000000000 ≤ s.ExpiresAt ∧ s.ExpiresAt < 253402300800000000000) →
      SaveSession env s w = (Except.error
        "failed to marshal session: json: error calling MarshalJSON for type time.Time: Time.MarshalJSON: year outside of range [0,9999]",
        w)) := by
  refine ⟨?_, ?_⟩
  · intro h
    obtain ⟨data, hm, hu⟩ := marshal_unmarshal_session env2.timeParseLayout s h.1 h.2
    unfold SaveSession
    rw [hm]
    cases hd : w.appDir <;> cases hf : w.sessionFile <;>
      simp [osMkdirAll, osWriteFile, hd, hf, LoadSession, osReadFile, hu]
  · intro h
    unfold SaveSession
    rw [marshal_out_of_range s h]
    rfl

/-- C7 at samples: the sample session saved into the empty store and read
back, and a session that expires one nanosecond before the year 0000, which
is refused. -/
theorem SaveSession_LoadSession_roundtrip_witness :
    ((SaveSession sampleEnv sampleSession sampleWorld).1 = Except.ok () ∧
      LoadSession sampleEnv (SaveSession sampleEnv sampleSession sampleWorld).2 =
        Except.ok (some sampleSession)) ∧
    SaveSession sampleEnv { sampleSession with ExpiresAt := -62167219200000000001 } sampleWorld =
      (Except.error
        "failed to marshal session: json: error calling MarshalJSON for type time.Time: Time.MarshalJSON: year outside of range [0,9999]",
        sampleWorld) :=
  ⟨(SaveSession_LoadSession_roundtrip sampleEnv sampleEnv sampleSession sampleWorld).1
      ⟨by decide, by decide⟩,
   (SaveSession_LoadSession_roundtrip sampleEnv sampleEnv
      { sampleSession with ExpiresAt := -62167219200000000001 } sampleWorld).2 (by decide)⟩

/-- C7, against "for every session value": a session that expires in the year
10000 cannot be saved; `SaveSession` returns the marshalling error, writes
nothing, and `LoadSession` finds no session. -/
theorem SaveSession_year_10000_counterexample :
    (SaveSession sampleEnv farSession sampleWorld).1 =
        Except.error "failed to marshal session: json: error calling MarshalJSON for type time.Time: Time.MarshalJSON: year outside of range [0,9999]" ∧
      LoadSession sampleEnv (SaveSession sampleEnv farSession sampleWorld).2 = Except.ok none := by
  constructor <;> rfl

/-! ## The store: what a save writes and what a load reads -/

theorem SaveSession_unwritable (env : Env) (s : AuthSession) (w : World) (e : String)
    (h : marshalSessionIndent s = Except.error e) : (SaveSession env s w).2 = w := by
  unfold SaveSession
  rw [h]

theorem SaveSession_written (env : Env) (s : AuthSession) (w : World) (d : String)
    (h : marshalSessionIndent s = Except.ok d) :
    ∃ f, (SaveSession env s w).2.sessionFile = some f ∧ f.data = d := by
  unfold SaveSession
  rw [h]
  cases hd : w.appDir <;> cases hf : w.sessionFile <;>
    simp [osMkdirAll, osWriteFile, hd, hf]

theorem range_of_day (x : Int)
    (h : ¬ (x / 1000000000 / 86400 + 719528 < 0 ∨ 3652425 ≤ x / 1000000000 / 86400 + 719528)) :
    -62167219200000000000 ≤ x ∧ x < 253402300800000000000 := by
  omega

theorem marshal_ok_range (s : AuthSession) (d : String)
    (h : marshalSessionIndent s = Except.ok d) :
    -62167219200000000000 ≤ s.ExpiresAt ∧ s.ExpiresAt < 253402300800000000000 := by
  unfold marshalSessionIndent at h
  split at h
  · simp at h
  next t ht =>
    unfold timeMarshalJSON at ht
    simp only at ht
    split at ht
    · simp at ht
    next hn => exact range_of_day _ hn

theorem LoadSession_of_marshal (env : Env) (w : World) (f : FileInfo) (s : AuthSession)
    (hf : w.sessionFile = some f) (hm : marshalSessionIndent s = Except.ok f.data) :
    LoadSession env w = Except.ok (some s) := by
  obtain ⟨h1, h2⟩ := marshal_ok_range s f.data hm
  obtain ⟨data, hd, hu⟩ := marshal_unmarshal_session env.timeParseLayout s h1 h2
  rw [hm] at hd
  simp only [Except.ok.injEq] at hd
  subst hd
  simp [LoadSession, osReadFile, hf, hu]

theorem SaveSession_fst_ok (env : Env) (s : AuthSession) (w : World) (d : String)
    (h : marshalSessionIndent s = Except.ok d) : (SaveSession env s w).1 = Except.ok () := by
  unfold SaveSession
  rw [h]
  cases hd : w.appDir <;> cases hf : w.sessionFile <;>
    simp [osMkdirAll, osWriteFile, hd, hf]

theorem GetValidSession_no_file (env : Env) (w : World) (h : w.sessionFile = none) :
    GetValidSession env w = (Except.error "no session found - please login", w) := by
  simp [GetValidSession, LoadSession, osReadFile, h, PathError.isNotExist]

theorem GetValidSession_fresh (env : Env) (w : World) (session : AuthSession)
    (hload : LoadSession env w = Except.ok (some session)) (hexp : session.IsExpired w = false) :
    GetValidSession env w = (Except.ok session, w) := by
  simp [GetValidSession, hload, hexp]

/-! ## RefreshSession and GetValidSession -/

/-- The session that `RefreshSession` assembles from a token response, before the game session. -/
theorem RefreshSession_ok_inv (env : Env) (s s1 : AuthSession) (w : World)
    (h : (RefreshSession env s w).1 = Except.ok s1) :
    ∃ resp tok, env.roundTrip (refreshRequest s.RefreshToken) = Except.ok resp ∧
      resp.StatusCode = 200 ∧ resp.ReadErr = none ∧
      jsonUnmarshal TokenResponse.setField resp.Body ⟨"", "", 0⟩ = (tok, none) ∧
      (createGameSession env
        { AccessToken := tok.AccessToken, RefreshToken := tok.RefreshToken,
          ExpiresAt := (afterCall env (refreshRequest s.RefreshToken) w).now +
            secondsDuration tok.ExpiresIn,
          SessionToken := "", IdentityToken := "", Username := s.Username, UUID := s.UUID,
          AccountOwnerID := s.AccountOwnerID }
        (afterCall env (refreshRequest s.RefreshToken) w)).1 = Except.ok s1 ∧
      (RefreshSession env s w).2 = afterCall env
        (gameSessionRequest
          { AccessToken := tok.AccessToken, RefreshToken := tok.RefreshToken,
            ExpiresAt := (afterCall env (refreshRequest s.RefreshToken) w).now +
              secondsDuration tok.ExpiresIn,
            SessionToken := "", IdentityToken := "", Username := s.Username, UUID := s.UUID,
            AccountOwnerID := s.AccountOwnerID })
        (afterCall env (refreshRequest s.RefreshToken) w) := by
  unfold RefreshSession at h ⊢
  simp only [newRequest, refreshRequest_built, clientDo] at h ⊢
  cases hr : env.roundTrip (refreshRequest s.RefreshToken) with
  | error e => simp [hr] at h
  | ok resp =>
    simp only [hr] at h ⊢
    by_cases hs : resp.StatusCode = 200
    · simp only [hs, ne_eq, not_true_eq_false, if_false] at h ⊢
      cases hre : resp.ReadErr with
      | some e => simp [hre] at h
      | none =>
        simp only [hre] at h ⊢
        cases hj : jsonUnmarshal TokenResponse.setField resp.Body ⟨"", "", 0⟩ with
        | mk tok err =>
          cases err with
          | some e => simp [hj] at h
          | none =>
            simp only [hj] at h ⊢
            refine ⟨resp, tok, rfl, hs, hre, hj, ?_, ?_⟩
            · revert h
              generalize hcg : createGameSession env _ _ = r
              intro h
              change (createGameSession env _ (afterCall env (refreshRequest s.RefreshToken) w)).1 = _
              unfold afterCall
              rw [hcg]
              rcases r with ⟨r1, r2⟩
              cases r1 <;> simp_all
            · generalize hcg : createGameSession env _ _ = r
              have := createGameSession_snd env _ _ ▸ congrArg Prod.snd hcg
              rcases r with ⟨r1, r2⟩
              cases r1 <;> simp_all [afterCall]
    · simp [hs] at h

/-- `SaveSession` leaves the clock and the record of requests alone. -/
theorem SaveSession_frame (env : Env) (s : AuthSession) (w : World) :
    (SaveSession env s w).2.calls = w.calls ∧ (SaveSession env s w).2.now = w.now := by
  unfold SaveSession
  cases marshalSessionIndent s <;> cases hd : w.appDir <;> cases hf : w.sessionFile <;>
    simp [osMkdirAll, osWriteFile, hd, hf]

/-- `GetValidSession` on an expired stored session whose refresh succeeds and can be saved. -/
theorem GetValidSession_refreshed (env : Env) (w : World) (session s1 : AuthSession)
    (hload : LoadSession env w = Except.ok (some session))
    (hexp : session.IsExpired w = true)
    (hok : (RefreshSession env session w).1 = Except.ok s1)
    (hsave : (SaveSession env s1 (RefreshSession env session w).2).1 = Except.ok ()) :
    GetValidSession env w = (Except.ok s1, (SaveSession env s1 (RefreshSession env session w).2).2) := by
  unfold GetValidSession
  rw [hload]
  simp only [hexp, if_true]
  cases hr : RefreshSession env session w with
  | mk r w1 =>
    rw [hr] at hok hsave
    simp only at hok hsave
    subst hok
    simp only
    cases hs : SaveSession env s1 w1 with
    | mk q w2 =>
      rw [hs] at hsave
      simp only at hsave
      subst hsave
      rfl

/-! ## C4: a successful refresh -/

/-- C4 (as the code has it): when the stored session is expired and
`RefreshSession` succeeds, that is the token endpoint and the game-session
endpoint both answer 200 with bodies that parse, `GetValidSession` sends
exactly these two requests, in this order, and, the rebuilt session being
writable (expiry within the years 0000 to 9999), saves it and returns it: a
later `LoadSession` returns the same session.  Its expiry is the arrival time
of the token response plus `expires_in` seconds, or the game-session expiry
when that parses and is earlier.  It is strictly later than the time of
return exactly when the granted lifetime outlasts the game-session exchange
and the game-session expiry, if it parses, is later than the time of return. -/
theorem GetValidSession_refresh_success (env env2 : Env) (w : World) (session s1 : AuthSession)
    (hload : LoadSession env w = Except.ok (some session))
    (hexp : session.IsExpired w = true)
    (hok : (RefreshSession env session w).1 = Except.ok s1)
    (h1 : -62167219200000000000 ≤ s1.ExpiresAt) (h2 : s1.ExpiresAt < 253402300800000000000) :
    ∃ resp tok gresp gs,
      env.roundTrip (refreshRequest session.RefreshToken) = Except.ok resp ∧
      jsonUnmarshal TokenResponse.setField resp.Body ⟨"", "", 0⟩ = (tok, none) ∧
      env.roundTrip (gameSessionRequest (refreshedSession session tok
        (w.now + (env.elapsed (refreshRequest session.RefreshToken) : Int)))) = Except.ok gresp ∧
      jsonUnmarshal GameSessionResponse.setField gresp.Body ⟨"", "", ""⟩ = (gs, none) ∧
      (GetValidSession env w).2.calls = w.calls ++
        [refreshRequest session.RefreshToken,
         gameSessionRequest (refreshedSession session tok
          (w.now + (env.elapsed (refreshRequest session.RefreshToken) : Int)))] ∧
      (GetValidSession env w).1 = Except.ok s1 ∧
      LoadSession env2 (GetValidSession env w).2 = Except.ok (some s1) ∧
      s1.ExpiresAt =
        (match timeParse env.timeParseLayout gs.ExpiresAt with
         | some g => min (w.now + (env.elapsed (refreshRequest session.RefreshToken) : Int) +
              secondsDuration tok.ExpiresIn) g
         | none => w.now + (env.elapsed (refreshRequest session.RefreshToken) : Int) +
              secondsDuration tok.ExpiresIn) ∧
      ((GetValidSession env w).2.now < s1.ExpiresAt ↔
        ((env.elapsed (gameSessionRequest (refreshedSession session tok
            (w.now + (env.elapsed (refreshRequest session.RefreshToken) : Int)))) : Int) <
            secondsDuration tok.ExpiresIn ∧
          ∀ g, timeParse env.timeParseLayout gs.ExpiresAt = some g →
            (GetValidSession env w).2.now < g)) := by
  obtain ⟨resp, tok, hresp, h200, hread, hbody, hcg, hw⟩ := RefreshSession_ok_inv env session s1 w hok
  obtain ⟨gresp, gs, hgresp, hg200, hgread, hgbody, hs1⟩ := createGameSession_ok_inv env _ s1 _ hcg
  obtain ⟨data, hmar, _⟩ := marshal_unmarshal_session env2.timeParseLayout s1 h1 h2
  have hsave := SaveSession_fst_ok env s1 (RefreshSession env session w).2 data hmar
  obtain ⟨f, hfw, hfd⟩ := SaveSession_written env s1 (RefreshSession env session w).2 data hmar
  have hloadback := LoadSession_of_marshal env2 _ f s1 hfw (by rw [hfd]; exact hmar)
  have hgv := GetValidSession_refreshed env w session s1 hload hexp hok hsave
  obtain ⟨hfc, hfn⟩ := SaveSession_frame env s1 (RefreshSession env session w).2
  have hexpiry : s1.ExpiresAt =
        (match timeParse env.timeParseLayout gs.ExpiresAt with
         | some g => min (w.now + (env.elapsed (refreshRequest session.RefreshToken) : Int) +
              secondsDuration tok.ExpiresIn) g
         | none => w.now + (env.elapsed (refreshRequest session.RefreshToken) : Int) +
              secondsDuration tok.ExpiresIn) := by
    rw [hs1]; rfl
  refine ⟨resp, tok, gresp, gs, hresp, hbody, hgresp, hgbody, ?_, ?_, ?_, hexpiry, ?_⟩
  · rw [hgv]
    show (SaveSession env s1 (RefreshSession env session w).2).2.calls = _
    rw [hfc, hw]
    simp [afterCall, refreshedSession]
  · rw [hgv]
  · rw [hgv]; exact hloadback
  · rw [hgv]
    show (SaveSession env s1 (RefreshSession env session w).2).2.now < _ ↔ _
    rw [hfn, hw]
    rw [hexpiry]
    simp only [afterCall, refreshedSession]
    cases hp : timeParse env.timeParseLayout gs.ExpiresAt with
    | none =>
      simp only [false_imp_iff, implies_true, and_true, reduceCtorEq]
      exact Int.add_lt_add_iff_left _
    | some g =>
      simp only [Option.some.injEq, forall_eq']
      exact lt_min_iff.trans (and_congr (Int.add_lt_add_iff_left _) Iff.rfl)

/-- C4 at a sample: the stored sample session, an hour after it expired, in the sample environment. -/
theorem GetValidSession_refresh_success_witness :
    (GetValidSession sampleEnv expiredWorld).1 = Except.ok refreshedSample :=
  match GetValidSession_refresh_success sampleEnv sampleEnv expiredWorld sampleSession
      refreshedSample rfl (by decide) rfl (by decide) (by decide) with
  | ⟨_, _, _, _, _, _, _, _, _, h, _⟩ => h

/-- C4, against "the new expiry is strictly in the future": the token endpoint
grants a lifetime of zero seconds; both calls succeed, the rebuilt session is
returned and saved, and its expiry is not later than the time of return. -/
theorem GetValidSession_zero_lifetime_counterexample :
    (GetValidSession zeroLifetimeEnv expiredWorld).1 = Except.ok zeroLifetimeSession ∧
      (GetValidSession zeroLifetimeEnv expiredWorld).2.calls.length = 2 ∧
      LoadSession sampleEnv (GetValidSession zeroLifetimeEnv expiredWorld).2 =
        Except.ok (some zeroLifetimeSession) ∧
      ¬ ((GetValidSession zeroLifetimeEnv expiredWorld).2.now < zeroLifetimeSession.ExpiresAt) := by
  refine ⟨rfl, by decide, rfl, by decide⟩

/-! ## The login flow -/

theorem exchangeCodeForToken_snd (env : Env) (c v r : String) (w : World) :
    (exchangeCodeForToken env c v r w).2 = afterCall env (tokenRequest c v r) w := by
  unfold exchangeCodeForToken afterCall
  simp only [newRequest, tokenRequest_built, clientDo]
  repeat' split
  all_goals simp_all

theorem fetchProfiles_snd (env : Env) (t : String) (w : World) :
    (fetchProfiles env t w).2 = afterCall env (profilesRequest t) w := by
  unfold fetchProfiles afterCall
  simp only [newRequest, profilesRequest_built, clientDo]
  repeat' split
  all_goals simp_all

/-- What a successful `exchangeCodeForToken` has seen and what it returns. -/
theorem exchangeCodeForToken_ok_inv (env : Env) (c v r : String) (w : World) (s : AuthSession)
    (h : (exchangeCodeForToken env c v r w).1 = Except.ok s) :
    ∃ resp tok, env.roundTrip (tokenRequest c v r) = Except.ok resp ∧ resp.StatusCode = 200 ∧
      jsonUnmarshal TokenResponse.setField resp.Body ⟨"", "", 0⟩ = (tok, none) ∧
      s = { AccessToken := tok.AccessToken, RefreshToken := tok.RefreshToken,
            ExpiresAt := (afterCall env (tokenRequest c v r) w).now + secondsDuration tok.ExpiresIn,
            SessionToken := "", IdentityToken := "", Username := "", UUID := "",
            AccountOwnerID := "" } := by
  unfold exchangeCodeForToken at h
  simp only [newRequest, tokenRequest_built, clientDo] at h
  repeat' split at h
  all_goals simp_all [afterCall]

/-- What a successful `fetchProfiles` has seen and what it returns. -/
theorem fetchProfiles_ok_inv (env : Env) (t : String) (w : World) (p : ProfilesResponse)
    (h : (fetchProfiles env t w).1 = Except.ok p) :
    ∃ resp, env.roundTrip (profilesRequest t) = Except.ok resp ∧ resp.StatusCode = 200 ∧
      jsonUnmarshal ProfilesResponse.setField resp.Body ⟨"", []⟩ = (p, none) := by
  unfold fetchProfiles at h
  simp only [newRequest, profilesRequest_built, clientDo] at h
  repeat' split at h
  all_goals simp_all

theorem report_calls (n : Bool) (m : String) (w : World) : (report n m w).calls = w.calls := by
  unfold report; cases n <;> simp

theorem report_opened (n : Bool) (m : String) (w : World) : (report n m w).opened = w.opened := by
  unfold report; cases n <;> simp

theorem report_sessionFile (n : Bool) (m : String) (w : World) :
    (report n m w).sessionFile = w.sessionFile := by
  unfold report; cases n <;> simp

theorem report_appDir (n : Bool) (m : String) (w : World) : (report n m w).appDir = w.appDir := by
  unfold report; cases n <;> simp

/-- The requests of `loginWithCode`: the token exchange first, carrying the
code and the verifier it was given, then at most the profile fetch and the
game-session creation; the store and the browser are not touched. -/
theorem loginWithCode_calls (env : Env) (notify : Bool) (c v : String) (w : World) :
    ∃ rest, (loginWithCode env notify c v w).2.calls =
        w.calls ++ tokenRequest c v "https://accounts.hytale.com/consent/client" :: rest ∧
      (∀ r ∈ rest, r.URL ≠ TokenURL) ∧
      (loginWithCode env notify c v w).2.opened = w.opened ∧
      (loginWithCode env notify c v w).2.sessionFile = w.sessionFile ∧
      (loginWithCode env notify c v w).2.appDir = w.appDir := by
  unfold loginWithCode
  simp only
  have hu1 : ∀ t, (profilesRequest t).URL ≠ TokenURL := by
    intro t
    show LauncherDataURL ≠ TokenURL
    decide
  have hu2 : ∀ x, (gameSessionRequest x).URL ≠ TokenURL := by
    intro x
    show SessionURL ≠ TokenURL
    decide
  split
  next e w2 heq =>
    have h2 := exchangeCodeForToken_snd env c v "https://accounts.hytale.com/consent/client"
      (report notify "Exchanging authorization code for token..." w)
    rw [heq] at h2
    simp only at h2
    subst h2
    refine ⟨[], ?_, by simp, ?_, ?_, ?_⟩ <;>
      simp [afterCall, report_calls, report_opened, report_sessionFile, report_appDir]
  next session w2 heq =>
    have h2 := exchangeCodeForToken_snd env c v "https://accounts.hytale.com/consent/client"
      (report notify "Exchanging authorization code for token..." w)
    rw [heq] at h2
    simp only at h2
    subst h2
    split
    next e w4 heq4 =>
      have h4 := fetchProfiles_snd env session.AccessToken _ ▸ congrArg Prod.snd heq4
      simp only at h4
      subst h4
      refine ⟨[profilesRequest session.AccessToken], ?_, by simpa using hu1 session.AccessToken, ?_, ?_, ?_⟩ <;>
        simp [afterCall, report_calls, report_opened, report_sessionFile, report_appDir]
    next profiles w4 heq4 =>
      have h4 := fetchProfiles_snd env session.AccessToken _ ▸ congrArg Prod.snd heq4
      simp only at h4
      subst h4
      split
      next hp =>
        refine ⟨[profilesRequest session.AccessToken], ?_, by simpa using hu1 session.AccessToken, ?_, ?_, ?_⟩ <;>
          simp [afterCall, report_calls, report_opened, report_sessionFile, report_appDir]
      next profile tl hp =>
        split
        next e w6 heq6 =>
          have h6 := createGameSession_snd env _ _ ▸ congrArg Prod.snd heq6
          simp only at h6
          subst h6
          refine ⟨[profilesRequest session.AccessToken,
            gameSessionRequest { session with Username := profile.Username, UUID := profile.UUID,
                                              AccountOwnerID := profiles.Owner }], ?_, ?_, ?_, ?_, ?_⟩
          · simp [afterCall, report_calls]
          · intro r hr
            simp only [List.mem_cons, List.mem_singleton, List.not_mem_nil, or_false] at hr
            rcases hr with h | h <;> subst h
            · exact hu1 _
            · exact hu2 _
          · simp [afterCall, report_opened]
          · simp [afterCall, report_sessionFile]
          · simp [afterCall, report_appDir]
        next s2 w6 heq6 =>
          have h6 := createGameSession_snd env _ _ ▸ congrArg Prod.snd heq6
          simp only at h6
          subst h6
          refine ⟨[profilesRequest session.AccessToken,
            gameSessionRequest { session with Username := profile.Username, UUID := profile.UUID,
                                              AccountOwnerID := profiles.Owner }], ?_, ?_, ?_, ?_, ?_⟩
          · simp [afterCall, report_calls]
          · intro r hr
            simp only [List.mem_cons, List.mem_singleton, List.not_mem_nil, or_false] at hr
            rcases hr with h | h <;> subst h
            · exact hu1 _
            · exact hu2 _
          · simp [afterCall, report_opened]
          · simp [afterCall, report_sessionFile]
          · simp [afterCall, report_appDir]

theorem callbackHandler_send_ok (code err c : String)
    (h : (callbackHandler code err).send = Except.ok c) : err = "" ∧ code ≠ "" ∧ c = code := by
  unfold callbackHandler at h
  by_cases he : err = ""
  · by_cases hc : code = ""
    · simp [he, hc] at h
    · simp [he, hc] at h
      exact ⟨he, hc, h.symm⟩
  · simp [he] at h

/-! ## C9: the token exchange carries the code and the verifier of the attempt -/

/-- C9: in a login attempt whose callback delivers the authorization code `c`,
the browser is sent to an authorization URL whose `code_challenge` is the
challenge of the verifier `v` generated for this attempt, and the first
request the engine sends is the token exchange, carrying `code = c`,
`code_verifier = v` and the same `redirect_uri` as the authorization URL; no
other request of the attempt goes to the token endpoint. -/
theorem LoginWithAuthCodeFlow_exchange_request (env : Env) (notify : Bool) (w : World)
    (v : String) (port : Nat) (code err c : String)
    (hv : generateCodeVerifier env = Except.ok v)
    (hl : env.listen = Except.ok port)
    (hb : env.openBrowser (authorizationURL (generateCodeChallenge v)
      (stateParam (generateRandomState env) port)) = none)
    (hw : env.wait = WaitEvent.callback code err)
    (hsend : (callbackHandler code err).send = Except.ok c) :
    c = code ∧
    ∃ rest,
      (LoginWithAuthCodeFlow env notify w).2.opened = w.opened ++
        [AuthURL ++ "?" ++
          ("access_type=offline&client_id=" ++ QueryEscape ClientID ++
           "&code_challenge=" ++ QueryEscape (generateCodeChallenge v) ++
           "&code_challenge_method=S256&redirect_uri=" ++
             QueryEscape "https://accounts.hytale.com/consent/client" ++
           "&response_type=code&scope=" ++ QueryEscape "openid offline auth:launcher" ++
           "&state=" ++ QueryEscape (stateParam (generateRandomState env) port))] ∧
      (LoginWithAuthCodeFlow env notify w).2.calls = w.calls ++
        { Method := "POST", URL := TokenURL,
          Header := [("Content-Type", "application/x-www-form-urlencoded"),
                     ("User-Agent", "HyPrism/1.0")],
          Body := "client_id=hytale-launcher&code=" ++ QueryEscape c ++ "&code_verifier=" ++
            QueryEscape v ++ "&grant_type=authorization_code&redirect_uri=" ++
            QueryEscape "https://accounts.hytale.com/consent/client" } :: rest ∧
      ∀ r ∈ rest, r.URL ≠ TokenURL := by
  refine ⟨(callbackHandler_send_ok code err c hsend).2.2, ?_⟩
  unfold LoginWithAuthCodeFlow
  simp only [hv, hl]
  unfold loginWhileServing
  simp only [hb, hw, hsend]
  generalize hW : report notify "Waiting for authorization..." _ = W
  obtain ⟨rest, hc1, hc2, hc3, _, _⟩ := loginWithCode_calls env notify c v W
  have ho : W.opened = w.opened ++
      [authorizationURL (generateCodeChallenge v) (stateParam (generateRandomState env) port)] := by
    rw [← hW]
    simp only [report_opened]
  have hcalls : W.calls = w.calls := by
    rw [← hW]
    simp only [report_calls]
  refine ⟨rest, ?_, ?_, hc2⟩
  · show (loginWithCode env notify c v W).2.opened = _
    rw [hc3, ho]
    rfl
  · show (loginWithCode env notify c v W).2.calls = _
    rw [hc1, hcalls]
    rfl

/-- C9 at a sample: the redirect delivers `abc123` in the sample environment. -/
theorem LoginWithAuthCodeFlow_exchange_request_witness :
    ∃ rest,
      (LoginWithAuthCodeFlow sampleEnv true sampleWorld).2.calls =
        tokenRequest "abc123" (rawURLEncodeToString sampleRandom.val)
          "https://accounts.hytale.com/consent/client" :: rest ∧
      ∀ r ∈ rest, r.URL ≠ TokenURL :=
  match (LoginWithAuthCodeFlow_exchange_request sampleEnv true sampleWorld
      (rawURLEncodeToString sampleRandom.val) 43210 "abc123" "" "abc123" rfl rfl rfl rfl rfl).2 with
  | ⟨rest, _, h2, h3⟩ => ⟨rest, h2, h3⟩


/-! ## C6: what the store can hold -/

theorem ClearSession_file (w : World) : (ClearSession w).2.sessionFile = none := by
  unfold ClearSession osRemove
  cases hsf : w.sessionFile <;> simp [hsf, PathError.isNotExist]

theorem RefreshSession_file (env : Env) (s : AuthSession) (w : World) :
    (RefreshSession env s w).2.sessionFile = w.sessionFile := by
  unfold RefreshSession
  simp only [newRequest, refreshRequest_built, clientDo]
  split
  next e w1 heq => simp only [Prod.mk.injEq] at heq; rw [← heq.2]
  next resp w1 heq =>
    simp only [Prod.mk.injEq] at heq
    split
    · rw [← heq.2]
    · split
      · rw [← heq.2]
      · split
        · rw [← heq.2]
        · split
          next e w2 heq2 =>
            have h6 := createGameSession_snd env _ _ ▸ congrArg Prod.snd heq2
            simp only at h6
            subst h6
            show (afterCall env _ w1).sessionFile = _
            rw [← heq.2]
            rfl
          next s2 w2 heq2 =>
            have h6 := createGameSession_snd env _ _ ▸ congrArg Prod.snd heq2
            simp only at h6
            subst h6
            show (afterCall env _ w1).sessionFile = _
            rw [← heq.2]
            rfl

theorem LoginWithAuthCodeFlow_file (env : Env) (notify : Bool) (w : World) :
    (LoginWithAuthCodeFlow env notify w).2.sessionFile = w.sessionFile := by
  unfold LoginWithAuthCodeFlow
  split
  · rfl
  next v hv =>
    split
    · rfl
    next port hl =>
      simp only
      unfold loginWhileServing
      simp only
      split
      · simp [report_sessionFile]
      · split
        · simp [report_sessionFile]
        · simp [report_sessionFile]
        · split
          · simp [report_sessionFile]
          next c hsend =>
            generalize hW : report notify "Waiting for authorization..." _ = W
            obtain ⟨_, _, _, _, hf, _⟩ := loginWithCode_calls env notify c v W
            show (loginWithCode env notify c v W).2.sessionFile = _
            rw [hf, ← hW]
            simp [report_sessionFile]

theorem loginWithCode_ok_populated (env : Env) (hp : env.populates) (notify : Bool)
    (c v : String) (w : World) (s : AuthSession)
    (h : (loginWithCode env notify c v w).1 = Except.ok s) : s.populated := by
  unfold loginWithCode at h
  simp only at h
  split at h
  · simp at h
  next session w2 heq =>
    obtain ⟨resp, tok, hr, h200, hb, hs⟩ := exchangeCodeForToken_ok_inv env c v _ _ session
      (by rw [heq])
    have ht := (hp _ resp hr h200).1 rfl tok hb
    split at h
    · simp at h
    next profiles w4 heq4 =>
      obtain ⟨presp, hpr, hp200, hpb⟩ := fetchProfiles_ok_inv env _ _ profiles (by rw [heq4])
      split at h
      · simp at h
      next profile tl hpl =>
        have hpf := (hp _ presp hpr hp200).2.1 rfl profiles profile tl hpb hpl
        split at h
        · simp at h
        next s2 w6 heq6 =>
          obtain ⟨gresp, gs, hgr, hg200, _, hgb, hs2⟩ :=
            createGameSession_ok_inv env _ s2 _ (by rw [heq6])
          have hg := (hp _ gresp hgr hg200).2.2 rfl gs hgb
          simp only [Except.ok.injEq] at h
          subst h
          rw [hs2, hs]
          exact ⟨ht.1, ht.2, hg.1, hg.2, hpf.2.2, hpf.2.1, hpf.1⟩

theorem LoginWithAuthCodeFlow_ok_populated (env : Env) (hp : env.populates) (notify : Bool)
    (w : World) (s : AuthSession)
    (h : (LoginWithAuthCodeFlow env notify w).1 = Except.ok s) : s.populated := by
  unfold LoginWithAuthCodeFlow at h
  split at h
  · simp at h
  next v hv =>
    split at h
    · simp at h
    next port hl =>
      simp only at h
      unfold loginWhileServing at h
      simp only at h
      split at h
      · simp at h
      · split at h
        · simp at h
        · simp at h
        · split at h
          · simp at h
          next c hsend =>
            exact loginWithCode_ok_populated env hp notify c v _ s h

theorem RefreshSession_ok_populated (env : Env) (hp : env.populates) (s0 s1 : AuthSession)
    (w : World) (h0 : s0.populated) (h : (RefreshSession env s0 w).1 = Except.ok s1) :
    s1.populated := by
  obtain ⟨resp, tok, hr, h200, _, hb, hcg, _⟩ := RefreshSession_ok_inv env s0 s1 w h
  obtain ⟨gresp, gs, hgr, hg200, _, hgb, hs1⟩ := createGameSession_ok_inv env _ s1 _ hcg
  have ht := (hp _ resp hr h200).1 rfl tok hb
  have hg := (hp _ gresp hgr hg200).2.2 rfl gs hgb
  rw [hs1]
  exact ⟨ht.1, ht.2, hg.1, hg.2, h0.2.2.2.2.1, h0.2.2.2.2.2.1, h0.2.2.2.2.2.2⟩

/-- The file, when there is one, is the encoding of a populated session. -/
theorem reachable_file (w : World) (h : Reachable Env.populates w) :
    w.sessionFile = none ∨
      ∃ f s, w.sessionFile = some f ∧ marshalSessionIndent s = Except.ok f.data ∧ s.populated := by
  induction h with
  | start w h0 => exact Or.inl h0
  | clear w _ _ => exact Or.inl (ClearSession_file w)
  | logout w _ _ =>
    left
    have := ClearSession_file w
    unfold App.LogoutHytaleAccount
    split <;> simp_all
  | login env w hp _ ih =>
    unfold App.LoginWithHytaleAccount
    have hfile := LoginWithAuthCodeFlow_file env true w
    split
    next e w1 heq =>
      rw [heq] at hfile
      simp only at hfile ⊢
      rw [hfile]
      exact ih
    next session w1 heq =>
      have hpop := LoginWithAuthCodeFlow_ok_populated env hp true w session (by rw [heq])
      rw [heq] at hfile
      simp only at hfile
      cases hm : marshalSessionIndent session with
      | error e =>
        have hu := SaveSession_unwritable env session w1 e hm
        split
        next e2 w2 heq2 =>
          rw [heq2] at hu
          simp only at hu ⊢
          rw [hu, hfile]
          exact ih
        next u w2 heq2 =>
          rw [heq2] at hu
          simp only at hu ⊢
          rw [hu, hfile]
          exact ih
      | ok d =>
        obtain ⟨f, hf, hd⟩ := SaveSession_written env session w1 d hm
        right
        refine ⟨f, session, ?_, by rw [hd]; exact hm, hpop⟩
        split
        next e2 w2 heq2 => rw [heq2] at hf; exact hf
        next u w2 heq2 => rw [heq2] at hf; exact hf
  | getValid env w hp _ ih =>
    rcases ih with h0 | ⟨f, s, hf, hm, hpop⟩
    · left
      rw [GetValidSession_no_file env w h0]
      exact h0
    · have hload := LoadSession_of_marshal env w f s hf hm
      by_cases hexp : s.IsExpired w = true
      · unfold GetValidSession
        rw [hload]
        simp only [hexp, if_true]
        have hrf := RefreshSession_file env s w
        split
        next e w1 heq =>
          left
          exact ClearSession_file w1
        next s1 w1 heq =>
          have hpop1 := RefreshSession_ok_populated env hp s s1 w hpop (by rw [heq])
          rw [heq] at hrf
          simp only at hrf
          cases hm1 : marshalSessionIndent s1 with
          | error e =>
            have hu := SaveSession_unwritable env s1 w1 e hm1
            right
            refine ⟨f, s, ?_, hm, hpop⟩
            split
            next e2 w2 heq2 =>
              rw [heq2] at hu
              simp only at hu ⊢
              rw [hu, hrf, hf]
            next u w2 heq2 =>
              rw [heq2] at hu
              simp only at hu ⊢
              rw [hu, hrf, hf]
          | ok d =>
            obtain ⟨f1, hf1, hd⟩ := SaveSession_written env s1 w1 d hm1
            right
            refine ⟨f1, s1, ?_, by rw [hd]; exact hm1, hpop1⟩
            split
            next e2 w2 heq2 => rw [heq2] at hf1; exact hf1
            next u w2 heq2 => rw [heq2] at hf1; exact hf1
      · right
        have hne : s.IsExpired w = false := by
          cases h : s.IsExpired w
          · rfl
          · exact absurd h hexp
        rw [GetValidSession_fresh env w s hload hne]
        exact ⟨f, s, hf, hm, hpop⟩

/-- The sample environment populates sessions. -/
theorem sampleEnv_populates : Env.populates sampleEnv := by
  intro req resp h h200
  have e1 : jsonUnmarshal TokenResponse.setField sampleTokenBody ⟨"", "", 0⟩ =
      (⟨"AT2", "RT2", 3600⟩, none) := by decide
  have e2 : jsonUnmarshal ProfilesResponse.setField sampleProfilesBody ⟨"", []⟩ =
      (⟨"own", [⟨"u-1", "bob"⟩]⟩, none) := by decide
  have e3 : jsonUnmarshal GameSessionResponse.setField sampleGameBody ⟨"", "", ""⟩ =
      (⟨"ST2", "IT2", "2025-11-04T14:00:00Z"⟩, none) := by decide
  have d1 : TokenURL ≠ LauncherDataURL := by decide
  have d2 : TokenURL ≠ SessionURL := by decide
  have d3 : LauncherDataURL ≠ SessionURL := by decide
  simp only [sampleEnv, envWith] at h
  split_ifs at h with hu1 hu2
  · simp only [Except.ok.injEq] at h
    subst h
    refine ⟨?_, ?_, ?_⟩
    · intro _ tok hb
      rw [e1] at hb
      simp only [Prod.mk.injEq, and_true] at hb
      subst hb
      exact ⟨by decide, by decide⟩
    · intro hL; rw [hu1] at hL; exact absurd hL d1
    · intro hS; rw [hu1] at hS; exact absurd hS d2
  · simp only [Except.ok.injEq] at h
    subst h
    refine ⟨?_, ?_, ?_⟩
    · intro hT; exact absurd hT hu1
    · intro _ pr p tl hb hl
      rw [e2] at hb
      simp only [Prod.mk.injEq, and_true] at hb
      subst hb
      simp only [List.cons.injEq] at hl
      obtain ⟨hp1, _⟩ := hl
      subst hp1
      exact ⟨by decide, by decide, by decide⟩
    · intro hS; rw [hu2] at hS; exact absurd hS d3
  · simp only [Except.ok.injEq] at h
    subst h
    refine ⟨?_, ?_, ?_⟩
    · intro hT; exact absurd hT hu1
    · intro hL; exact absurd hL hu2
    · intro _ gs hb
      rw [e3] at hb
      simp only [Prod.mk.injEq, and_true] at hb
      subst hb
      exact ⟨by decide, by decide⟩

/-- C6 (as the code has it): in every state of the session store reached from
an absent file by login with save, `GetValidSession` with its refresh, and
clearing, in environments whose successful answers carry non-empty tokens,
owner and first profile, the session file is absent or holds a session that
every `LoadSession` returns and whose seven text fields are all non-empty.
A session is written only after every stage of its login or refresh succeeded. -/
theorem reachable_store_populated (w : World) (h : Reachable Env.populates w) :
    w.sessionFile = none ∨
      ∃ s, (∀ env, LoadSession env w = Except.ok (some s)) ∧ s.populated := by
  rcases reachable_file w h with h0 | ⟨f, s, hf, hm, hpop⟩
  · exact Or.inl h0
  · exact Or.inr ⟨s, fun env => LoadSession_of_marshal env w f s hf hm, hpop⟩

/-- C6 at a sample: the store after a login in the sample environment. -/
theorem reachable_store_populated_witness :
    (App.LoginWithHytaleAccount sampleEnv sampleWorld).2.sessionFile = none ∨
      ∃ s, (∀ env, LoadSession env (App.LoginWithHytaleAccount sampleEnv sampleWorld).2 =
          Except.ok (some s)) ∧ s.populated :=
  reachable_store_populated (App.LoginWithHytaleAccount sampleEnv sampleWorld).2
    (Reachable.login sampleEnv sampleWorld sampleEnv_populates (Reachable.start sampleWorld rfl))

/-- C6, against "for every possible provider response": the three endpoints
answer 200 with empty objects; the login succeeds and the session file then
holds a session whose text fields are all empty. -/
theorem empty_answers_counterexample :
    Reachable (fun _ => True) (App.LoginWithHytaleAccount emptyAnswersEnv sampleWorld).2 ∧
      LoadSession sampleEnv (App.LoginWithHytaleAccount emptyAnswersEnv sampleWorld).2 =
        Except.ok (some emptySession) ∧
      emptySession.AccessToken = "" ∧ ¬ emptySession.populated :=
  ⟨Reachable.login emptyAnswersEnv sampleWorld trivial (Reachable.start sampleWorld rfl),
   rfl, rfl, fun h => h.1 rfl⟩

/-! ## encoding/base64: the padded decoder reads what the encoder writes -/

theorem b64Std_char : ∀ i : Fin 64,
    b64Value encodeStd (b64Char encodeStd i.val) = some i.val ∧
    b64Char encodeStd i.val ≠ '=' ∧
    ((b64Char encodeStd i.val).toNat != 13 && (b64Char encodeStd i.val).toNat != 10) = true := by
  decide

theorem b64Std_value (i : Nat) (h : i < 64) :
    b64Value encodeStd (b64Char encodeStd i) = some i := (b64Std_char ⟨i, h⟩).1

theorem b64Std_ne_pad (i : Nat) (h : i < 64) : b64Char encodeStd i ≠ '=' := (b64Std_char ⟨i, h⟩).2.1

theorem b64Std_keep (i : Nat) (h : i < 64) :
    ((b64Char encodeStd i).toNat != 13 && (b64Char encodeStd i).toNat != 10) = true :=
  (b64Std_char ⟨i, h⟩).2.2

theorem b64DecodePadded_encode (bs : List Byte) :
    b64DecodePadded encodeStd (b64Encode encodeStd ['='] bs) = some bs := by
  induction bs using threeStep with
  | step b0 b1 b2 rest ih =>
    have hb0 := b0.isLt
    have hb1 := b1.isLt
    have hb2 := b2.isLt
    simp only [b64Encode, b64DecodePadded, ih]
    rw [if_neg (fun h => b64Std_ne_pad (b2.val % 64) (by omega) h.2)]
    rw [b64Std_value _ (by omega), b64Std_value _ (by omega), b64Std_value _ (by omega),
      b64Std_value _ (by omega)]
    simp only [byteOfNat]
    congr 2
    · apply Fin.ext; simp only; omega
    · congr 1
      · apply Fin.ext; simp only; omega
      · congr 1
        apply Fin.ext; simp only; omega
  | two b0 b1 =>
    have hb0 := b0.isLt
    have hb1 := b1.isLt
    simp only [b64Encode, List.cons_append, List.nil_append, b64DecodePadded, List.isEmpty_nil,
      and_self, if_true]
    rw [if_neg (b64Std_ne_pad (b1.val % 16 * 4) (by omega))]
    rw [b64Std_value _ (by omega), b64Std_value _ (by omega), b64Std_value _ (by omega)]
    simp only [byteOfNat]
    congr 2
    · apply Fin.ext; simp only; omega
    · congr 1
      apply Fin.ext; simp only; omega
  | one b0 =>
    have hb0 := b0.isLt
    simp only [b64Encode, List.cons_append, List.nil_append, b64DecodePadded, List.isEmpty_nil,
      and_self, if_true]
    rw [b64Std_value _ (by omega), b64Std_value _ (by omega)]
    simp only [byteOfNat]
    congr 2
    apply Fin.ext; simp only; omega
  | nil => rfl

theorem b64Encode_std_keep (bs : List Byte) :
    ∀ c ∈ b64Encode encodeStd ['='] bs, (c.toNat != 13 && c.toNat != 10) = true := by
  induction bs using threeStep with
  | step b0 b1 b2 rest ih =>
    have hb0 := b0.isLt
    have hb1 := b1.isLt
    have hb2 := b2.isLt
    intro c hc
    simp only [b64Encode, List.mem_cons] at hc
    rcases hc with h | h | h | h | h
    · subst h; exact b64Std_keep _ (by omega)
    · subst h; exact b64Std_keep _ (by omega)
    · subst h; exact b64Std_keep _ (by omega)
    · subst h; exact b64Std_keep _ (by omega)
    · exact ih c h
  | two b0 b1 =>
    have hb0 := b0.isLt
    have hb1 := b1.isLt
    intro c hc
    simp only [b64Encode, List.cons_append, List.nil_append, List.mem_cons, List.mem_singleton,
      List.not_mem_nil, or_false] at hc
    rcases hc with h | h | h | h
    · subst h; exact b64Std_keep _ (by omega)
    · subst h; exact b64Std_keep _ (by omega)
    · subst h; exact b64Std_keep _ (by omega)
    · subst h; decide
  | one b0 =>
    have hb0 := b0.isLt
    intro c hc
    simp only [b64Encode, List.cons_append, List.nil_append, List.mem_cons, List.mem_singleton,
      List.not_mem_nil, or_false] at hc
    rcases hc with h | h | h | h
    · subst h; exact b64Std_keep _ (by omega)
    · subst h; exact b64Std_keep _ (by omega)
    · subst h; decide
    · subst h; decide
  | nil => intro c hc; simp [b64Encode] at hc

/-- `StdEncoding.DecodeString` reads back what `StdEncoding.EncodeToString` wrote. -/
theorem stdDecode_encode (bs : List Byte) : stdDecodeString (stdEncodeToString bs) = some bs := by
  unfold stdDecodeString stdEncodeToString
  simp only
  rw [List.filter_eq_self.mpr (b64Encode_std_keep bs)]
  exact b64DecodePadded_encode bs

/-! ## Decimal digits -/

theorem decimalValue_append (ds : List Char) (c : Char) :
    decimalValue (ds ++ [c]) = decimalValue ds * 10 + (c.toNat - 48) := by
  unfold decimalValue
  rw [List.foldl_append]
  rfl

theorem decimalValue_natDigits : ∀ (fuel n : Nat), n < fuel → decimalValue (natDigits fuel n) = n
  | 0, n, h => by omega
  | fuel + 1, n, h => by
    unfold natDigits
    by_cases h10 : n < 10
    · rw [if_pos h10]
      have hv : (Char.ofNat (48 + n)).toNat = 48 + n := by
        have : ∀ k : Fin 10, (Char.ofNat (48 + k.val)).toNat = 48 + k.val := by decide
        exact this ⟨n, h10⟩
      simp [decimalValue, hv]
    · rw [if_neg h10, decimalValue_append, decimalValue_natDigits fuel (n / 10) (by omega)]
      have hv : (Char.ofNat (48 + n % 10)).toNat = 48 + n % 10 := by
        have : ∀ k : Fin 10, (Char.ofNat (48 + k.val)).toNat = 48 + k.val := by decide
        exact this ⟨n % 10, Nat.mod_lt n (by decide)⟩
      rw [hv]
      omega

/-- The decimal rendering of a number denotes that number. -/
theorem decimalValue_natToString (n : Nat) : decimalValue (natToString n).data = n :=
  decimalValue_natDigits (n + 1) n (Nat.lt_succ_self n)

/-! ## encoding/json: reading back a compact object of strings -/

theorem jsonValue_quoted (f depth : Nat) (v rest : List Char) :
    jsonValue (f + 1) depth (Char.ofNat 34 :: (v.flatMap jsonEscapeChar ++ Char.ofNat 34 :: rest)) =
      some (JValue.str (v.flatMap jsonEscapeChar) (String.mk v), rest) := by
  rw [jsonValue]
  have h1 : jsonSkipWs (Char.ofNat 34 :: (v.flatMap jsonEscapeChar ++ Char.ofNat 34 :: rest)) =
      Char.ofNat 34 :: (v.flatMap jsonEscapeChar ++ Char.ofNat 34 :: rest) := by
    simp +decide [jsonSkipWs, jsonIsWs]
  rw [h1]
  simp +decide only [jsonStringBody_quoted, if_false, if_true]

/-- One member of a compact object whose value is a string. -/
theorem jsonMembers_compact (fuel depth : Nat) (hf : 2 ≤ fuel) (k v rest : List Char) :
    jsonMembers fuel depth
        (Char.ofNat 34 :: (k.flatMap jsonEscapeChar ++ Char.ofNat 34 :: ':' ::
          Char.ofNat 34 :: (v.flatMap jsonEscapeChar ++ Char.ofNat 34 :: rest))) =
      match jsonSkipWs rest with
      | [] => none
      | e :: rest4 =>
        if e.toNat = 125 then
          some ([(String.mk k, JValue.str (v.flatMap jsonEscapeChar) (String.mk v))], rest4)
        else if e.toNat = 44 then
          match jsonMembers (fuel - 1) depth rest4 with
          | some (ms, rest5) =>
            some ((String.mk k, JValue.str (v.flatMap jsonEscapeChar) (String.mk v)) :: ms, rest5)
          | none => none
        else none := by
  obtain ⟨f, rfl⟩ : ∃ f, fuel = f + 2 := ⟨fuel - 2, by omega⟩
  rw [jsonMembers]
  have h1 : ∀ t, jsonSkipWs (Char.ofNat 34 :: t) = Char.ofNat 34 :: t := by
    intro t; simp +decide [jsonSkipWs, jsonIsWs]
  have h2 : ∀ t, jsonSkipWs (':' :: t) = ':' :: t := by
    intro t; simp +decide [jsonSkipWs, jsonIsWs]
  rw [h1]
  simp +decide only [jsonStringBody_quoted, h2, jsonValue_quoted, if_true]
  rfl

/-- The text of the state map parses to an object with exactly the members
`port` and `state`, both strings. -/
theorem jsonParse_stateJSON (state : String) (port : Nat) :
    jsonParse (stateJSON state port) =
      some (JValue.obj
        [("port", JValue.str ((natToString port).data.flatMap jsonEscapeChar) (natToString port)),
         ("state", JValue.str (state.data.flatMap jsonEscapeChar) state)]) := by
  unfold jsonParse
  have hlen : 4 ≤ (stateJSON state port).data.length := by
    simp only [stateJSON, jsonQuote, List.length_cons, List.length_append]
    omega
  obtain ⟨F, hF⟩ : ∃ F, (stateJSON state port).data.length + 1 = F + 5 :=
    ⟨(stateJSON state port).data.length - 4, by omega⟩
  rw [hF]
  have hdata : (stateJSON state port).data =
      Char.ofNat 123 :: Char.ofNat 34 :: ("port".data.flatMap jsonEscapeChar ++ Char.ofNat 34 :: ':' ::
        Char.ofNat 34 :: ((natToString port).data.flatMap jsonEscapeChar ++ Char.ofNat 34 :: ',' ::
          Char.ofNat 34 :: ("state".data.flatMap jsonEscapeChar ++ Char.ofNat 34 :: ':' ::
            Char.ofNat 34 :: (state.data.flatMap jsonEscapeChar ++ Char.ofNat 34 ::
              [Char.ofNat 125])))) := by
    simp only [stateJSON, jsonQuote, List.cons_append, List.append_assoc, List.nil_append]
  rw [hdata, jsonValue]
  have h0 : ∀ t, jsonSkipWs (Char.ofNat 123 :: t) = Char.ofNat 123 :: t := by
    intro t; simp +decide [jsonSkipWs, jsonIsWs]
  have h1 : ∀ t, jsonSkipWs (Char.ofNat 34 :: t) = Char.ofNat 34 :: t := by
    intro t; simp +decide [jsonSkipWs, jsonIsWs]
  have h3 : ∀ t, jsonSkipWs (',' :: t) = ',' :: t := by
    intro t; simp +decide [jsonSkipWs, jsonIsWs]
  have h4 : jsonSkipWs [Char.ofNat 125] = [Char.ofNat 125] := by
    simp +decide [jsonSkipWs, jsonIsWs]
  rw [h0]
  simp +decide only [h1, if_true, if_false, maxNestingDepth]
  rw [jsonMembers_compact (F + 4) 1 (by omega), h3]
  simp +decide only [if_true, if_false]
  rw [jsonMembers_compact (F + 4 - 1) 1 (by omega), h4]
  simp +decide [jsonSkipWs]

/-! ## C11: the state parameter -/

/-- The browser is handed exactly one URL, whatever follows. -/
theorem LoginWithAuthCodeFlow_opened (env : Env) (notify : Bool) (w : World) (v : String)
    (port : Nat) (hv : generateCodeVerifier env = Except.ok v) (hl : env.listen = Except.ok port) :
    (LoginWithAuthCodeFlow env notify w).2.opened = w.opened ++
      [authorizationURL (generateCodeChallenge v) (stateParam (generateRandomState env) port)] := by
  unfold LoginWithAuthCodeFlow
  simp only [hv, hl]
  unfold loginWhileServing
  simp only
  split
  · simp [report_opened]
  · split
    · simp [report_opened]
    · simp [report_opened]
    · split
      · simp [report_opened]
      next c hsend =>
        generalize hW : report notify "Waiting for authorization..." _ = W
        obtain ⟨_, _, _, ho, _, _⟩ := loginWithCode_calls env notify c v W
        show (loginWithCode env notify c v W).2.opened = _
        rw [ho, ← hW]
        simp [report_opened]

/-- C11: the login flow hands the browser an authorization URL whose state is
`stateParam s p`, with `s` the generated random state and `p` the port the
listener was given.  Decoding that parameter as standard base64 gives the
bytes of a text that parses as JSON to an object with exactly two members,
`port` and `state`: the `state` member is the string `s`, and the `port`
member is the string of the decimal digits of `p`, which denote `p`. -/
theorem stateParam_decodes (env : Env) (notify : Bool) (w : World) (v : String) (port : Nat)
    (hv : generateCodeVerifier env = Except.ok v) (hl : env.listen = Except.ok port) :
    (LoginWithAuthCodeFlow env notify w).2.opened = w.opened ++
      [authorizationURL (generateCodeChallenge v) (stateParam (generateRandomState env) port)] ∧
    stdDecodeString (stateParam (generateRandomState env) port) =
      some (stringBytes (stateJSON (generateRandomState env) port)) ∧
    (∃ rawPort rawState, jsonParse (stateJSON (generateRandomState env) port) =
      some (JValue.obj [("port", JValue.str rawPort (natToString port)),
                        ("state", JValue.str rawState (generateRandomState env))])) ∧
    decimalValue (natToString port).data = port :=
  ⟨LoginWithAuthCodeFlow_opened env notify w v port hv hl,
   stdDecode_encode _,
   ⟨_, _, jsonParse_stateJSON _ _⟩,
   decimalValue_natToString port⟩

/-- C11 at a sample: the state `HHH...` and the port 43210. -/
theorem stateParam_decodes_witness :
    stdDecodeString (stateParam sampleState 43210) =
      some (stringBytes "\x7b\"port\":\"43210\",\"state\":\"HHHHHHHHHHHHHHHHHHHHHHHHHH\"\x7d") ∧
    (∃ rawPort rawState,
      jsonParse "\x7b\"port\":\"43210\",\"state\":\"HHHHHHHHHHHHHHHHHHHHHHHHHH\"\x7d" =
        some (JValue.obj [("port", JValue.str rawPort "43210"),
                          ("state", JValue.str rawState sampleState)])) ∧
    decimalValue "43210".data = 43210 :=
  (stateParam_decodes sampleEnv true sampleWorld (rawURLEncodeToString sampleRandom.val) 43210
    rfl rfl).2

/-! ## C12: the random state -/

theorem stateChar_mod : ∀ b : Byte,
    stateChar b = "ABCDEFGHIJKLMNOPQRSTUVWXYZ234567".data.getD (b.val % 32) 'A' := by
  decide

theorem stateChar_class : ∀ b : Byte,
    (65 ≤ (stateChar b).toNat ∧ (stateChar b).toNat ≤ 90) ∨
    (50 ≤ (stateChar b).toNat ∧ (stateChar b).toNat ≤ 55) := by
  decide

theorem stateChar_count : ∀ c ∈ "ABCDEFGHIJKLMNOPQRSTUVWXYZ234567".data,
    ((List.finRange 256).filter (fun b => stateChar b = c)).length = 8 := by
  decide

/-- C12: `generateRandomState` maps each of the 26 random bytes to the
character of the alphabet at index `b mod 32`, so the result has exactly 26
characters, each an upper-case letter or a digit from 2 to 7, each a function
of its own byte only, and each character of the alphabet is the image of
exactly 8 of the 256 byte values. -/
theorem generateRandomState_spec (env : Env) :
    (generateRandomState env).data = (env.randRead 26).1.val.map stateChar ∧
    (generateRandomState env).length = 26 ∧
    (∀ i, i < 26 → ∃ b, (env.randRead 26).1.val.get? i = some b ∧
      (generateRandomState env).data.get? i =
        some ("ABCDEFGHIJKLMNOPQRSTUVWXYZ234567".data.getD (b.val % 32) 'A')) ∧
    (∀ c ∈ (generateRandomState env).data,
      (65 ≤ c.toNat ∧ c.toNat ≤ 90) ∨ (50 ≤ c.toNat ∧ c.toNat ≤ 55)) ∧
    (∀ c ∈ "ABCDEFGHIJKLMNOPQRSTUVWXYZ234567".data,
      ((List.finRange 256).filter (fun b => stateChar b = c)).length = 8) := by
  have hdata : (generateRandomState env).data = (env.randRead 26).1.val.map stateChar := rfl
  have hlen : (env.randRead 26).1.val.length = 26 := (env.randRead 26).1.property
  refine ⟨hdata, ?_, ?_, ?_, stateChar_count⟩
  · show (generateRandomState env).data.length = 26
    rw [hdata, List.length_map, hlen]
  · intro i hi
    have hi2 : i < (env.randRead 26).1.val.length := by rw [hlen]; exact hi
    refine ⟨(env.randRead 26).1.val.get ⟨i, hi2⟩, List.get?_eq_get hi2, ?_⟩
    rw [hdata, List.get?_eq_getElem?, List.getElem?_map, ← List.get?_eq_getElem?, List.get?_eq_get hi2,
      Option.map_some', stateChar_mod]
  · intro c hc
    rw [hdata, List.mem_map] at hc
    obtain ⟨b, _, rfl⟩ := hc
    exact stateChar_class b

/-! ## net/url: reading back an escaped query -/

theorem queryEscapeByte_plain : ∀ b : Byte, urlUnreserved b = true →
    Char.ofNat b.val ≠ '%' ∧ Char.ofNat b.val ≠ '+' ∧ utf8Char (Char.ofNat b.val) = [b] := by
  decide

theorem queryEscapeByte_hex : ∀ b : Byte,
    hexVal (hexDigitUpper (b.val / 16)) = some (b.val / 16) ∧
    hexVal (hexDigitUpper (b.val % 16)) = some (b.val % 16) := by
  decide

theorem queryEscapeByte_no_sep : ∀ b : Byte, ∀ c ∈ queryEscapeByte b, c ≠ '&' ∧ c ≠ '=' := by
  decide

theorem queryUnescapeBytes_plain (c : Char) (rest : List Char) (h1 : c ≠ '%') (h2 : c ≠ '+') :
    queryUnescapeBytes (c :: rest) =
      match queryUnescapeBytes rest with
      | some bs => some (utf8Char c ++ bs)
      | none => none := by
  rw [queryUnescapeBytes.eq_def]
  simp only [if_neg h1, if_neg h2]

theorem queryUnescapeBytes_plus (rest : List Char) :
    queryUnescapeBytes ('+' :: rest) =
      match queryUnescapeBytes rest with
      | some bs => some (byteOfNat 32 :: bs)
      | none => none := by
  rw [queryUnescapeBytes.eq_def]
  simp +decide only [if_false, if_true]

theorem queryUnescapeBytes_percent (a b : Char) (rest : List Char) :
    queryUnescapeBytes ('%' :: a :: b :: rest) =
      match hexVal a, hexVal b, queryUnescapeBytes rest with
      | some x, some y, some bs => some (byteOfNat (x * 16 + y) :: bs)
      | _, _, _ => none := by
  rw [queryUnescapeBytes.eq_def]
  simp only [if_true]

theorem queryUnescapeBytes_byte (b : Byte) (rest : List Char) :
    queryUnescapeBytes (queryEscapeByte b ++ rest) =
      match queryUnescapeBytes rest with
      | some bs => some (b :: bs)
      | none => none := by
  unfold queryEscapeByte
  by_cases hu : urlUnreserved b = true
  · obtain ⟨h1, h2, h3⟩ := queryEscapeByte_plain b hu
    rw [if_pos hu]
    simp only [List.cons_append, List.nil_append]
    rw [queryUnescapeBytes_plain _ _ h1 h2, h3]
    rfl
  · rw [if_neg hu]
    by_cases hs : b.val = 32
    · rw [if_pos hs]
      simp only [List.cons_append, List.nil_append]
      rw [queryUnescapeBytes_plus]
      have hb : byteOfNat 32 = b := Fin.ext hs.symm
      rw [hb]
    · rw [if_neg hs]
      obtain ⟨h1, h2⟩ := queryEscapeByte_hex b
      simp only [List.cons_append, List.nil_append]
      rw [queryUnescapeBytes_percent, h1, h2]
      have hb : byteOfNat (b.val / 16 * 16 + b.val % 16) = b := by
        apply Fin.ext
        have := b.isLt
        simp only [byteOfNat]
        omega
      cases queryUnescapeBytes rest with
      | none => rfl
      | some bs => simp only [hb]

/-- `QueryUnescape` reads back what `QueryEscape` wrote. -/
theorem queryUnescapeBytes_escape (bs : List Byte) :
    queryUnescapeBytes (bs.flatMap queryEscapeByte) = some bs := by
  induction bs with
  | nil => rfl
  | cons b bs ih =>
    rw [List.flatMap_cons, queryUnescapeBytes_byte, ih]

theorem queryEscape_no_sep (bs : List Byte) :
    ∀ c ∈ bs.flatMap queryEscapeByte, c ≠ '&' ∧ c ≠ '=' := by
  intro c hc
  rw [List.mem_flatMap] at hc
  obtain ⟨b, _, hb⟩ := hc
  exact queryEscapeByte_no_sep b c hb

theorem splitOnChar_append (sep : Char) (a b : List Char) (h : sep ∉ a) :
    splitOnChar sep (a ++ sep :: b) = a :: splitOnChar sep b := by
  induction a with
  | nil => simp [splitOnChar]
  | cons c a ih =>
    have hc : c ≠ sep := fun e => h (by rw [e]; exact List.mem_cons_self _ _)
    have ha : sep ∉ a := fun e => h (List.mem_cons_of_mem _ e)
    rw [List.cons_append, splitOnChar, if_neg hc, ih ha]

theorem splitOnChar_none (sep : Char) (a : List Char) (h : sep ∉ a) : splitOnChar sep a = [a] := by
  induction a with
  | nil => rfl
  | cons c a ih =>
    have hc : c ≠ sep := fun e => h (by rw [e]; exact List.mem_cons_self _ _)
    have ha : sep ∉ a := fun e => h (List.mem_cons_of_mem _ e)
    rw [splitOnChar, if_neg hc, ih ha]

theorem cutChar_append (sep : Char) (k v : List Char) (h : sep ∉ k) :
    cutChar sep (k ++ sep :: v) = (k, v) := by
  induction k with
  | nil => simp [cutChar]
  | cons c k ih =>
    have hc : c ≠ sep := fun e => h (by rw [e]; exact List.mem_cons_self _ _)
    have hk : sep ∉ k := fun e => h (List.mem_cons_of_mem _ e)
    rw [List.cons_append, cutChar, if_neg hc, ih hk]

/-- A piece `key=value` with an escaped value decodes to that key and that value. -/
theorem queryPair_escaped (k : List Char) (kb v : List Byte) (hk : '=' ∉ k)
    (hku : queryUnescapeBytes k = some kb) :
    queryPair (k ++ '=' :: v.flatMap queryEscapeByte) = some (kb, v) := by
  unfold queryPair
  rw [cutChar_append _ _ _ hk]
  simp only [hku, queryUnescapeBytes_escape]

theorem piece_no_amp (k : List Char) (v : List Byte) (hk : '&' ∉ k) :
    '&' ∉ k ++ '=' :: v.flatMap queryEscapeByte := by
  intro h
  rw [List.mem_append, List.mem_cons] at h
  rcases h with h | h | h
  · exact hk h
  · exact absurd h (by decide)
  · exact (queryEscape_no_sep v _ h).1 rfl

/-- A first parameter with an escaped value, followed by more of the query. -/
theorem queryPairs_cons (k : List Char) (kb v : List Byte) (rest : List Char)
    (hk1 : '&' ∉ k) (hk2 : '=' ∉ k) (hku : queryUnescapeBytes k = some kb) :
    queryPairsOf ((splitOnChar '&' (k ++ '=' :: (v.flatMap queryEscapeByte ++ '&' :: rest))).filter
        (fun piece => !piece.isEmpty)) =
      match queryPairsOf ((splitOnChar '&' rest).filter (fun piece => !piece.isEmpty)) with
      | some kvs => some ((kb, v) :: kvs)
      | none => none := by
  have e : k ++ '=' :: (v.flatMap queryEscapeByte ++ '&' :: rest) =
      (k ++ '=' :: v.flatMap queryEscapeByte) ++ '&' :: rest := by
    simp only [List.append_assoc, List.cons_append]
  rw [e, splitOnChar_append _ _ _ (piece_no_amp k v hk1)]
  have hne : (!(k ++ '=' :: v.flatMap queryEscapeByte).isEmpty) = true := by
    cases k <;> rfl
  rw [List.filter_cons, if_pos hne, queryPairsOf, queryPair_escaped k kb v hk2 hku]
  cases queryPairsOf ((splitOnChar '&' rest).filter (fun piece => !piece.isEmpty)) <;> rfl

/-- The last parameter of a query, with an escaped value. -/
theorem queryPairs_last (k : List Char) (kb v : List Byte)
    (hk1 : '&' ∉ k) (hk2 : '=' ∉ k) (hku : queryUnescapeBytes k = some kb) :
    queryPairsOf ((splitOnChar '&' (k ++ '=' :: v.flatMap queryEscapeByte)).filter
        (fun piece => !piece.isEmpty)) = some [(kb, v)] := by
  rw [splitOnChar_none _ _ (piece_no_amp k v hk1)]
  have hne : (!(k ++ '=' :: v.flatMap queryEscapeByte).isEmpty) = true := by
    cases k <;> rfl
  rw [List.filter_cons, if_pos hne, List.filter_nil, queryPairsOf,
    queryPair_escaped k kb v hk2 hku]
  rfl

/-! ## C13: the authorization URL -/

/-- C13: the authorization URL is the authorization endpoint, `?`, and a query
that holds exactly eight parameters, in this order: `access_type`,
`client_id`, `code_challenge`, `code_challenge_method`, `redirect_uri`,
`response_type`, `scope`, `state`.  Percent-decoded, their values are
`offline`, the client id, the code challenge, `S256`, the redirect URI,
`code`, the scope `openid offline auth:launcher`, and the state parameter,
byte for byte. -/
theorem authorizationURL_spec (codeChallenge state : String) :
    ∃ query : String, authorizationURL codeChallenge state = AuthURL ++ "?" ++ query ∧
      queryPairs query = some
        [(stringBytes "access_type", stringBytes "offline"),
         (stringBytes "client_id", stringBytes ClientID),
         (stringBytes "code_challenge", stringBytes codeChallenge),
         (stringBytes "code_challenge_method", stringBytes "S256"),
         (stringBytes "redirect_uri", stringBytes "https://accounts.hytale.com/consent/client"),
         (stringBytes "response_type", stringBytes "code"),
         (stringBytes "scope", stringBytes "openid offline auth:launcher"),
         (stringBytes "state", stringBytes state)] := by
  refine ⟨_, rfl, ?_⟩
  unfold queryPairs
  have hq : ("access_type=offline&client_id=" ++ QueryEscape ClientID ++
       "&code_challenge=" ++ QueryEscape codeChallenge ++
       "&code_challenge_method=S256&redirect_uri=" ++
         QueryEscape "https://accounts.hytale.com/consent/client" ++
       "&response_type=code&scope=" ++ QueryEscape "openid offline auth:launcher" ++
       "&state=" ++ QueryEscape state).data =
      "access_type".data ++ '=' :: ((stringBytes "offline").flatMap queryEscapeByte ++ '&' ::
      ("client_id".data ++ '=' :: ((stringBytes ClientID).flatMap queryEscapeByte ++ '&' ::
      ("code_challenge".data ++ '=' :: ((stringBytes codeChallenge).flatMap queryEscapeByte ++ '&' ::
      ("code_challenge_method".data ++ '=' :: ((stringBytes "S256").flatMap queryEscapeByte ++ '&' ::
      ("redirect_uri".data ++ '=' :: ((stringBytes "https://accounts.hytale.com/consent/client").flatMap
        queryEscapeByte ++ '&' ::
      ("response_type".data ++ '=' :: ((stringBytes "code").flatMap queryEscapeByte ++ '&' ::
      ("scope".data ++ '=' :: ((stringBytes "openid offline auth:launcher").flatMap
        queryEscapeByte ++ '&' ::
      ("state".data ++ '=' :: (stringBytes state).flatMap queryEscapeByte)))))))))))))) := by
    simp only [String.data_append, List.append_assoc, QueryEscape]
    rfl
  rw [hq]
  rw [queryPairs_cons _ (stringBytes "access_type") _ _ (by decide) (by decide) (by decide),
    queryPairs_cons _ (stringBytes "client_id") _ _ (by decide) (by decide) (by decide),
    queryPairs_cons _ (stringBytes "code_challenge") _ _ (by decide) (by decide) (by decide),
    queryPairs_cons _ (stringBytes "code_challenge_method") _ _ (by decide) (by decide) (by decide),
    queryPairs_cons _ (stringBytes "redirect_uri") _ _ (by decide) (by decide) (by decide),
    queryPairs_cons _ (stringBytes "response_type") _ _ (by decide) (by decide) (by decide),
    queryPairs_cons _ (stringBytes "scope") _ _ (by decide) (by decide) (by decide),
    queryPairs_last _ (stringBytes "state") _ (by decide) (by decide) (by decide)]

/-! ## C14: the callback handler -/

theorem Values.Get_of_not_Has (q : Values) (key : String) (h : Values.Has q key = false) :
    Values.Get q key = "" := by
  unfold Values.Has at h
  unfold Values.Get
  have hn : q.find? (fun kv => kv.1 == key) = none := by
    rw [List.find?_eq_none]
    intro x hx
    have := List.any_eq_false.mp h x hx
    simpa using this
  rw [hn]

/-- C14 (as the code has it): the handler decides on the values that `Get`
returns for `error` and `code`, in this order.  A non-empty `error` is
reported as an authorization failure carrying that value, with status 400,
and no code is delivered, whatever `code` holds.  Otherwise a non-empty
`code` is delivered as it is, with status 200 and the success page.  Otherwise
a missing code is reported, with status 400.  A parameter that is absent, and
one that is present with an empty value, both read as empty. -/
theorem callbackOnQuery_decision (query : Values) :
    (Values.Get query "error" ≠ "" →
      (callbackOnQuery query).send = Except.error ("OAuth error: " ++ Values.Get query "error") ∧
      (callbackOnQuery query).status = 400 ∧
      (callbackOnQuery query).page = "<html><body><h1>Authentication failed</h1><p>Error: " ++
        Values.Get query "error" ++ "</p><p>You can close this window.</p></body></html>") ∧
    (Values.Get query "error" = "" → Values.Get query "code" ≠ "" →
      (callbackOnQuery query).send = Except.ok (Values.Get query "code") ∧
      (callbackOnQuery query).status = 200 ∧
      (callbackOnQuery query).page = "<html><body><h1>Authentication successful!</h1><p>You can close this window and return to HyPrism.</p></body></html>") ∧
    (Values.Get query "error" = "" → Values.Get query "code" = "" →
      (callbackOnQuery query).send = Except.error "no authorization code received" ∧
      (callbackOnQuery query).status = 400 ∧
      (callbackOnQuery query).page = "<html><body><h1>Authentication failed</h1><p>No code received.</p><p>You can close this window.</p></body></html>") ∧
    (Values.Has query "error" = false → Values.Get query "error" = "") ∧
    (Values.Has query "code" = false → Values.Get query "code" = "") := by
  refine ⟨?_, ?_, ?_, Values.Get_of_not_Has query "error", Values.Get_of_not_Has query "code"⟩
  · intro he
    simp [callbackOnQuery, callbackHandler, he]
  · intro he hc
    simp [callbackOnQuery, callbackHandler, he, hc]
  · intro he hc
    simp [callbackOnQuery, callbackHandler, he, hc]

/-- C14 at samples: an error with a code, a code alone, and neither. -/
theorem callbackOnQuery_decision_witness :
    (callbackOnQuery [("code", "abc123"), ("error", "access_denied")]).send =
      Except.error "OAuth error: access_denied" ∧
    (callbackOnQuery [("code", "abc123")]).send = Except.ok "abc123" ∧
    (callbackOnQuery []).send = Except.error "no authorization code received" :=
  ⟨((callbackOnQuery_decision [("code", "abc123"), ("error", "access_denied")]).1 (by decide)).1,
   ((callbackOnQuery_decision [("code", "abc123")]).2.1 rfl (by decide)).1,
   ((callbackOnQuery_decision []).2.2.1 rfl rfl).1⟩

/-- C14, against "present": a request whose `error` parameter is present and
empty gets its code delivered, and a request whose `code` parameter is present
and empty is answered as if it had none. -/
theorem callback_present_empty_counterexample :
    Values.Has [("error", ""), ("code", "abc123")] "error" = true ∧
    (callbackOnQuery [("error", ""), ("code", "abc123")]).send = Except.ok "abc123" ∧
    (callbackOnQuery [("error", ""), ("code", "abc123")]).status = 200 ∧
    Values.Has [("code", "")] "code" = true ∧
    (callbackOnQuery [("code", "")]).send = Except.error "no authorization code received" :=
  ⟨by decide, rfl, rfl, by decide, rfl⟩

/-! ## C15: a wait that ends without a code -/

theorem oauth_error_ne_cancelled (x : String) : "OAuth error: " ++ x ≠ "login cancelled" := by
  intro h
  have h2 := congrArg String.data h
  rw [String.data_append] at h2
  change 'O' :: _ = 'l' :: _ at h2
  injection h2 with h3 _
  exact absurd h3 (by decide)

theorem oauth_error_ne_timeout (x : String) : "OAuth error: " ++ x ≠ "authentication timed out" := by
  intro h
  have h2 := congrArg String.data h
  rw [String.data_append] at h2
  change 'O' :: _ = 'a' :: _ at h2
  injection h2 with h3 _
  exact absurd h3 (by decide)

/-- C15: when the browser was opened and the wait ends by cancellation, by
the five-minute timer, or by a callback that carries `error = X` or no code,
`LoginWithAuthCodeFlow` returns no session and the error of that outcome
(`login cancelled`, `authentication timed out`, `OAuth error: X`,
`no authorization code received`), and it has sent no request: no token
exchange, no profile fetch, no game-session creation.  The errors of
cancellation, timeout and provider refusal differ from one another for every `X`. -/
theorem LoginWithAuthCodeFlow_wait_failure (env : Env) (notify : Bool) (w : World)
    (v : String) (port : Nat)
    (hv : generateCodeVerifier env = Except.ok v)
    (hl : env.listen = Except.ok port)
    (hb : env.openBrowser (authorizationURL (generateCodeChallenge v)
      (stateParam (generateRandomState env) port)) = none) :
    (env.wait = WaitEvent.cancelled →
      (LoginWithAuthCodeFlow env notify w).1 = Except.error "login cancelled" ∧
      (LoginWithAuthCodeFlow env notify w).2.calls = w.calls) ∧
    (env.wait = WaitEvent.timeout →
      (LoginWithAuthCodeFlow env notify w).1 = Except.error "authentication timed out" ∧
      (LoginWithAuthCodeFlow env notify w).2.calls = w.calls) ∧
    (∀ code x, env.wait = WaitEvent.callback code x → x ≠ "" →
      (LoginWithAuthCodeFlow env notify w).1 = Except.error ("OAuth error: " ++ x) ∧
      (LoginWithAuthCodeFlow env notify w).2.calls = w.calls) ∧
    (env.wait = WaitEvent.callback "" "" →
      (LoginWithAuthCodeFlow env notify w).1 = Except.error "no authorization code received" ∧
      (LoginWithAuthCodeFlow env notify w).2.calls = w.calls) ∧
    (∀ x : String, "OAuth error: " ++ x ≠ "login cancelled" ∧
      "OAuth error: " ++ x ≠ "authentication timed out") ∧
    "login cancelled" ≠ "authentication timed out" := by
  refine ⟨?_, ?_, ?_, ?_, fun x => ⟨oauth_error_ne_cancelled x, oauth_error_ne_timeout x⟩,
    by decide⟩
  · intro hw
    unfold LoginWithAuthCodeFlow
    simp only [hv, hl]
    unfold loginWhileServing
    simp only [hb, hw, report_calls, and_self]
  · intro hw
    unfold LoginWithAuthCodeFlow
    simp only [hv, hl]
    unfold loginWhileServing
    simp only [hb, hw, report_calls, and_self]
  · intro code x hw hx
    unfold LoginWithAuthCodeFlow
    simp only [hv, hl]
    unfold loginWhileServing
    simp [hb, hw, callbackHandler, hx, report_calls]
  · intro hw
    unfold LoginWithAuthCodeFlow
    simp only [hv, hl]
    unfold loginWhileServing
    simp [hb, hw, callbackHandler, report_calls]

/-- C15 at a sample: the provider refuses with `access_denied`. -/
theorem LoginWithAuthCodeFlow_wait_failure_witness :
    (LoginWithAuthCodeFlow { sampleEnv with wait := WaitEvent.callback "" "access_denied" }
        true sampleWorld).1 = Except.error "OAuth error: access_denied" ∧
    (LoginWithAuthCodeFlow { sampleEnv with wait := WaitEvent.callback "" "access_denied" }
        true sampleWorld).2.calls = [] :=
  (LoginWithAuthCodeFlow_wait_failure { sampleEnv with wait := WaitEvent.callback "" "access_denied" }
    true sampleWorld (rawURLEncodeToString sampleRandom.val) 43210 rfl rfl rfl).2.2.1
      "" "access_denied" rfl (by decide)

/-! ## C16: the choice of the profile -/

/-- A 200 answer with a readable, parseable body makes `exchangeCodeForToken` succeed. -/
theorem exchangeCodeForToken_ok_of (env : Env) (c v r : String) (w : World) (resp : HttpResponse)
    (tok : TokenResponse)
    (hresp : env.roundTrip (tokenRequest c v r) = Except.ok resp)
    (hstatus : resp.StatusCode = 200) (hread : resp.ReadErr = none)
    (hbody : jsonUnmarshal TokenResponse.setField resp.Body ⟨"", "", 0⟩ = (tok, none)) :
    exchangeCodeForToken env c v r w =
      (Except.ok { AccessToken := tok.AccessToken, RefreshToken := tok.RefreshToken,
                   ExpiresAt := (afterCall env (tokenRequest c v r) w).now +
                     secondsDuration tok.ExpiresIn,
                   SessionToken := "", IdentityToken := "", Username := "", UUID := "",
                   AccountOwnerID := "" }, afterCall env (tokenRequest c v r) w) := by
  unfold exchangeCodeForToken
  simp only [newRequest, tokenRequest_built, clientDo, hresp, hread, hstatus, hbody]
  simp [afterCall]

/-- A 200 answer with a readable, parseable body makes `fetchProfiles` succeed. -/
theorem fetchProfiles_ok_of (env : Env) (t : String) (w : World) (resp : HttpResponse)
    (p : ProfilesResponse)
    (hresp : env.roundTrip (profilesRequest t) = Except.ok resp)
    (hstatus : resp.StatusCode = 200) (hread : resp.ReadErr = none)
    (hbody : jsonUnmarshal ProfilesResponse.setField resp.Body ⟨"", []⟩ = (p, none)) :
    fetchProfiles env t w = (Except.ok p, afterCall env (profilesRequest t) w) := by
  unfold fetchProfiles
  simp only [newRequest, profilesRequest_built, clientDo, hresp, hread, hstatus, hbody]
  simp [afterCall]

/-- What `loginWithCode` does once the token exchange and the profile fetch have succeeded. -/
theorem loginWithCode_profiles (env : Env) (notify : Bool) (code v : String) (w : World)
    (resp1 : HttpResponse) (tok : TokenResponse)
    (h1 : env.roundTrip (tokenRequest code v "https://accounts.hytale.com/consent/client") =
      Except.ok resp1)
    (h1s : resp1.StatusCode = 200) (h1r : resp1.ReadErr = none)
    (h1b : jsonUnmarshal TokenResponse.setField resp1.Body ⟨"", "", 0⟩ = (tok, none))
    (resp2 : HttpResponse) (profiles : ProfilesResponse)
    (h2 : env.roundTrip (profilesRequest tok.AccessToken) = Except.ok resp2)
    (h2s : resp2.StatusCode = 200) (h2r : resp2.ReadErr = none)
    (h2b : jsonUnmarshal ProfilesResponse.setField resp2.Body ⟨"", []⟩ = (profiles, none)) :
    (profiles.Profiles = [] →
      (loginWithCode env notify code v w).1 = Except.error "no profiles found for this account" ∧
      (loginWithCode env notify code v w).2.calls = w.calls ++
        [tokenRequest code v "https://accounts.hytale.com/consent/client",
         profilesRequest tok.AccessToken]) ∧
    (∀ p tl, profiles.Profiles = p :: tl →
      (loginWithCode env notify code v w).2.calls = w.calls ++
        [tokenRequest code v "https://accounts.hytale.com/consent/client",
         profilesRequest tok.AccessToken,
         { Method := "POST", URL := SessionURL,
           Header := [("Authorization", "Bearer " ++ tok.AccessToken),
                      ("Content-Type", "application/json"), ("User-Agent", "HyPrism/1.0")],
           Body := String.mk (Char.ofNat 123 :: (jsonQuote "uuid" ++ ':' ::
             jsonQuote p.UUID ++ [Char.ofNat 125])) }] ∧
      ∀ s, (loginWithCode env notify code v w).1 = Except.ok s →
        s.Username = p.Username ∧ s.UUID = p.UUID ∧ s.AccountOwnerID = profiles.Owner) := by
  unfold loginWithCode
  simp only [exchangeCodeForToken_ok_of env code v _ _ resp1 tok h1 h1s h1r h1b,
    fetchProfiles_ok_of env tok.AccessToken _ resp2 profiles h2 h2s h2r h2b]
  refine ⟨?_, ?_⟩
  · intro hp
    simp only [hp]
    simp [afterCall, report_calls]
  · intro p tl hp
    simp only [hp]
    split
    next e w6 heq6 =>
      have h6 := createGameSession_snd env _ _ ▸ congrArg Prod.snd heq6
      simp only at h6
      subst h6
      refine ⟨?_, ?_⟩
      · simp [afterCall, report_calls, gameSessionRequest]
      · intro s hs
        simp at hs
    next s2 w6 heq6 =>
      have h6 := createGameSession_snd env _ _ ▸ congrArg Prod.snd heq6
      have h7 := createGameSession_ok_inv env _ s2 _ (congrArg Prod.fst heq6)
      simp only at h6
      subst h6
      refine ⟨?_, ?_⟩
      · simp [afterCall, report_calls, gameSessionRequest]
      · intro s hs
        simp only [Except.ok.injEq] at hs
        subst hs
        obtain ⟨_, _, _, _, _, _, hs2⟩ := h7
        rw [hs2]
        exact ⟨rfl, rfl, rfl⟩

/-- C16: in a login whose callback delivered a code and whose token exchange
and profile fetch succeeded, an empty profile list ends the login with
`no profiles found for this account` after exactly these two requests, no
game session being asked for; a non-empty list makes the third request the
creation of a game session for the uuid of the first profile, and a session
that is returned has the username and uuid of the first profile and the owner
of the response as its account owner. -/
theorem LoginWithAuthCodeFlow_profile_choice (env : Env) (notify : Bool) (w : World)
    (v : String) (port : Nat) (code : String)
    (hv : generateCodeVerifier env = Except.ok v)
    (hl : env.listen = Except.ok port)
    (hb : env.openBrowser (authorizationURL (generateCodeChallenge v)
      (stateParam (generateRandomState env) port)) = none)
    (hw : env.wait = WaitEvent.callback code "") (hcode : code ≠ "")
    (resp1 : HttpResponse) (tok : TokenResponse)
    (h1 : env.roundTrip (tokenRequest code v "https://accounts.hytale.com/consent/client") =
      Except.ok resp1)
    (h1s : resp1.StatusCode = 200) (h1r : resp1.ReadErr = none)
    (h1b : jsonUnmarshal TokenResponse.setField resp1.Body ⟨"", "", 0⟩ = (tok, none))
    (resp2 : HttpResponse) (profiles : ProfilesResponse)
    (h2 : env.roundTrip (profilesRequest tok.AccessToken) = Except.ok resp2)
    (h2s : resp2.StatusCode = 200) (h2r : resp2.ReadErr = none)
    (h2b : jsonUnmarshal ProfilesResponse.setField resp2.Body ⟨"", []⟩ = (profiles, none)) :
    (profiles.Profiles = [] →
      (LoginWithAuthCodeFlow env notify w).1 =
        Except.error "no profiles found for this account" ∧
      (LoginWithAuthCodeFlow env notify w).2.calls = w.calls ++
        [tokenRequest code v "https://accounts.hytale.com/consent/client",
         profilesRequest tok.AccessToken]) ∧
    (∀ p tl, profiles.Profiles = p :: tl →
      (LoginWithAuthCodeFlow env notify w).2.calls = w.calls ++
        [tokenRequest code v "https://accounts.hytale.com/consent/client",
         profilesRequest tok.AccessToken,
         { Method := "POST", URL := SessionURL,
           Header := [("Authorization", "Bearer " ++ tok.AccessToken),
                      ("Content-Type", "application/json"), ("User-Agent", "HyPrism/1.0")],
           Body := String.mk (Char.ofNat 123 :: (jsonQuote "uuid" ++ ':' ::
             jsonQuote p.UUID ++ [Char.ofNat 125])) }] ∧
      ∀ s, (LoginWithAuthCodeFlow env notify w).1 = Except.ok s →
        s.Username = p.Username ∧ s.UUID = p.UUID ∧ s.AccountOwnerID = profiles.Owner) := by
  have hsend : (callbackHandler code "").send = Except.ok code := by
    simp [callbackHandler, hcode]
  unfold LoginWithAuthCodeFlow
  simp only [hv, hl]
  unfold loginWhileServing
  simp only [hb, hw, hsend]
  generalize hW : report notify "Waiting for authorization..." _ = W
  have hcalls : W.calls = w.calls := by
    rw [← hW]
    simp only [report_calls]
  obtain ⟨hA, hB⟩ := loginWithCode_profiles env notify code v W resp1 tok h1 h1s h1r h1b
    resp2 profiles h2 h2s h2r h2b
  rw [hcalls] at hA hB
  exact ⟨hA, hB⟩

/-- C16 at samples: an account without profiles, and the sample account. -/
theorem LoginWithAuthCodeFlow_profile_choice_witness :
    (LoginWithAuthCodeFlow (envWith sampleTokenBody noProfilesBody sampleGameBody) true
      sampleWorld).1 = Except.error "no profiles found for this account" ∧
    (LoginWithAuthCodeFlow (envWith sampleTokenBody noProfilesBody sampleGameBody) true
      sampleWorld).2.calls =
        [tokenRequest "abc123" (rawURLEncodeToString sampleRandom.val)
           "https://accounts.hytale.com/consent/client", profilesRequest "AT2"] ∧
    (LoginWithAuthCodeFlow sampleEnv true sampleWorld).1 = Except.ok refreshedSample ∧
    refreshedSample.Username = "bob" ∧ refreshedSample.UUID = "u-1" ∧
    refreshedSample.AccountOwnerID = "own" :=
  ⟨((LoginWithAuthCodeFlow_profile_choice (envWith sampleTokenBody noProfilesBody sampleGameBody)
      true sampleWorld (rawURLEncodeToString sampleRandom.val) 43210 "abc123" rfl rfl rfl rfl
      (by decide) ⟨200, sampleTokenBody, none⟩ ⟨"AT2", "RT2", 3600⟩ rfl rfl rfl (by decide)
      ⟨200, noProfilesBody, none⟩ ⟨"own", []⟩ rfl rfl rfl (by decide)).1 rfl).1,
   ((LoginWithAuthCodeFlow_profile_choice (envWith sampleTokenBody noProfilesBody sampleGameBody)
      true sampleWorld (rawURLEncodeToString sampleRandom.val) 43210 "abc123" rfl rfl rfl rfl
      (by decide) ⟨200, sampleTokenBody, none⟩ ⟨"AT2", "RT2", 3600⟩ rfl rfl rfl (by decide)
      ⟨200, noProfilesBody, none⟩ ⟨"own", []⟩ rfl rfl rfl (by decide)).1 rfl).2,
   rfl,
   ((LoginWithAuthCodeFlow_profile_choice sampleEnv true sampleWorld
      (rawURLEncodeToString sampleRandom.val) 43210 "abc123" rfl rfl rfl rfl
      (by decide) ⟨200, sampleTokenBody, none⟩ ⟨"AT2", "RT2", 3600⟩ rfl rfl rfl (by decide)
      ⟨200, sampleProfilesBody, none⟩ ⟨"own", [⟨"u-1", "bob"⟩]⟩ rfl rfl rfl (by decide)).2
      ⟨"u-1", "bob"⟩ [] rfl).2 refreshedSample rfl⟩

/-! ## C17: the token endpoint answers with another status than 200 -/

theorem token_failed_ne_pending (x : String) : "token request failed: " ++ x ≠ "authorization_pending" := by
  intro h
  have h2 := congrArg String.data h
  rw [String.data_append] at h2
  change 't' :: _ = 'a' :: _ at h2
  injection h2 with h3 _
  exact absurd h3 (by decide)

/-- C17 (as the code has it): when the token endpoint answers with a status
other than 200 and the body was read, `exchangeCodeForToken` decodes the body
as a structured error, keeping what was decoded when decoding fails.  If the
error code is `authorization_pending` the returned error is exactly
`authorization_pending`; otherwise it is `token request failed: ` followed by
the error code, ` - ` and the error description, which differs from
`authorization_pending`.  Neither the status nor the body is part of it.  No
session is returned. -/
theorem exchangeCodeForToken_non200 (env : Env) (c v r : String) (w : World) (resp : HttpResponse)
    (hresp : env.roundTrip (tokenRequest c v r) = Except.ok resp)
    (hstatus : resp.StatusCode ≠ 200) (hread : resp.ReadErr = none) :
    ((jsonUnmarshal TokenErrorResponse.setField resp.Body ⟨"", ""⟩).1.Error = "authorization_pending" →
      (exchangeCodeForToken env c v r w).1 = Except.error "authorization_pending") ∧
    ((jsonUnmarshal TokenErrorResponse.setField resp.Body ⟨"", ""⟩).1.Error ≠ "authorization_pending" →
      (exchangeCodeForToken env c v r w).1 = Except.error ("token request failed: " ++
        (jsonUnmarshal TokenErrorResponse.setField resp.Body ⟨"", ""⟩).1.Error ++ " - " ++
        (jsonUnmarshal TokenErrorResponse.setField resp.Body ⟨"", ""⟩).1.ErrorDescription)) ∧
    (∀ x y : String, "token request failed: " ++ x ++ " - " ++ y ≠ "authorization_pending") := by
  refine ⟨?_, ?_, ?_⟩
  · intro hp
    unfold exchangeCodeForToken
    simp only [newRequest, tokenRequest_built, clientDo, hresp, hread]
    simp [hstatus, hp]
  · intro hp
    unfold exchangeCodeForToken
    simp only [newRequest, tokenRequest_built, clientDo, hresp, hread]
    simp [hstatus, hp]
  · intro x y
    have := token_failed_ne_pending (x ++ " - " ++ y)
    simpa [String.append_assoc] using this

/-- C17 at samples: a pending authorization, and a plain refusal. -/
theorem exchangeCodeForToken_non200_witness :
    (exchangeCodeForToken (envStatus 400 pendingBody) "c" "v" "r" sampleWorld).1 =
      Except.error "authorization_pending" ∧
    (exchangeCodeForToken env401 "c" "v" "r" sampleWorld).1 =
      Except.error "token request failed:  - " :=
  ⟨(exchangeCodeForToken_non200 (envStatus 400 pendingBody) "c" "v" "r" sampleWorld
      ⟨400, pendingBody, none⟩ rfl (by decide) rfl).1 (by decide),
   (exchangeCodeForToken_non200 env401 "c" "v" "r" sampleWorld
      ⟨401, "unauthorized", none⟩ rfl (by decide) rfl).2.1 (by decide)⟩

/-- C17, against "carries the HTTP status and the response body": answers
with different statuses and different bodies give the same error, in which
neither appears. -/
theorem exchangeCodeForToken_status_counterexample :
    (exchangeCodeForToken (envStatus 500 "Internal Server Error") "c" "v" "r" sampleWorld).1 =
      Except.error "token request failed:  - " ∧
    (exchangeCodeForToken (envStatus 403 "forbidden") "c" "v" "r" sampleWorld).1 =
      Except.error "token request failed:  - " :=
  ⟨rfl, rfl⟩

/-! ## C18: the session of a token response -/

theorem secondsDuration_exact (n : Int) (h1 : -9223372036 ≤ n) (h2 : n ≤ 9223372036) :
    secondsDuration n = n * 1000000000 := by
  unfold secondsDuration wrapInt64
  omega

/-- C18 (as the code has it): when the token endpoint answers 200 and the body
was read, a body that decodes to `access_token = a`, `refresh_token = r`,
`expires_in = n` gives a session with these two tokens whose expiry is the
time at which the answer arrived plus `n` seconds computed in 64 bits: exactly
`n` seconds later when `n` is between -9223372036 and 9223372036, wrapped
around otherwise.  A body that does not decode gives the decoding error and no
session. -/
theorem exchangeCodeForToken_ok (env : Env) (c v r : String) (w : World) (resp : HttpResponse)
    (hresp : env.roundTrip (tokenRequest c v r) = Except.ok resp)
    (hstatus : resp.StatusCode = 200) (hread : resp.ReadErr = none) :
    (∀ tok, jsonUnmarshal TokenResponse.setField resp.Body ⟨"", "", 0⟩ = (tok, none) →
      ∃ s, (exchangeCodeForToken env c v r w).1 = Except.ok s ∧
        s.AccessToken = tok.AccessToken ∧ s.RefreshToken = tok.RefreshToken ∧
        s.ExpiresAt = w.now + (env.elapsed (tokenRequest c v r) : Int) +
          secondsDuration tok.ExpiresIn ∧
        (-9223372036 ≤ tok.ExpiresIn → tok.ExpiresIn ≤ 9223372036 →
          s.ExpiresAt = w.now + (env.elapsed (tokenRequest c v r) : Int) +
            tok.ExpiresIn * 1000000000)) ∧
    (∀ tok e, jsonUnmarshal TokenResponse.setField resp.Body ⟨"", "", 0⟩ = (tok, some e) →
      (exchangeCodeForToken env c v r w).1 = Except.error e) := by
  refine ⟨?_, ?_⟩
  · intro tok hbody
    refine ⟨{ AccessToken := tok.AccessToken, RefreshToken := tok.RefreshToken,
              ExpiresAt := w.now + (env.elapsed (tokenRequest c v r) : Int) +
                secondsDuration tok.ExpiresIn,
              SessionToken := "", IdentityToken := "", Username := "", UUID := "",
              AccountOwnerID := "" }, ?_, rfl, rfl, rfl, ?_⟩
    · unfold exchangeCodeForToken
      simp only [newRequest, tokenRequest_built, clientDo, hresp, hread, hstatus, hbody]
      simp
    · intro h1 h2
      show w.now + _ + secondsDuration tok.ExpiresIn = _
      rw [secondsDuration_exact _ h1 h2]
  · intro tok e hbody
    unfold exchangeCodeForToken
    simp only [newRequest, tokenRequest_built, clientDo, hresp, hread, hstatus, hbody]
    simp

/-- C18 at a sample: one hour granted at 13:47:00.000001. -/
theorem exchangeCodeForToken_ok_witness :
    ∃ s, (exchangeCodeForToken sampleEnv "c" "v" "r" sampleWorld).1 = Except.ok s ∧
      s.AccessToken = "AT2" ∧ s.RefreshToken = "RT2" ∧
      s.ExpiresAt = 1762264020000000000 + 1000 + 3600 * 1000000000 :=
  match (exchangeCodeForToken_ok sampleEnv "c" "v" "r" sampleWorld ⟨200, sampleTokenBody, none⟩
      rfl rfl rfl).1 ⟨"AT2", "RT2", 3600⟩ (by decide) with
  | ⟨s, h, ha, hr, _, he⟩ => ⟨s, h, ha, hr, he (by decide) (by decide)⟩

/-- C18, against "n any integer the body can carry": a lifetime of 9223372037
seconds overflows 64 bits of nanoseconds, and the expiry of the session lies
before the time of the answer. -/
theorem exchangeCodeForToken_overflow_counterexample :
    ∃ s, (exchangeCodeForToken (envStatus 200 hugeLifetimeTokenBody) "c" "v" "r" sampleWorld).1 =
        Except.ok s ∧
      jsonUnmarshal TokenResponse.setField hugeLifetimeTokenBody ⟨"", "", 0⟩ =
        (⟨"AT2", "RT2", 9223372037⟩, none) ∧
      s.ExpiresAt = -7461108016709550616 ∧
      s.ExpiresAt ≠ 1762264020000000000 + 1000 + 9223372037 * 1000000000 ∧
      s.ExpiresAt < 1762264020000000000 :=
  ⟨_, rfl, by decide, rfl, by decide, by decide⟩

/-! ## C19: what a refresh keeps and what it replaces -/

/-- C19: the session that a successful `RefreshSession` returns has the
username, uuid and account owner of the session it was given; its access and
refresh tokens are those of the token response, and its session and identity
tokens are those of the game-session response. -/
theorem RefreshSession_identity_kept (env : Env) (s s1 : AuthSession) (w : World)
    (h : (RefreshSession env s w).1 = Except.ok s1) :
    s1.Username = s.Username ∧ s1.UUID = s.UUID ∧ s1.AccountOwnerID = s.AccountOwnerID ∧
    ∃ resp tok resp2 gs,
      env.roundTrip (refreshRequest s.RefreshToken) = Except.ok resp ∧
      jsonUnmarshal TokenResponse.setField resp.Body ⟨"", "", 0⟩ = (tok, none) ∧
      env.roundTrip { Method := "POST", URL := SessionURL,
                      Header := [("Authorization", "Bearer " ++ tok.AccessToken),
                                 ("Content-Type", "application/json"),
                                 ("User-Agent", "HyPrism/1.0")],
                      Body := String.mk (Char.ofNat 123 :: (jsonQuote "uuid" ++ ':' ::
                        jsonQuote s.UUID ++ [Char.ofNat 125])) } = Except.ok resp2 ∧
      jsonUnmarshal GameSessionResponse.setField resp2.Body ⟨"", "", ""⟩ = (gs, none) ∧
      s1.AccessToken = tok.AccessToken ∧ s1.RefreshToken = tok.RefreshToken ∧
      s1.SessionToken = gs.SessionToken ∧ s1.IdentityToken = gs.IdentityToken := by
  obtain ⟨resp, tok, hr, _, _, hbody, hg, _⟩ := RefreshSession_ok_inv env s s1 w h
  obtain ⟨resp2, gs, hr2, _, _, hbody2, hs1⟩ := createGameSession_ok_inv env _ s1 _ hg
  subst hs1
  exact ⟨rfl, rfl, rfl, resp, tok, resp2, gs, hr, hbody, hr2, hbody2, rfl, rfl, rfl, rfl⟩

/-- C19 at a sample: the expired sample session, refreshed in the sample environment. -/
theorem RefreshSession_identity_kept_witness :
    refreshedSample.Username = sampleSession.Username ∧
    refreshedSample.UUID = sampleSession.UUID ∧
    refreshedSample.AccountOwnerID = sampleSession.AccountOwnerID :=
  match RefreshSession_identity_kept sampleEnv sampleSession refreshedSample expiredWorld rfl with
  | ⟨h1, h2, h3, _⟩ => ⟨h1, h2, h3⟩

/-! ## C20: an expiry of the game session that does not parse -/

/-- C20: when the game-session endpoint answers 200 with a body that decodes
and whose `expiresAt` is not a timestamp that `time.Parse` accepts,
`createGameSession` succeeds, the expiry of the session is the one it had
before the call, and the session and identity tokens are those of the response. -/
theorem createGameSession_bad_expiry (env : Env) (s : AuthSession) (w : World)
    (resp : HttpResponse) (gs : GameSessionResponse)
    (hresp : env.roundTrip (gameSessionRequest s) = Except.ok resp)
    (hstatus : resp.StatusCode = 200) (hread : resp.ReadErr = none)
    (hbody : jsonUnmarshal GameSessionResponse.setField resp.Body ⟨"", "", ""⟩ = (gs, none))
    (hparse : timeParse env.timeParseLayout gs.ExpiresAt = none) :
    ∃ s1, (createGameSession env s w).1 = Except.ok s1 ∧
      s1.ExpiresAt = s.ExpiresAt ∧
      s1.SessionToken = gs.SessionToken ∧ s1.IdentityToken = gs.IdentityToken ∧
      s1.AccessToken = s.AccessToken ∧ s1.RefreshToken = s.RefreshToken ∧
      s1.Username = s.Username ∧ s1.UUID = s.UUID ∧ s1.AccountOwnerID = s.AccountOwnerID := by
  refine ⟨_, createGameSession_ok_of env s w resp gs hresp hstatus hread hbody, ?_,
    rfl, rfl, rfl, rfl, rfl, rfl, rfl⟩
  simp only [hparse]

/-- C20 at a sample: the game session expires "soon". -/
theorem createGameSession_bad_expiry_witness :
    ∃ s1, (createGameSession (envStatus 200 badExpiryGameBody) sampleSession sampleWorld).1 =
        Except.ok s1 ∧
      s1.ExpiresAt = 1762264800000000000 ∧ s1.SessionToken = "ST2" ∧ s1.IdentityToken = "IT2" :=
  match createGameSession_bad_expiry (envStatus 200 badExpiryGameBody) sampleSession sampleWorld
      ⟨200, badExpiryGameBody, none⟩ ⟨"ST2", "IT2", "soon"⟩ rfl rfl rfl (by decide) (by decide) with
  | ⟨s1, h, he, hs, hi, _⟩ => ⟨s1, h, he, hs, hi⟩

/-! ## C21: an absent file is not an error -/

theorem LoadSession_eq_loadSessionOf (env : Env) (w : World) :
    LoadSession env w = loadSessionOf env (osReadFile w) := by
  unfold LoadSession loadSessionOf
  cases osReadFile w <;> rfl

/-- C21: `LoadSession` is its continuation `loadSessionOf` applied to the
result of `os.ReadFile`.  Whatever the read gives, the result is an error
exactly when the read failed for another reason than the absence of the file,
or the content does not decode; it is "no session" (nil, nil) exactly when the
file is absent; otherwise it is the decoded session.  On the store, an absent
file gives "no session" and a file that is there never does. -/
theorem LoadSession_error_iff (env : Env) (read : Except PathError String) :
    ((∃ e, loadSessionOf env read = Except.error e) ↔
      (∃ msg, read = Except.error (PathError.other msg)) ∨
      (∃ data s e, read = Except.ok data ∧
        jsonUnmarshal (AuthSession.setField env.timeParseLayout) data AuthSession.zero =
          (s, some e))) ∧
    (loadSessionOf env read = Except.ok none ↔ read = Except.error PathError.notExist) ∧
    (∀ w, LoadSession env w = loadSessionOf env (osReadFile w)) ∧
    (∀ w, w.sessionFile = none → LoadSession env w = Except.ok none) ∧
    (∀ w f, w.sessionFile = some f → LoadSession env w ≠ Except.ok none) := by
  refine ⟨?_, ?_, LoadSession_eq_loadSessionOf env, ?_, ?_⟩
  · cases read with
    | error pe =>
      cases pe with
      | notExist => simp [loadSessionOf, PathError.isNotExist]
      | other msg => simp [loadSessionOf, PathError.isNotExist]
    | ok data =>
      cases hj : jsonUnmarshal (AuthSession.setField env.timeParseLayout) data AuthSession.zero with
      | mk s err =>
        cases err with
        | none => simp [loadSessionOf, hj]
        | some e => simp [loadSessionOf, hj]
  · cases read with
    | error pe =>
      cases pe with
      | notExist => simp [loadSessionOf, PathError.isNotExist]
      | other msg => simp [loadSessionOf, PathError.isNotExist]
    | ok data =>
      cases hj : jsonUnmarshal (AuthSession.setField env.timeParseLayout) data AuthSession.zero with
      | mk s err =>
        cases err with
        | none => simp [loadSessionOf, hj]
        | some e => simp [loadSessionOf, hj]
  · intro w h
    simp [LoadSession, osReadFile, h, PathError.isNotExist]
  · intro w f h
    unfold LoadSession osReadFile
    rw [h]
    simp only
    split <;> simp

/-- C21 at samples: no file, a file that is not JSON, and the sample file. -/
theorem LoadSession_error_iff_witness :
    LoadSession sampleEnv sampleWorld = Except.ok none ∧
    LoadSession sampleEnv (worldWithFile corruptFile) =
      Except.error "failed to parse session: invalid character in JSON input" ∧
    LoadSession sampleEnv (worldWithFile sampleFile) = Except.ok (some sampleSession) :=
  ⟨(LoadSession_error_iff sampleEnv (Except.error PathError.notExist)).2.2.2.1 sampleWorld rfl,
   rfl, rfl⟩

/-! ## C22: clearing twice -/

/-- C22: from every state of the store, `ClearSession` returns no error and
leaves no session file; a second call returns no error either and changes nothing. -/
theorem ClearSession_idempotent (w : World) :
    (ClearSession w).1 = Except.ok () ∧
    (ClearSession w).2.sessionFile = none ∧
    (ClearSession (ClearSession w).2).1 = Except.ok () ∧
    (ClearSession (ClearSession w).2).2 = (ClearSession w).2 := by
  unfold ClearSession osRemove
  cases hsf : w.sessionFile <;> simp [hsf, PathError.isNotExist]

/-- C22 at a sample: the stored sample session, cleared twice. -/
theorem ClearSession_idempotent_sample :
    (ClearSession (worldWithFile sampleFile)).1 = Except.ok () ∧
    (ClearSession (worldWithFile sampleFile)).2.sessionFile = none ∧
    (ClearSession (ClearSession (worldWithFile sampleFile)).2).1 = Except.ok () ∧
    (ClearSession (ClearSession (worldWithFile sampleFile)).2).2 =
      (ClearSession (worldWithFile sampleFile)).2 :=
  ClearSession_idempotent (worldWithFile sampleFile)

/-! ## C23: the modes of the session file and of its directory -/

theorem land_mod_512 (p u : Nat) (hp : p &&& 511 = p) : p &&& u = p &&& (u % 512) := by
  have h2 : u &&& 511 = u % 512 := Nat.and_pow_two_sub_one_eq_mod u 9
  calc p &&& u = (p &&& 511) &&& u := by rw [hp]
    _ = p &&& (511 &&& u) := Nat.and_assoc p 511 u
    _ = p &&& (u &&& 511) := by rw [Nat.and_comm 511 u]
    _ = p &&& (u % 512) := by rw [h2]

theorem file_bits : ∀ v : Fin 512, (384 - (384 &&& v.val)) &&& 127 = 0 := by decide

theorem dir_bits : ∀ v : Fin 512,
    (448 - (448 &&& v.val)) &&& 63 = 0 ∧ (493 - (493 &&& v.val)) &&& 18 = 0 ∧
    (448 - (448 &&& v.val)) &&& 18 = 0 := by decide

/-- A file created with mode `0600` gives nothing to group and others, and is
not executable, whatever the umask. -/
theorem applyUmask_file (u : Nat) : applyUmask 384 u &&& 127 = 0 := by
  unfold applyUmask
  rw [land_mod_512 384 u (by decide)]
  exact file_bits ⟨u % 512, Nat.mod_lt u (by decide)⟩

/-- A directory created with mode `0700` gives nothing to group and others. -/
theorem applyUmask_dir_owner (u : Nat) : applyUmask 448 u &&& 63 = 0 := by
  unfold applyUmask
  rw [land_mod_512 448 u (by decide)]
  exact (dir_bits ⟨u % 512, Nat.mod_lt u (by decide)⟩).1

/-- A directory created with mode `0755` is writable by its owner only. -/
theorem applyUmask_dir_shared (u : Nat) : applyUmask 493 u &&& 18 = 0 := by
  unfold applyUmask
  rw [land_mod_512 493 u (by decide)]
  exact (dir_bits ⟨u % 512, Nat.mod_lt u (by decide)⟩).2.1

/-- A directory created with mode `0700` is writable by its owner only. -/
theorem applyUmask_dir_owner_write (u : Nat) : applyUmask 448 u &&& 18 = 0 := by
  unfold applyUmask
  rw [land_mod_512 448 u (by decide)]
  exact (dir_bits ⟨u % 512, Nat.mod_lt u (by decide)⟩).2.2

theorem ClearSession_appDir (w : World) : (ClearSession w).2.appDir = w.appDir := by
  unfold ClearSession osRemove
  cases hsf : w.sessionFile <;> simp [hsf, PathError.isNotExist]

theorem RefreshSession_appDir (env : Env) (s : AuthSession) (w : World) :
    (RefreshSession env s w).2.appDir = w.appDir := by
  unfold RefreshSession
  simp only [newRequest, refreshRequest_built, clientDo]
  split
  next e w1 heq => simp only [Prod.mk.injEq] at heq; rw [← heq.2]
  next resp w1 heq =>
    simp only [Prod.mk.injEq] at heq
    split
    · rw [← heq.2]
    · split
      · rw [← heq.2]
      · split
        · rw [← heq.2]
        · split
          next e w2 heq2 =>
            have h6 := createGameSession_snd env _ _ ▸ congrArg Prod.snd heq2
            simp only at h6
            subst h6
            show (afterCall env _ w1).appDir = _
            rw [← heq.2]
            rfl
          next s2 w2 heq2 =>
            have h6 := createGameSession_snd env _ _ ▸ congrArg Prod.snd heq2
            simp only at h6
            subst h6
            show (afterCall env _ w1).appDir = _
            rw [← heq.2]
            rfl

theorem LoginWithAuthCodeFlow_appDir (env : Env) (notify : Bool) (w : World) :
    (LoginWithAuthCodeFlow env notify w).2.appDir = w.appDir := by
  unfold LoginWithAuthCodeFlow
  split
  · rfl
  next v hv =>
    split
    · rfl
    next port hl =>
      simp only
      unfold loginWhileServing
      simp only
      split
      · simp [report_appDir]
      · split
        · simp [report_appDir]
        · simp [report_appDir]
        · split
          · simp [report_appDir]
          next c hsend =>
            generalize hW : report notify "Waiting for authorization..." _ = W
            obtain ⟨_, _, _, _, _, hf⟩ := loginWithCode_calls env notify c v W
            show (loginWithCode env notify c v W).2.appDir = _
            rw [hf, ← hW]
            simp [report_appDir]

/-- The modes of a world depend on its directory and its session file only. -/
theorem storeModes_congr (w w1 : World) (hd : w1.appDir = w.appDir)
    (hf : w1.sessionFile = w.sessionFile) (h : storeModes w) : storeModes w1 := by
  unfold storeModes at h ⊢
  rw [hd, hf]
  exact h

/-- What `SaveSession` leaves when it succeeds: the file keeps its mode when it
was there, and gets `0600` less the umask otherwise; the same for the
directory, with `0700`. -/
theorem SaveSession_ok_modes (env : Env) (s : AuthSession) (w : World)
    (hok : (SaveSession env s w).1 = Except.ok ()) :
    ∃ f d, (SaveSession env s w).2.sessionFile = some f ∧ (SaveSession env s w).2.appDir = some d ∧
      f.mode = (match w.sessionFile with
        | some f0 => f0.mode
        | none => applyUmask 384 env.umask) ∧
      d = (match w.appDir with
        | some d0 => d0
        | none => applyUmask 448 env.umask) := by
  unfold SaveSession at hok ⊢
  cases hm : marshalSessionIndent s with
  | error e => simp [hm] at hok
  | ok data =>
    cases hd : w.appDir <;> cases hf : w.sessionFile <;>
      simp [osMkdirAll, osWriteFile, hd, hf]

theorem SaveSession_storeModes (env : Env) (s : AuthSession) (w : World) (h : storeModes w) :
    storeModes (SaveSession env s w).2 := by
  unfold SaveSession
  cases hm : marshalSessionIndent s with
  | error e => exact h
  | ok data =>
    obtain ⟨h1, h2⟩ := h
    cases hd : w.appDir with
    | none =>
      cases hf : w.sessionFile with
      | none =>
        simp only [osMkdirAll, osWriteFile, hd, hf, storeModes]
        refine ⟨?_, ?_⟩
        · intro f hf1
          simp only [Option.some.injEq] at hf1
          subst hf1
          exact ⟨env.umask, rfl⟩
        · intro d hd1
          simp only [Option.some.injEq] at hd1
          subst hd1
          exact ⟨env.umask, Or.inl rfl⟩
      | some f0 =>
        obtain ⟨u, hu⟩ := h1 f0 hf
        simp only [osMkdirAll, osWriteFile, hd, hf, storeModes]
        refine ⟨?_, ?_⟩
        · intro f hf1
          simp only [Option.some.injEq] at hf1
          subst hf1
          exact ⟨u, hu⟩
        · intro d hd1
          simp only [Option.some.injEq] at hd1
          subst hd1
          exact ⟨env.umask, Or.inl rfl⟩
    | some d0 =>
      cases hf : w.sessionFile with
      | none =>
        simp only [osMkdirAll, osWriteFile, hd, hf, storeModes]
        refine ⟨?_, ?_⟩
        · intro f hf1
          simp only [Option.some.injEq] at hf1
          subst hf1
          exact ⟨env.umask, rfl⟩
        · intro d hd1
          exact h2 d (by rw [hd]; exact hd1)
      | some f0 =>
        obtain ⟨u, hu⟩ := h1 f0 hf
        simp only [osMkdirAll, osWriteFile, hd, hf, storeModes]
        refine ⟨?_, ?_⟩
        · intro f hf1
          simp only [Option.some.injEq] at hf1
          subst hf1
          exact ⟨u, hu⟩
        · intro d hd1
          exact h2 d (by rw [hd]; exact hd1)

theorem ClearSession_storeModes (w : World) (h : storeModes w) : storeModes (ClearSession w).2 := by
  obtain ⟨_, h2⟩ := h
  refine ⟨?_, ?_⟩
  · intro f hf
    rw [ClearSession_file] at hf
    exact absurd hf (by simp)
  · intro d hd
    rw [ClearSession_appDir] at hd
    exact h2 d hd

theorem Startup_storeModes (env : Env) (w : World) (h : storeModes w) :
    storeModes (App.Startup env w) := by
  obtain ⟨h1, h2⟩ := h
  unfold App.Startup CreateFolders osMkdirAll
  cases hd : w.appDir with
  | some d0 =>
    simp only
    exact ⟨h1, h2⟩
  | none =>
    simp only
    refine ⟨h1, ?_⟩
    intro d hd1
    simp only [Option.some.injEq] at hd1
    subst hd1
    exact ⟨env.umask, Or.inr rfl⟩

theorem GetValidSession_storeModes (env : Env) (w : World) (h : storeModes w) :
    storeModes (GetValidSession env w).2 := by
  unfold GetValidSession
  split
  · exact h
  · exact h
  next session hload =>
    split
    · have hr : storeModes (RefreshSession env session w).2 :=
        storeModes_congr w _ (RefreshSession_appDir env session w)
          (RefreshSession_file env session w) h
      split
      next e w1 heq =>
        rw [heq] at hr
        exact ClearSession_storeModes w1 hr
      next s1 w1 heq =>
        rw [heq] at hr
        have hs := SaveSession_storeModes env s1 w1 hr
        split
        next e2 w2 heq2 => rw [heq2] at hs; exact hs
        next u w2 heq2 => rw [heq2] at hs; exact hs
    · exact h

theorem Login_storeModes (env : Env) (w : World) (h : storeModes w) :
    storeModes (App.LoginWithHytaleAccount env w).2 := by
  unfold App.LoginWithHytaleAccount
  have hr : storeModes (LoginWithAuthCodeFlow env true w).2 :=
    storeModes_congr w _ (LoginWithAuthCodeFlow_appDir env true w)
      (LoginWithAuthCodeFlow_file env true w) h
  split
  next e w1 heq => rw [heq] at hr; exact hr
  next s1 w1 heq =>
    rw [heq] at hr
    have hs := SaveSession_storeModes env s1 w1 hr
    split
    next e2 w2 heq2 => rw [heq2] at hs; exact hs
    next u w2 heq2 => rw [heq2] at hs; exact hs

/-- Every state the application reaches has the modes the application gives. -/
theorem reachable_storeModes (w : World) (h : StoreReachable w) : storeModes w := by
  induction h with
  | fresh w hd hf =>
    refine ⟨?_, ?_⟩
    · intro f h1; rw [hf] at h1; exact absurd h1 (by simp)
    · intro d h1; rw [hd] at h1; exact absurd h1 (by simp)
  | startup env w _ ih => exact Startup_storeModes env w ih
  | save env s w _ ih => exact SaveSession_storeModes env s w ih
  | login env w _ ih => exact Login_storeModes env w ih
  | getValid env w _ ih => exact GetValidSession_storeModes env w ih
  | clear w _ ih => exact ClearSession_storeModes w ih

/-- C23 (as the code has it): after every successful `SaveSession`, from any
state the application reaches, the session file is there with a mode that is
`0600` less some umask: nothing for group and others, and not executable.
The directory is there; it is writable by its owner only, and its mode is
`0700` less the umask, with nothing for group and others, when this
`SaveSession` created it.  A directory that was already there keeps its mode,
which is `0755` less the umask when `App.Startup` created it. -/
theorem SaveSession_modes (w : World) (hr : StoreReachable w) (env : Env) (s : AuthSession)
    (hok : (SaveSession env s w).1 = Except.ok ()) :
    ∃ f d, (SaveSession env s w).2.sessionFile = some f ∧ (SaveSession env s w).2.appDir = some d ∧
      f.mode &&& 127 = 0 ∧ (∃ u, f.mode = applyUmask 384 u) ∧
      d &&& 18 = 0 ∧ (∃ u, d = applyUmask 448 u ∨ d = applyUmask 493 u) ∧
      (w.appDir = none → d = applyUmask 448 env.umask ∧ d &&& 63 = 0) ∧
      (∀ d0, w.appDir = some d0 → d = d0) := by
  obtain ⟨f, d, hf, hd, _, hdm⟩ := SaveSession_ok_modes env s w hok
  obtain ⟨h1, h2⟩ := SaveSession_storeModes env s w (reachable_storeModes w hr)
  obtain ⟨u, hu⟩ := h1 f hf
  obtain ⟨u2, hu2⟩ := h2 d hd
  refine ⟨f, d, hf, hd, ?_, ⟨u, hu⟩, ?_, ⟨u2, hu2⟩, ?_, ?_⟩
  · rw [hu]; exact applyUmask_file u
  · rcases hu2 with h | h
    · rw [h]; exact applyUmask_dir_owner_write u2
    · rw [h]; exact applyUmask_dir_shared u2
  · intro h0
    rw [h0] at hdm
    simp only at hdm
    rw [hdm]
    exact ⟨rfl, applyUmask_dir_owner env.umask⟩
  · intro d0 h0
    rw [h0] at hdm
    exact hdm

/-- C23 at samples: a first save on a machine on which the application never
started, and a save after `App.Startup`, both under the umask `022`. -/
theorem SaveSession_modes_witness :
    (∃ f d, (SaveSession sampleEnv sampleSession sampleWorld).2.sessionFile = some f ∧
      (SaveSession sampleEnv sampleSession sampleWorld).2.appDir = some d ∧
      f.mode &&& 127 = 0 ∧ d &&& 63 = 0) ∧
    (∃ f d, (SaveSession sampleEnv sampleSession startedWorld).2.sessionFile = some f ∧
      (SaveSession sampleEnv sampleSession startedWorld).2.appDir = some d ∧
      f.mode &&& 127 = 0 ∧ d &&& 18 = 0) :=
  ⟨match SaveSession_modes sampleWorld (StoreReachable.fresh sampleWorld rfl rfl) sampleEnv
      sampleSession rfl with
    | ⟨f, d, hf, hd, hfm, _, _, _, hnew, _⟩ => ⟨f, d, hf, hd, hfm, (hnew rfl).2⟩,
   match SaveSession_modes startedWorld
      (StoreReachable.startup sampleEnv sampleWorld (StoreReachable.fresh sampleWorld rfl rfl))
      sampleEnv sampleSession rfl with
    | ⟨f, d, hf, hd, hfm, _, hdm, _, _, _⟩ => ⟨f, d, hf, hd, hfm, hdm⟩⟩

/-- C23, against "the directory has a mode restricting access to the owner":
after `App.Startup` under the umask `022`, a successful `SaveSession` leaves
the directory with mode `0755`, readable and searchable by group and others;
the session file in it has mode `0600`. -/
theorem SaveSession_after_Startup_counterexample :
    StoreReachable startedWorld ∧
    (SaveSession sampleEnv sampleSession startedWorld).1 = Except.ok () ∧
    (SaveSession sampleEnv sampleSession startedWorld).2.appDir = some 493 ∧
    493 &&& 63 = 45 ∧
    (SaveSession sampleEnv sampleSession startedWorld).2.sessionFile =
      some ⟨384, sampleFile⟩ :=
  ⟨StoreReachable.startup sampleEnv sampleWorld (StoreReachable.fresh sampleWorld rfl rfl),
   rfl, rfl, by decide, rfl⟩

/-! ## C24: the receiver is torn down on every return -/

theorem report_listener (n : Bool) (m : String) (w : World) :
    (report n m w).listener = w.listener ∧ (report n m w).serving = w.serving := by
  unfold report; cases n <;> simp

/-- Nothing in `loginWithCode` closes the listener or stops the server. -/
theorem loginWithCode_listener (env : Env) (notify : Bool) (c v : String) (w : World) :
    (loginWithCode env notify c v w).2.listener = w.listener ∧
    (loginWithCode env notify c v w).2.serving = w.serving := by
  unfold loginWithCode
  simp only
  split
  next e w2 heq =>
    have h2 := exchangeCodeForToken_snd env c v "https://accounts.hytale.com/consent/client"
      (report notify "Exchanging authorization code for token..." w)
    rw [heq] at h2
    simp only at h2
    subst h2
    simp [afterCall, report_listener]
  next session w2 heq =>
    have h2 := exchangeCodeForToken_snd env c v "https://accounts.hytale.com/consent/client"
      (report notify "Exchanging authorization code for token..." w)
    rw [heq] at h2
    simp only at h2
    subst h2
    split
    next e w4 heq4 =>
      have h4 := fetchProfiles_snd env session.AccessToken _ ▸ congrArg Prod.snd heq4
      simp only at h4
      subst h4
      simp [afterCall, report_listener]
    next profiles w4 heq4 =>
      have h4 := fetchProfiles_snd env session.AccessToken _ ▸ congrArg Prod.snd heq4
      simp only at h4
      subst h4
      split
      next hp => simp [afterCall, report_listener]
      next profile tl hp =>
        split
        next e w6 heq6 =>
          have h6 := createGameSession_snd env _ _ ▸ congrArg Prod.snd heq6
          simp only at h6
          subst h6
          simp [afterCall, report_listener]
        next s2 w6 heq6 =>
          have h6 := createGameSession_snd env _ _ ▸ congrArg Prod.snd heq6
          simp only at h6
          subst h6
          simp [afterCall, report_listener]

/-- Nothing between the start of the server and the return closes the listener
or stops the server: only the deferred calls do. -/
theorem loginWhileServing_listener (env : Env) (notify : Bool) (v ch : String) (port : Nat)
    (w : World) :
    (loginWhileServing env notify v ch port w).2.listener = w.listener ∧
    (loginWhileServing env notify v ch port w).2.serving = w.serving := by
  unfold loginWhileServing
  simp only
  split
  · simp [report_listener]
  · split
    · simp [report_listener]
    · simp [report_listener]
    · split
      · simp [report_listener]
      next c hsend =>
        generalize hW : report notify "Waiting for authorization..." _ = W
        have hl := loginWithCode_listener env notify c v W
        rw [hl.1, hl.2, ← hW]
        simp [report_listener]

/-- C24: once the listener is bound, the receiver stays up, on the port it was
given, through everything `LoginWithAuthCodeFlow` does until it returns, and
whatever it returns (a session or any of its errors) the deferred calls have
run: in the state it leaves, the server is shut down and the listener is closed. -/
theorem LoginWithAuthCodeFlow_teardown (env : Env) (notify : Bool) (w : World) (v : String)
    (port : Nat) (hv : generateCodeVerifier env = Except.ok v) (hl : env.listen = Except.ok port) :
    (LoginWithAuthCodeFlow env notify w).2.listener = none ∧
    (LoginWithAuthCodeFlow env notify w).2.serving = false ∧
    (LoginWithAuthCodeFlow env notify w).1 =
      (loginWhileServing env notify v (generateCodeChallenge v) port
        { w with listener := some port, serving := true }).1 ∧
    (loginWhileServing env notify v (generateCodeChallenge v) port
      { w with listener := some port, serving := true }).2.listener = some port ∧
    (loginWhileServing env notify v (generateCodeChallenge v) port
      { w with listener := some port, serving := true }).2.serving = true := by
  have h := loginWhileServing_listener env notify v (generateCodeChallenge v) port
    { w with listener := some port, serving := true }
  refine ⟨?_, ?_, ?_, h.1, h.2⟩
  · unfold LoginWithAuthCodeFlow
    simp only [hv, hl]
  · unfold LoginWithAuthCodeFlow
    simp only [hv, hl]
  · unfold LoginWithAuthCodeFlow
    simp only [hv, hl]

/-- C24 at samples: a login that succeeds, one that the provider refuses, one
that times out, one that is cancelled, one whose browser does not open, and
one whose token exchange fails; each leaves the receiver closed. -/
theorem LoginWithAuthCodeFlow_teardown_witness :
    (LoginWithAuthCodeFlow sampleEnv true sampleWorld).2.listener = none ∧
    (LoginWithAuthCodeFlow sampleEnv true sampleWorld).2.serving = false ∧
    (LoginWithAuthCodeFlow { sampleEnv with wait := WaitEvent.callback "" "access_denied" }
      true sampleWorld).2.listener = none ∧
    (LoginWithAuthCodeFlow { sampleEnv with wait := WaitEvent.timeout }
      true sampleWorld).2.listener = none ∧
    (LoginWithAuthCodeFlow { sampleEnv with wait := WaitEvent.cancelled }
      true sampleWorld).2.listener = none ∧
    (LoginWithAuthCodeFlow { sampleEnv with openBrowser := fun _ => some "no browser" }
      true sampleWorld).2.listener = none ∧
    (LoginWithAuthCodeFlow env401 true sampleWorld).2.listener = none :=
  ⟨(LoginWithAuthCodeFlow_teardown sampleEnv true sampleWorld
      (rawURLEncodeToString sampleRandom.val) 43210 rfl rfl).1,
   (LoginWithAuthCodeFlow_teardown sampleEnv true sampleWorld
      (rawURLEncodeToString sampleRandom.val) 43210 rfl rfl).2.1,
   (LoginWithAuthCodeFlow_teardown { sampleEnv with wait := WaitEvent.callback "" "access_denied" }
      true sampleWorld (rawURLEncodeToString sampleRandom.val) 43210 rfl rfl).1,
   (LoginWithAuthCodeFlow_teardown { sampleEnv with wait := WaitEvent.timeout }
      true sampleWorld (rawURLEncodeToString sampleRandom.val) 43210 rfl rfl).1,
   (LoginWithAuthCodeFlow_teardown { sampleEnv with wait := WaitEvent.cancelled }
      true sampleWorld (rawURLEncodeToString sampleRandom.val) 43210 rfl rfl).1,
   (LoginWithAuthCodeFlow_teardown { sampleEnv with openBrowser := fun _ => some "no browser" }
      true sampleWorld (rawURLEncodeToString sampleRandom.val) 43210 rfl rfl).1,
   (LoginWithAuthCodeFlow_teardown env401 true sampleWorld
      (rawURLEncodeToString sampleRandom.val) 43210 rfl rfl).1⟩

/-! ## C25: the markup of the failure page -/

theorem htmlScan_append : ∀ (a b : List Char) (st : Option (List Char)),
    htmlScan st (a ++ b) =
      ((htmlScan st a).1 ++ (htmlScan (htmlScan st a).2 b).1, (htmlScan (htmlScan st a).2 b).2)
  | [], b, st => by
    cases st <;> simp [htmlScan]
  | c :: a, b, none => by
    simp only [List.cons_append, htmlScan]
    split
    · exact htmlScan_append a b (some [])
    · exact htmlScan_append a b none
  | c :: a, b, some acc => by
    simp only [List.cons_append, htmlScan]
    split
    · have ih := htmlScan_append a b none
      change htmlScan none (a ++ b) = _ at ih
      simp only [List.append_eq, ih, List.cons_append]
    · exact htmlScan_append a b (some (c :: acc))

/-- Text without `<` opens no tag. -/
theorem htmlScan_text (e : List Char) (h : '<' ∉ e) : htmlScan none e = ([], none) := by
  induction e with
  | nil => rfl
  | cons c e ih =>
    have hc : c ≠ '<' := fun x => h (by rw [x]; exact List.mem_cons_self _ _)
    have he : '<' ∉ e := fun x => h (List.mem_cons_of_mem _ x)
    rw [htmlScan, if_neg hc, ih he]

/-- The failure page is the format string with the error value in the place of `%s`. -/
theorem failurePage_data (code error : String) (h : error ≠ "") :
    (callbackHandler code error).page.data =
      "<html><body><h1>Authentication failed</h1><p>Error: ".data ++
        (error.data ++ "</p><p>You can close this window.</p></body></html>".data) := by
  simp only [callbackHandler, h, ne_eq, not_false_eq_true, if_true, String.data_append,
    List.append_assoc]

/-- C25 (where it holds): for an error value that contains no `<`, the tags of
the failure page are those of the format string; a `>` or `&` in the value
adds none. -/
theorem failurePage_tags_of_plain (code error : String) (h : error ≠ "")
    (hlt : '<' ∉ error.data) :
    htmlTags (callbackHandler code error).page = failureTemplateTags := by
  unfold htmlTags
  rw [failurePage_data code error h, htmlScan_append]
  have hp : htmlScan none "<html><body><h1>Authentication failed</h1><p>Error: ".data =
      (["html", "body", "h1", "/h1", "p"], none) := by decide
  rw [hp]
  simp only
  rw [htmlScan_append, htmlScan_text _ hlt]
  simp only [List.nil_append]
  have hs : htmlScan none "</p><p>You can close this window.</p></body></html>".data =
      (["/p", "p", "/p", "/body", "/html"], none) := by decide
  rw [hs]
  rfl

/-- C25 at a sample: the provider refuses with `access_denied`. -/
theorem failurePage_tags_of_plain_witness :
    htmlTags (callbackHandler "" "access_denied").page =
      ["html", "body", "h1", "/h1", "p", "/p", "p", "/p", "/body", "/html"] :=
  failurePage_tags_of_plain "" "access_denied" (by decide) (by decide)

/-- C25, against "no error value can add tags": the error value
`<script>alert(1)</script>` is written into the page as it is, and the page
then has a `script` element that the format string does not have. -/
theorem failurePage_script_counterexample :
    (callbackHandler "" "<script>alert(1)</script>").page =
      "<html><body><h1>Authentication failed</h1><p>Error: <script>alert(1)</script></p><p>You can close this window.</p></body></html>" ∧
    htmlTags (callbackHandler "" "<script>alert(1)</script>").page =
      ["html", "body", "h1", "/h1", "p", "script", "/script", "/p", "p", "/p", "/body", "/html"] ∧
    htmlTags (callbackHandler "" "<script>alert(1)</script>").page ≠ failureTemplateTags ∧
    (callbackOnQuery [("error", "<script>alert(1)</script>")]).page =
      (callbackHandler "" "<script>alert(1)</script>").page :=
  ⟨by decide, by decide, by decide, by decide⟩

end HyPrism
